import Mathlib

/-!
# RestartSQP: the SL1QP trust-region driver

A shallow embedding of `SqpAlgorithm` (src/src/SqpAlgorithm.cpp).  C++ `double`
values are modelled by rationals (exact arithmetic), `int` counters by `Nat`/`Int`.
The driver's fields are the fields of `SqpAlgorithm`; the fields filled once by
`get_option_values_` are gathered in `SqpOptions`.  C++ exceptions are modelled by
`Result.raise`, which carries the state reached when the exception was thrown.
-/

namespace SQPhotstart

/-! ## Enumerations -/

/-- Exit codes of the driver (`Exitflag`), as used by `print_final_stats`. -/
inductive Exitflag
  | OPTIMAL
  | INVALID_NLP
  | EXCEED_MAX_ITERATIONS
  | EXCEED_MAX_CPU_TIME
  | EXCEED_MAX_WALLCLOCK_TIME
  | TRUST_REGION_TOO_SMALL
  | PRED_REDUCTION_NEGATIVE
  | QPERROR_INFEASIBLE
  | QPERROR_UNBOUNDED
  | QPERROR_EXCEED_MAX_ITER
  | QPERROR_NOTINITIALISED
  | QPERROR_UNKNOWN
  | QP_OPTIMAL
  | UNKNOWN
  deriving DecidableEq, Repr

/-- Classification of a constraint or of a variable bound (`ConstraintType`). -/
inductive ConstraintType
  | UNBOUNDED
  | BOUNDED_ABOVE
  | BOUNDED_BELOW
  | BOUNDED
  | EQUAL
  deriving DecidableEq, Repr

/-- Active-set markers (`ActiveType`). -/
inductive ActiveType
  | INACTIVE
  | ACTIVE_ABOVE
  | ACTIVE_BELOW
  | ACTIVE_BOTH_SIDE
  deriving DecidableEq, Repr

/-- QP engines selectable through `qp_solver_choice`. -/
inductive Solver
  | QORE
  | QPOASES
  | GUROBI
  | CPLEX
  deriving DecidableEq, Repr

/-- Exceptions declared with `DECLARE_STD_EXCEPTION` and thrown in the driver. -/
inductive SqpException
  | QP_NOT_OPTIMAL
  | LP_NOT_OPTIMAL
  | QP_UNCHANGED
  | SMALL_TRUST_REGION
  deriving DecidableEq, Repr

/-- Outcome of a driver method: normal return, or an exception together with the
state of the object at the throw. -/
inductive Result (α : Type)
  | ok : α → Result α
  | raise : SqpException → α → Result α
  deriving Repr

/-- State carried by an outcome, whether it returned or threw. -/
def Result.state {α : Type} : Result α → α
  | .ok s => s
  | .raise _ s => s

/-- Exception of an outcome, if one was thrown. -/
def Result.raised {α : Type} : Result α → Option SqpException
  | .ok _ => none
  | .raise e _ => some e

/-! ## Dense vectors -/

/-- Dense vector of doubles. -/
abbrev Vector := List ℚ

/-- Entry `i` of a vector (`get_value`). -/
def Vector.get_value (v : Vector) (i : Nat) : ℚ := v.getD i 0

/-- Modelled from the spec: `Vector::copy_values` of the refactored vector class
(dense vector "copy"); as `Vector::copy_vector(const double*)` of src/src/Vector.cpp,
it overwrites the `size_` entries of the destination with the leading source entries. -/
def Vector.copy_values (dst : Vector) (src : Vector) : Vector :=
  (List.range dst.length).map (fun i => src.getD i 0)

/-- Copy all entries from another vector (`copy_vector`). -/
def Vector.copy_vector (dst : Vector) (src : Vector) : Vector :=
  Vector.copy_values dst src

/-- Modelled from the spec: `Vector::add_vector(a, rhs)` ("elementwise add with
scaling"): entry `i` becomes `v[i] + a * rhs[i]`. -/
def Vector.add_vector (v : Vector) (a : ℚ) (rhs : Vector) : Vector :=
  (List.range v.length).map (fun i => v.getD i 0 + a * rhs.getD i 0)

/-- Modelled from the spec: `Vector::set_to_sum_of_vectors(a, x, b, y)`: entry `i`
becomes `a * x[i] + b * y[i]`. -/
def Vector.set_to_sum_of_vectors (dst : Vector) (a : ℚ) (x : Vector) (b : ℚ) (y : Vector) :
    Vector :=
  (List.range dst.length).map (fun i => a * x.getD i 0 + b * y.getD i 0)

/-- Infinity norm (`Vector::getInfNorm` of src/src/Vector.cpp, `calc_inf_norm` in
the refactored class). -/
def Vector.calc_inf_norm (v : Vector) : ℚ :=
  v.foldl (fun infnorm x =>
    let absxk := if x < 0 then -x else x
    if absxk > infnorm then absxk else infnorm) 0

/-- Modelled from the spec: `Vector::calc_one_norm`, the l1 norm. -/
def Vector.calc_one_norm (v : Vector) : ℚ :=
  v.foldl (fun acc x => acc + |x|) 0

/-- Add a number to one entry (no effect outside the vector). -/
def Vector.add_number_to_element (v : Vector) (i : Nat) (a : ℚ) : Vector :=
  v.set i (v.getD i 0 + a)

/-! ## Sparse triplet matrices -/

/-- Modelled from the spec: the sparse triplet matrix `SpTripletMat` (row count,
column count, arrays rows[E], cols[E], vals[E] with 1-based indices, and the
symmetric flag). -/
structure SpTripletMat where
  RowNum : Nat
  ColNum : Nat
  RowIndex : List Nat
  ColIndex : List Nat
  MatVal : List ℚ
  isSymmetric : Bool
  deriving DecidableEq, Repr

/-- Number of stored entries. -/
def SpTripletMat.EntryNum (A : SpTripletMat) : Nat := A.MatVal.length

/-- Modelled from the spec: `SpTripletMat::multiply_transpose(p, result)`,
`result = Aᵀ p`, accumulated entry by entry into a zeroed `result`. -/
def SpTripletMat.multiply_transpose (A : SpTripletMat) (p : Vector) (result : Vector) :
    Vector :=
  (List.range A.EntryNum).foldl (fun r i =>
      Vector.add_number_to_element r (A.ColIndex.getD i 0 - 1)
        (A.MatVal.getD i 0 * p.getD (A.RowIndex.getD i 0 - 1) 0))
    (List.replicate result.length 0)

/-- Modelled from the spec: `SpTripletMat::multiply(p, result)`, `result = A p`;
for a symmetric matrix only the upper triangle is stored and an off-diagonal entry
contributes to both rows. -/
def SpTripletMat.multiply (A : SpTripletMat) (p : Vector) (result : Vector) : Vector :=
  (List.range A.EntryNum).foldl (fun r i =>
      let row := A.RowIndex.getD i 0 - 1
      let col := A.ColIndex.getD i 0 - 1
      let r1 := Vector.add_number_to_element r row (A.MatVal.getD i 0 * p.getD col 0)
      if A.isSymmetric ∧ row ≠ col then
        Vector.add_number_to_element r1 col (A.MatVal.getD i 0 * p.getD row 0)
      else r1)
    (List.replicate result.length 0)

/-! ## Records of the driver -/

/-- Dirty flags of the QP data (`QPinfoFlag_`). -/
structure UpdateFlags where
  Update_A : Bool
  Update_H : Bool
  Update_g : Bool
  Update_bounds : Bool
  Update_delta : Bool
  Update_penalty : Bool
  deriving DecidableEq, Repr

/-- Record of the KKT check (`opt_status_`). -/
structure OptimalityStatus where
  first_order_opt : Bool
  primal_feasibility : Bool
  dual_feasibility : Bool
  complementarity : Bool
  stationarity : Bool
  primal_violation : ℚ
  dual_violation : ℚ
  compl_violation : ℚ
  stationarity_violation : ℚ
  KKT_error : ℚ
  deriving Repr

/-- Counters of the run (`Stats`). -/
structure Stats where
  iter : Nat
  qp_iter : Nat
  penalty_change_trial : Nat
  penalty_change_Succ : Nat
  penalty_change_Fail : Nat
  deriving DecidableEq, Repr

/-- Increment the outer iteration counter. -/
def Stats.iter_addone (st : Stats) : Stats := { st with iter := st.iter + 1 }

/-- Add the QP iterations reported by the engine. -/
def Stats.qp_iter_addValue (st : Stats) (n : Nat) : Stats := { st with qp_iter := st.qp_iter + n }

/-- Count one trial increase of the penalty parameter. -/
def Stats.penalty_change_trial_addone (st : Stats) : Stats :=
  { st with penalty_change_trial := st.penalty_change_trial + 1 }

/-- Count one accepted increase of the penalty parameter. -/
def Stats.penalty_change_Succ_addone (st : Stats) : Stats :=
  { st with penalty_change_Succ := st.penalty_change_Succ + 1 }

/-- Count one rejected increase of the penalty parameter. -/
def Stats.penalty_change_Fail_addone (st : Stats) : Stats :=
  { st with penalty_change_Fail := st.penalty_change_Fail + 1 }

/-- Values read once by `get_option_values_`; `NEW_FORMULATION` is the compile-time
switch of the same name. -/
structure SqpOptions where
  max_num_iterations : Int
  cpu_time_limit : ℚ
  wallclock_time_limit : ℚ
  trust_region_max_value : ℚ
  trust_region_min_value : ℚ
  trust_region_ratio_decrease_tol : ℚ
  trust_region_ratio_accept_tol : ℚ
  trust_region_ratio_increase_tol : ℚ
  trust_region_decrease_factor : ℚ
  trust_region_increase_factor : ℚ
  penalty_update_tol : ℚ
  penalty_parameter_increase_factor : ℚ
  penalty_parameter_max_value : ℚ
  eps1_change_parm : ℚ
  eps2 : ℚ
  penalty_iter_max : Int
  perform_second_order_correction_step : Bool
  active_set_tol : ℚ
  opt_tol : ℚ
  opt_tol_primal_feasibility : ℚ
  opt_tol_dual_feasibility : ℚ
  opt_tol_stationarity_feasibility : ℚ
  opt_tol_complementarity : ℚ
  qp_solver_choice : Solver
  NEW_FORMULATION : Bool

/-- The problem oracle (`SqpNlpBase`), an external collaborator: the callbacks the
driver consumes after initialisation. -/
structure SqpNlp where
  eval_f : Vector → ℚ
  eval_constraints : Vector → Vector
  eval_gradient : Vector → Vector
  eval_jacobian : Vector → SpTripletMat → SpTripletMat
  eval_hessian : Vector → Vector → SpTripletMat → SpTripletMat

/-- Status a QP handler reports (spec 4.6). -/
inductive QPStatus
  | OPTIMAL
  | INFEASIBLE
  | UNBOUNDED
  | NOT_INITIALISED
  | EXCEED_MAX_ITER
  | UNKNOWN
  deriving DecidableEq, Repr

/-- Modelled from the spec: the exit code `QPhandler::get_status` hands to the
driver; the handler's status is mapped to the corresponding `QPERROR_*` code (spec
7), a solved QP to `QP_OPTIMAL`. -/
def QPStatus.toExitflag : QPStatus → Exitflag
  | .OPTIMAL => Exitflag.QP_OPTIMAL
  | .INFEASIBLE => Exitflag.QPERROR_INFEASIBLE
  | .UNBOUNDED => Exitflag.QPERROR_UNBOUNDED
  | .NOT_INITIALISED => Exitflag.QPERROR_NOTINITIALISED
  | .EXCEED_MAX_ITER => Exitflag.QPERROR_EXCEED_MAX_ITER
  | .UNKNOWN => Exitflag.QPERROR_UNKNOWN

/-- What one `solveQP` / `solveLP` call does: the handler's new state, the engine
iterations it adds to `stats_->qp_iter`, and whether it returned (`solved = false`
stands for the exception QP_NOT_OPTIMAL / LP_NOT_OPTIMAL). -/
structure SolveOutcome (σ : Type) where
  handler : σ
  qp_iter : Nat
  solved : Bool

/-- The QP handler (`QPhandler`), an external collaborator with internal state `σ`:
the methods the driver calls.  Any behaviour of the engine is a choice of `σ` and of
these functions. -/
structure QPhandler (σ : Type) where
  set_A : SpTripletMat → σ → σ
  set_H : SpTripletMat → σ → σ
  set_bounds : ℚ → Vector → Vector → Vector → Vector → Vector → Vector → σ → σ
  set_g : Vector → ℚ → σ → σ
  set_g_LP : ℚ → σ → σ
  update_A : SpTripletMat → σ → σ
  update_H : SpTripletMat → σ → σ
  update_bounds : ℚ → Vector → Vector → Vector → Vector → Vector → Vector → σ → σ
  update_delta : ℚ → Vector → Vector → Vector → σ → σ
  update_penalty : ℚ → σ → σ
  update_grad : Vector → σ → σ
  solveQP : σ → SolveOutcome σ
  solveLP : σ → SolveOutcome σ
  status : σ → QPStatus
  get_optimal_solution : σ → Vector
  get_constraints_multipliers : σ → Vector
  get_bounds_multipliers : σ → Vector
  get_objective : σ → ℚ
  get_infea_measure_model : σ → ℚ

/-- Exit code reported by the handler (`get_status`). -/
def QPhandler.get_status {σ : Type} (h : QPhandler σ) (q : σ) : Exitflag :=
  (h.status q).toExitflag

/-- Mutable members of `SqpAlgorithm`; `myQP` and `myLP` are the states of the two
handlers. -/
structure SqpAlgorithm (σ : Type) where
  nVar : Nat
  nCon : Nat
  x_k : Vector
  x_trial : Vector
  p_k : Vector
  c_k : Vector
  c_trial : Vector
  multiplier_cons : Vector
  multiplier_vars : Vector
  grad_f : Vector
  x_l : Vector
  x_u : Vector
  c_l : Vector
  c_u : Vector
  hessian : SpTripletMat
  jacobian : SpTripletMat
  delta : ℚ
  rho : ℚ
  eps1 : ℚ
  obj_value : ℚ
  obj_value_trial : ℚ
  infea_measure : ℚ
  infea_measure_model : ℚ
  infea_measure_trial : ℚ
  norm_p_k : ℚ
  qp_obj : ℚ
  actual_reduction : ℚ
  pred_reduction : ℚ
  cons_type : List ConstraintType
  bound_cons_type : List ConstraintType
  Active_Set_constraints : List ActiveType
  Active_Set_bounds : List ActiveType
  opt_status : OptimalityStatus
  QPinfoFlag : UpdateFlags
  exit_flag : Exitflag
  isaccept : Bool
  stats : Stats
  myQP : σ
  myLP : σ

/-! ## Methods of the driver -/

section Driver

variable {σ : Type}

/-- Objective value of the QP, read from the handler (`get_obj_QP`). -/
def get_obj_QP (h : QPhandler σ) (s : SqpAlgorithm σ) : ℚ :=
  h.get_objective s.myQP

/-- Copy the leading `nVar` entries of the QP solution into `p_k`
(`get_search_direction`). -/
def get_search_direction (h : QPhandler σ) (s : SqpAlgorithm σ) : SqpAlgorithm σ :=
  { s with p_k := Vector.copy_values s.p_k (h.get_optimal_solution s.myQP) }

/-- Fetch the multipliers from the QP handler (`get_multipliers`); for GUROBI and
CPLEX the bound multipliers are rebuilt as `H p_k + grad_f - Jᵀ multiplier_cons`. -/
def get_multipliers (o : SqpOptions) (h : QPhandler σ) (s : SqpAlgorithm σ) : SqpAlgorithm σ :=
  if o.qp_solver_choice = Solver.QORE ∨ o.qp_solver_choice = Solver.QPOASES then
    { s with
      multiplier_cons := Vector.copy_vector s.multiplier_cons (h.get_constraints_multipliers s.myQP)
      multiplier_vars := Vector.copy_values s.multiplier_vars (h.get_bounds_multipliers s.myQP) }
  else if o.qp_solver_choice = Solver.GUROBI ∨ o.qp_solver_choice = Solver.CPLEX then
    let multiplier_cons :=
      Vector.copy_vector s.multiplier_cons (h.get_constraints_multipliers s.myQP)
    let tmp_vec_nVar := s.jacobian.multiply_transpose multiplier_cons (List.replicate s.nVar 0)
    let mv0 := s.hessian.multiply s.p_k s.multiplier_vars
    let mv1 := Vector.add_vector mv0 1 s.grad_f
    let mv2 := Vector.add_vector mv1 (-1) tmp_vec_nVar
    { s with multiplier_cons := multiplier_cons, multiplier_vars := mv2 }
  else s

/-- Infeasibility measure (`cal_infea`): the constraint loop runs over the dimension
of the member `c_k_`, the optional variable loop over the dimension of `x_k_`. -/
def cal_infea (s : SqpAlgorithm σ) (c_k c_l c_u : Vector)
    (x : Option (Vector × Vector × Vector)) : ℚ :=
  let infea_c := (List.range s.c_k.length).foldl (fun infea_measure i =>
    if c_k.get_value i < c_l.get_value i then
      infea_measure + (c_l.get_value i - c_k.get_value i)
    else if c_k.get_value i > c_u.get_value i then
      infea_measure + (c_k.get_value i - c_u.get_value i)
    else infea_measure) 0
  match x with
  | none => infea_c
  | some (x_k, x_l, x_u) =>
    (List.range s.x_k.length).foldl (fun infea_measure i =>
      if x_k.get_value i < x_l.get_value i then
        infea_measure + (x_l.get_value i - x_k.get_value i)
      else if x_k.get_value i > x_u.get_value i then
        infea_measure + (x_k.get_value i - x_u.get_value i)
      else infea_measure) infea_c

/-- Trial point `x_trial = x_k + p_k` with its objective, constraints and
infeasibility measure (`get_trial_point_info`). -/
def get_trial_point_info (o : SqpOptions) (nlp : SqpNlp) (s : SqpAlgorithm σ) :
    SqpAlgorithm σ :=
  let x_trial := Vector.set_to_sum_of_vectors s.x_trial 1 s.x_k 1 s.p_k
  let obj_value_trial := nlp.eval_f x_trial
  let c_trial := nlp.eval_constraints x_trial
  let s1 := { s with x_trial := x_trial, obj_value_trial := obj_value_trial, c_trial := c_trial }
  if o.NEW_FORMULATION then
    let infea := cal_infea s1 s1.c_trial s1.c_l s1.c_u (some (s1.x_trial, s1.x_l, s1.x_u))
    { s1 with infea_measure_trial := infea }
  else
    { s1 with infea_measure_trial := cal_infea s1 s1.c_trial s1.c_l s1.c_u none }

/-- One `solveQP(stats_, options_)` call on `myQP_`: the handler state and the QP
iteration counter are updated; the Boolean is false when QP_NOT_OPTIMAL is thrown. -/
def solveQP (h : QPhandler σ) (s : SqpAlgorithm σ) : Bool × SqpAlgorithm σ :=
  let r := h.solveQP s.myQP
  (r.solved, { s with myQP := r.handler, stats := s.stats.qp_iter_addValue r.qp_iter })

/-- One `solveLP(stats_)` call on `myLP_`. -/
def solveLP (h : QPhandler σ) (s : SqpAlgorithm σ) : Bool × SqpAlgorithm σ :=
  let r := h.solveLP s.myLP
  (r.solved, { s with myLP := r.handler, stats := s.stats.qp_iter_addValue r.qp_iter })

/-- Set up the QP data (`setupQP`): everything at iteration 0, afterwards only the
components whose dirty flag is set; QP_UNCHANGED when no flag is set. -/
def setupQP (h : QPhandler σ) (s : SqpAlgorithm σ) : Result (SqpAlgorithm σ) :=
  if s.stats.iter = 0 then
    let q1 := h.set_A s.jacobian s.myQP
    let q2 := h.set_H s.hessian q1
    let q3 := h.set_bounds s.delta s.x_l s.x_u s.x_k s.c_l s.c_u s.c_k q2
    let q4 := h.set_g s.grad_f s.rho q3
    Result.ok { s with myQP := q4 }
  else
    if (!s.QPinfoFlag.Update_g) && (!s.QPinfoFlag.Update_H) && (!s.QPinfoFlag.Update_A) &&
        (!s.QPinfoFlag.Update_bounds) && (!s.QPinfoFlag.Update_delta) &&
        (!s.QPinfoFlag.Update_penalty) then
      Result.raise SqpException.QP_UNCHANGED s
    else
      let s1 :=
        if s.QPinfoFlag.Update_A then
          { s with myQP := h.update_A s.jacobian s.myQP,
                   QPinfoFlag := { s.QPinfoFlag with Update_A := false } }
        else s
      let s2 :=
        if s1.QPinfoFlag.Update_H then
          { s1 with myQP := h.update_H s1.hessian s1.myQP,
                    QPinfoFlag := { s1.QPinfoFlag with Update_H := false } }
        else s1
      let s3 :=
        if s2.QPinfoFlag.Update_bounds then
          { s2 with myQP := h.update_bounds s2.delta s2.x_l s2.x_u s2.x_k s2.c_l s2.c_u s2.c_k s2.myQP,
                    QPinfoFlag := { s2.QPinfoFlag with Update_bounds := false,
                                                       Update_delta := false } }
        else if s2.QPinfoFlag.Update_delta then
          { s2 with myQP := h.update_delta s2.delta s2.x_l s2.x_u s2.x_k s2.myQP,
                    QPinfoFlag := { s2.QPinfoFlag with Update_delta := false } }
        else s2
      let s4 :=
        if s3.QPinfoFlag.Update_penalty then
          { s3 with myQP := h.update_penalty s3.rho s3.myQP,
                    QPinfoFlag := { s3.QPinfoFlag with Update_penalty := false } }
        else s3
      let s5 :=
        if s4.QPinfoFlag.Update_g then
          { s4 with myQP := h.update_grad s4.grad_f s4.myQP,
                    QPinfoFlag := { s4.QPinfoFlag with Update_g := false } }
        else s4
      Result.ok s5

/-- Set up the LP of the penalty update (`setupLP`). -/
def setupLP (h : QPhandler σ) (s : SqpAlgorithm σ) : SqpAlgorithm σ :=
  let l1 := h.set_bounds s.delta s.x_l s.x_u s.x_k s.c_l s.c_u s.c_k s.myLP
  let l2 := h.set_g_LP s.rho l1
  let l3 := h.set_A s.jacobian l2
  { s with myLP := l3 }

/-- Ratio test (`ratio_test`, the `#if 1` branch): accept the trial point when the
actual reduction of the merit function is large enough. -/
def ratio_test (o : SqpOptions) (nlp : SqpNlp) (h : QPhandler σ) (s : SqpAlgorithm σ) :
    SqpAlgorithm σ :=
  let P1_x := s.obj_value + s.rho * s.infea_measure
  let P1_x_trial := s.obj_value_trial + s.rho * s.infea_measure_trial
  let s1 := { s with actual_reduction := P1_x - P1_x_trial,
                     pred_reduction := s.rho * s.infea_measure - get_obj_QP h s }
  if s1.actual_reduction ≥ o.trust_region_ratio_accept_tol * s1.pred_reduction ∧
      s1.actual_reduction ≥ -o.opt_tol then
    let s2 := { s1 with infea_measure := s1.infea_measure_trial,
                        obj_value := s1.obj_value_trial,
                        x_k := Vector.copy_vector s1.x_k s1.x_trial,
                        c_k := Vector.copy_vector s1.c_k s1.c_trial }
    let s3 := get_multipliers o h s2
    let s4 := { s3 with grad_f := nlp.eval_gradient s3.x_k }
    let s5 := { s4 with jacobian := nlp.eval_jacobian s4.x_k s4.jacobian }
    let s6 := { s5 with hessian := nlp.eval_hessian s5.x_k s5.multiplier_cons s5.hessian }
    { s6 with QPinfoFlag := { s6.QPinfoFlag with Update_A := true, Update_H := true,
                                                 Update_bounds := true, Update_g := true },
              isaccept := true }
  else
    { s1 with isaccept := false }

/-- Trust-region update (`update_radius`); SMALL_TRUST_REGION is thrown when the
radius falls below `trust_region_min_value`. -/
def update_radius (o : SqpOptions) (s : SqpAlgorithm σ) : Result (SqpAlgorithm σ) :=
  let s1 :=
    if s.actual_reduction < o.trust_region_ratio_decrease_tol * s.pred_reduction then
      { s with delta := o.trust_region_decrease_factor * s.delta,
               QPinfoFlag := { s.QPinfoFlag with Update_delta := true } }
    else
      if s.actual_reduction > o.trust_region_ratio_increase_tol * s.pred_reduction ∧
          o.opt_tol > |s.delta - Vector.calc_inf_norm s.p_k| then
        { s with delta := min (o.trust_region_increase_factor * s.delta) o.trust_region_max_value,
                 QPinfoFlag := { s.QPinfoFlag with Update_delta := true } }
      else s
  if s1.delta < o.trust_region_min_value then
    Result.raise SqpException.SMALL_TRUST_REGION
      { s1 with exit_flag := Exitflag.TRUST_REGION_TOO_SMALL }
  else Result.ok s1

/-- The test `multiplier_vars_ == nullptr` at the head of `check_optimality`:
`multiplier_vars_` is allocated by `allocate_memory` and never reset, so the test is
false in every driver state. -/
def multiplier_vars_is_nullptr (_s : SqpAlgorithm σ) : Bool := false

/-- One pass of the active-set loops of `check_optimality` over `n` rows: a marker
is written only in the branches that assign one. -/
def identify_active_set (active_set_tol : ℚ) (n : Nat) (type : List ConstraintType)
    (v l u : Vector) (Active_Set : List ActiveType) : List ActiveType :=
  (List.range n).foldl (fun A i =>
    match type.getD i ConstraintType.UNBOUNDED with
    | ConstraintType.BOUNDED_ABOVE =>
      if |u.get_value i - v.get_value i| < active_set_tol then
        A.set i ActiveType.ACTIVE_ABOVE
      else A
    | ConstraintType.BOUNDED_BELOW =>
      if |v.get_value i - l.get_value i| < active_set_tol then
        A.set i ActiveType.ACTIVE_BELOW
      else A
    | ConstraintType.EQUAL =>
      if |u.get_value i - v.get_value i| < active_set_tol ∧
          |v.get_value i - l.get_value i| < active_set_tol then
        A.set i ActiveType.ACTIVE_BOTH_SIDE
      else A
    | _ => A.set i ActiveType.INACTIVE) Active_Set

/-- One of the two dual-feasibility loops of `check_optimality`. -/
def dual_violation_loop (n : Nat) (type : List ConstraintType) (multiplier : Vector)
    (dual_violation : ℚ) : ℚ :=
  (List.range n).foldl (fun dv i =>
    match type.getD i ConstraintType.UNBOUNDED with
    | ConstraintType.BOUNDED_ABOVE => dv + max (multiplier.get_value i) 0
    | ConstraintType.BOUNDED_BELOW => dv + -(min (multiplier.get_value i) 0)
    | _ => dv) dual_violation

/-- One of the two complementarity loops of `check_optimality`. -/
def compl_violation_loop (n : Nat) (type : List ConstraintType) (multiplier v l u : Vector)
    (compl_violation : ℚ) : ℚ :=
  (List.range n).foldl (fun cv i =>
    match type.getD i ConstraintType.UNBOUNDED with
    | ConstraintType.BOUNDED_ABOVE =>
      cv + |multiplier.get_value i * (u.get_value i - v.get_value i)|
    | ConstraintType.BOUNDED_BELOW =>
      cv + |multiplier.get_value i * (v.get_value i - l.get_value i)|
    | ConstraintType.UNBOUNDED => cv + |multiplier.get_value i|
    | _ => cv) compl_violation

/-- KKT check (`check_optimality`): fetch the multipliers, mark the active set,
compute the four violations, record them in `opt_status_` and set the exit flag to
OPTIMAL when all four are below their tolerances. -/
def check_optimality (o : SqpOptions) (h : QPhandler σ) (s : SqpAlgorithm σ) : SqpAlgorithm σ :=
  let s1 := get_multipliers o h s
  -- active set of the constraints: the loop is the body of the pointer test
  let s2 :=
    if multiplier_vars_is_nullptr s1 then
      let A := identify_active_set o.active_set_tol s1.nCon s1.cons_type s1.c_k s1.c_l s1.c_u
        s1.Active_Set_constraints
      { s1 with Active_Set_constraints := A }
    else s1
  let B := identify_active_set o.active_set_tol s2.nVar s2.bound_cons_type s2.x_k s2.x_l s2.x_u
    s2.Active_Set_bounds
  let s3 := { s2 with Active_Set_bounds := B }
  let primal_violation : ℚ := 0 + s3.infea_measure
  let dual_violation :=
    dual_violation_loop s3.nCon s3.cons_type s3.multiplier_cons
      (dual_violation_loop s3.nVar s3.bound_cons_type s3.multiplier_vars 0)
  let compl_violation :=
    compl_violation_loop s3.nVar s3.bound_cons_type s3.multiplier_vars s3.x_k s3.x_l s3.x_u
      (compl_violation_loop s3.nCon s3.cons_type s3.multiplier_cons s3.c_k s3.c_l s3.c_u 0)
  let difference0 := s3.jacobian.multiply_transpose s3.multiplier_cons (List.replicate s3.nVar 0)
  let difference1 := Vector.add_vector difference0 1 s3.multiplier_vars
  let difference := Vector.add_vector difference1 (-1) s3.grad_f
  let stationarity_violation := Vector.calc_one_norm difference
  let st : OptimalityStatus :=
    { s3.opt_status with
      dual_violation := dual_violation
      primal_violation := primal_violation
      compl_violation := compl_violation
      stationarity_violation := stationarity_violation
      KKT_error := dual_violation + primal_violation + compl_violation + stationarity_violation
      primal_feasibility := decide (primal_violation < o.opt_tol_primal_feasibility)
      dual_feasibility := decide (dual_violation < o.opt_tol_dual_feasibility)
      complementarity := decide (compl_violation < o.opt_tol_complementarity)
      stationarity := decide (stationarity_violation < o.opt_tol_stationarity_feasibility) }
  if st.primal_feasibility && st.dual_feasibility && st.complementarity && st.stationarity then
    { s3 with opt_status := { st with first_order_opt := true }, exit_flag := Exitflag.OPTIMAL }
  else
    { s3 with opt_status := st }

/-- First penalty loop of `update_penalty_parameter` (lines 994-1018): the LP shows
the linearisation is feasible, so the penalty is increased until the QP model is
feasible too.  `none` when the fuel is used up before the loop is left. -/
def penalty_loop_feasible (o : SqpOptions) (h : QPhandler σ) :
    Nat → ℚ → SqpAlgorithm σ → Option (ℚ × SqpAlgorithm σ)
  | 0, rho_trial, s =>
    if s.infea_measure_model > o.penalty_update_tol then
      if rho_trial ≥ o.penalty_parameter_max_value then some (rho_trial, s) else none
    else some (rho_trial, s)
  | fuel + 1, rho_trial, s =>
    if s.infea_measure_model > o.penalty_update_tol then
      if rho_trial ≥ o.penalty_parameter_max_value then some (rho_trial, s)
      else
        let rho_trial1 :=
          min o.penalty_parameter_max_value (rho_trial * o.penalty_parameter_increase_factor)
        let s1 := { s with stats := s.stats.penalty_change_trial_addone }
        let s2 := { s1 with myQP := h.update_penalty rho_trial1 s1.myQP }
        let r := solveQP h s2
        if r.1 then
          penalty_loop_feasible o h fuel rho_trial1
            { r.2 with infea_measure_model := h.get_infea_measure_model r.2.myQP }
        else some (rho_trial1, { r.2 with exit_flag := h.get_status r.2.myQP })
    else some (rho_trial, s)

/-- Second penalty loop of `update_penalty_parameter` (lines 1020-1049): the penalty
is increased until the QP model achieves the fraction `eps1` of the infeasibility
reduction of the LP.  `none` when the fuel is used up before the loop is left. -/
def penalty_loop_infeasible (o : SqpOptions) (h : QPhandler σ) (infea_measure_infty : ℚ) :
    Nat → ℚ → SqpAlgorithm σ → Option (ℚ × SqpAlgorithm σ)
  | 0, rho_trial, s =>
    if s.infea_measure - s.infea_measure_model < s.eps1 * (s.infea_measure - infea_measure_infty) ∧
        (s.stats.penalty_change_trial : Int) < o.penalty_iter_max then
      if rho_trial ≥ o.penalty_parameter_max_value then some (rho_trial, s) else none
    else some (rho_trial, s)
  | fuel + 1, rho_trial, s =>
    if s.infea_measure - s.infea_measure_model < s.eps1 * (s.infea_measure - infea_measure_infty) ∧
        (s.stats.penalty_change_trial : Int) < o.penalty_iter_max then
      if rho_trial ≥ o.penalty_parameter_max_value then some (rho_trial, s)
      else
        let rho_trial1 :=
          min o.penalty_parameter_max_value (rho_trial * o.penalty_parameter_increase_factor)
        let s1 := { s with stats := s.stats.penalty_change_trial_addone }
        let s2 := { s1 with myQP := h.update_penalty rho_trial1 s1.myQP }
        let r := solveQP h s2
        if r.1 then
          penalty_loop_infeasible o h infea_measure_infty fuel rho_trial1
            { r.2 with infea_measure_model := h.get_infea_measure_model r.2.myQP }
        else some (rho_trial1, { r.2 with exit_flag := h.get_status r.2.myQP })
    else some (rho_trial, s)

/-- The two penalty loops of `update_penalty_parameter`, selected by the LP's
infeasibility measure (lines 989-1050). -/
def penalty_loops (o : SqpOptions) (h : QPhandler σ) (infea_measure_infty : ℚ) (fuel : Nat)
    (rho_trial : ℚ) (s : SqpAlgorithm σ) : Option (ℚ × SqpAlgorithm σ) :=
  if infea_measure_infty ≤ o.penalty_update_tol then
    penalty_loop_feasible o h fuel rho_trial s
  else
    penalty_loop_infeasible o h infea_measure_infty fuel rho_trial s

/-- Decision on the trial penalty at the end of `update_penalty_parameter` (lines
1051-1103): `infea_measure_model_tmp` is the model infeasibility stored before the
loops, `rho_trial` the value the loops ended with. -/
def penalty_decision (o : SqpOptions) (nlp : SqpNlp) (h : QPhandler σ)
    (infea_measure_model_tmp rho_trial : ℚ) (s : SqpAlgorithm σ) : SqpAlgorithm σ :=
  if rho_trial > s.rho then
    if rho_trial * s.infea_measure - get_obj_QP h s ≥
        o.eps2 * rho_trial * (s.infea_measure - s.infea_measure_model) then
      let s1 := { s with stats := s.stats.penalty_change_Succ_addone }
      let s2 := { s1 with eps1 := s1.eps1 + (1 - s1.eps1) * o.eps1_change_parm }
      let s3 := get_search_direction h s2
      let s4 := { s3 with rho := rho_trial }
      let s5 := get_trial_point_info o nlp s4
      let s6 := { s5 with qp_obj := get_obj_QP h s5 }
      let P1_x := s6.obj_value + s6.rho * s6.infea_measure
      let P1_x_trial := s6.obj_value_trial + s6.rho * s6.infea_measure_trial
      { s6 with actual_reduction := P1_x - P1_x_trial,
                pred_reduction := s6.rho * s6.infea_measure - get_obj_QP h s6 }
    else
      let s1 := { s with stats := s.stats.penalty_change_Fail_addone }
      { s1 with infea_measure_model := infea_measure_model_tmp,
                QPinfoFlag := { s1.QPinfoFlag with Update_penalty := true } }
  else if s.infea_measure < o.opt_tol_primal_feasibility * (1 / 1000) then
    s
  else s

/-- Penalty update (`update_penalty_parameter`).  `fuel` bounds the passes of the
penalty loops; `none` when it does not suffice. -/
def update_penalty_parameter (o : SqpOptions) (nlp : SqpNlp) (h : QPhandler σ) (fuel : Nat)
    (s : SqpAlgorithm σ) : Option (Result (SqpAlgorithm σ)) :=
  let s0 := { s with infea_measure_model := h.get_infea_measure_model s.myQP }
  if s0.infea_measure_model > o.penalty_update_tol then
    let infea_measure_model_tmp := s0.infea_measure_model
    let rho_trial := s0.rho
    let s1 := setupLP h s0
    let r := solveLP h s1
    if r.1 then
      let infea_measure_infty := h.get_infea_measure_model r.2.myLP
      match penalty_loops o h infea_measure_infty fuel rho_trial r.2 with
      | none => none
      | some (rho_trial1, s2) =>
        some (Result.ok (penalty_decision o nlp h infea_measure_model_tmp rho_trial1 s2))
    else
      some (Result.raise SqpException.LP_NOT_OPTIMAL
        { r.2 with exit_flag := h.get_status r.2.myLP })
  else some (Result.ok s0)

/-- End of `second_order_correction` (lines 1387-1393): when the corrected step is
rejected as well, the step, the QP objective, the step norm and the QP data are put
back. -/
def second_order_correction_revert (h : QPhandler σ) (p_k_tmp : Vector)
    (qp_obj_tmp norm_p_k_tmp : ℚ) (s : SqpAlgorithm σ) : SqpAlgorithm σ :=
  if !s.isaccept then
    let s1 := { s with p_k := Vector.copy_vector s.p_k p_k_tmp,
                       qp_obj := qp_obj_tmp, norm_p_k := norm_p_k_tmp }
    let s2 := { s1 with myQP := h.update_grad s1.grad_f s1.myQP }
    { s2 with myQP := h.update_bounds s2.delta s2.x_l s2.x_u s2.x_k s2.c_l s2.c_u s2.c_k s2.myQP }
  else s

/-- Middle of `second_order_correction` (lines 1380-1386), after the QP of the
correction has been solved: the correction is added to the step and the ratio test
is repeated. -/
def second_order_correction_trial (o : SqpOptions) (nlp : SqpNlp) (h : QPhandler σ)
    (qp_obj_tmp : ℚ) (s : SqpAlgorithm σ) : SqpAlgorithm σ :=
  let tmp_sol :=
    Vector.copy_vector (List.replicate (s.nVar + 2 * s.nCon) 0) (h.get_optimal_solution s.myQP)
  let s_k := Vector.copy_vector (List.replicate s.nVar 0) tmp_sol
  let s1 := { s with qp_obj := get_obj_QP h s + (qp_obj_tmp - s.rho * s.infea_measure_model) }
  let s2 := { s1 with p_k := Vector.add_vector s1.p_k 1 s_k }
  ratio_test o nlp h (get_trial_point_info o nlp s2)

/-- Second-order correction (`second_order_correction`). -/
def second_order_correction (o : SqpOptions) (nlp : SqpNlp) (h : QPhandler σ)
    (s : SqpAlgorithm σ) : Result (SqpAlgorithm σ) :=
  if (!s.isaccept) && o.perform_second_order_correction_step then
    let s0 := { s with isaccept := false }
    let p_k_tmp := Vector.copy_vector (List.replicate s0.nVar 0) s0.p_k
    let norm_p_k_tmp := s0.norm_p_k
    let qp_obj_tmp := s0.qp_obj
    let Hp0 := s0.hessian.multiply s0.p_k (List.replicate s0.nVar 0)
    let Hp := Vector.add_vector Hp0 1 s0.grad_f
    let s1 := { s0 with myQP := h.update_grad Hp s0.myQP }
    let q2 := h.update_bounds s1.delta s1.x_l s1.x_u s1.x_trial s1.c_l s1.c_u s1.c_trial s1.myQP
    let s2 := { s1 with myQP := q2 }
    let s3 := { s2 with norm_p_k := Vector.calc_inf_norm s2.p_k }
    let r := solveQP h s3
    if r.1 then
      Result.ok (second_order_correction_revert h p_k_tmp qp_obj_tmp norm_p_k_tmp
        (second_order_correction_trial o nlp h qp_obj_tmp r.2))
    else
      Result.raise SqpException.QP_NOT_OPTIMAL { r.2 with exit_flag := h.get_status r.2.myQP }
  else Result.ok s

/-- Readings of the two clocks of `Optimize`: at its start and after the loop. -/
structure Clock where
  cpu_time_at_start : ℚ
  wallclock_time_at_start : ℚ
  current_cpu_time : ℚ
  current_wallclock_time : ℚ

/-- How one pass through the body of the loop of `Optimize` ends: at the end of the
body, at a `break`, or with an exception that leaves `Optimize`. -/
inductive LoopControl (α : Type)
  | next : α → LoopControl α
  | brk : α → LoopControl α
  | raise : SqpException → α → LoopControl α

/-- Lines 115-127 of `Optimize`: the QP solve, whose failure records the handler's
status in the exit flag without leaving the body (the `break` is commented out), the
search direction and the QP objective. -/
def Optimize_solve (h : QPhandler σ) (s : SqpAlgorithm σ) : SqpAlgorithm σ :=
  let r := solveQP h s
  let s3 := if r.1 then r.2 else { r.2 with exit_flag := h.get_status r.2.myQP }
  let s4 := get_search_direction h s3
  { s4 with qp_obj := get_obj_QP h s4 }

/-- Lines 133-143 of `Optimize`: step norm, trial point, ratio test, second-order
correction and the increment of the iteration counter. -/
def Optimize_trial (o : SqpOptions) (nlp : SqpNlp) (h : QPhandler σ) (s : SqpAlgorithm σ) :
    Result (SqpAlgorithm σ) :=
  let s7 := { s with norm_p_k := Vector.calc_inf_norm s.p_k }
  let s9 := ratio_test o nlp h (get_trial_point_info o nlp s7)
  match second_order_correction o nlp h s9 with
  | Result.raise e s10 => Result.raise e s10
  | Result.ok s10 => Result.ok { s10 with stats := s10.stats.iter_addone }

/-- First part of the loop body of `Optimize` (lines 109-143): QP set-up and solve,
penalty update, trial point, ratio test, second-order correction and the increment
of the iteration counter. -/
def Optimize_step (o : SqpOptions) (nlp : SqpNlp) (h : QPhandler σ) (fuel : Nat)
    (s : SqpAlgorithm σ) : Option (Result (SqpAlgorithm σ)) :=
  match setupQP h s with
  | Result.raise e s1 => some (Result.raise e s1)
  | Result.ok s1 =>
    match update_penalty_parameter o nlp h fuel (Optimize_solve h s1) with
    | none => none
    | some (Result.raise e s6) => some (Result.raise e s6)
    | some (Result.ok s6) => some (Optimize_trial o nlp h s6)

/-- Second part of the loop body of `Optimize` (lines 171-181): KKT check, `break`
when the exit flag is set, trust-region update, and the final KKT check when the
radius became too small. -/
def Optimize_check (o : SqpOptions) (h : QPhandler σ) (s : SqpAlgorithm σ) :
    LoopControl (SqpAlgorithm σ) :=
  let s1 := check_optimality o h s
  if s1.exit_flag ≠ Exitflag.UNKNOWN then LoopControl.brk s1
  else
    match update_radius o s1 with
    | Result.raise SqpException.SMALL_TRUST_REGION s2 => LoopControl.brk (check_optimality o h s2)
    | Result.raise e s2 => LoopControl.raise e s2
    | Result.ok s2 => LoopControl.next s2

/-- Body of the loop of `Optimize`. -/
def Optimize_body (o : SqpOptions) (nlp : SqpNlp) (h : QPhandler σ) (fuel : Nat)
    (s : SqpAlgorithm σ) : Option (LoopControl (SqpAlgorithm σ)) :=
  match Optimize_step o nlp h fuel s with
  | none => none
  | some (Result.raise e s1) => some (LoopControl.raise e s1)
  | some (Result.ok s1) => some (Optimize_check o h s1)

/-- The `while` loop of `Optimize`, run for at most `n` passes; `none` when `n`
passes (or the fuel of a penalty loop) do not suffice. -/
def Optimize_loop (o : SqpOptions) (nlp : SqpNlp) (h : QPhandler σ) (fuel : Nat) :
    Nat → SqpAlgorithm σ → Option (Result (SqpAlgorithm σ))
  | 0, s =>
    if (s.stats.iter : Int) < o.max_num_iterations ∧ s.exit_flag = Exitflag.UNKNOWN then none
    else some (Result.ok s)
  | n + 1, s =>
    if (s.stats.iter : Int) < o.max_num_iterations ∧ s.exit_flag = Exitflag.UNKNOWN then
      match Optimize_body o nlp h fuel s with
      | none => none
      | some (LoopControl.next s1) => Optimize_loop o nlp h fuel n s1
      | some (LoopControl.brk s1) => some (Result.ok s1)
      | some (LoopControl.raise e s1) => some (Result.raise e s1)
    else some (Result.ok s)

/-- Checks made by `Optimize` after the loop (lines 184-199): iteration cap, CPU time
and wallclock time. -/
def Optimize_finish (o : SqpOptions) (clk : Clock) (s : SqpAlgorithm σ) : SqpAlgorithm σ :=
  let s1 :=
    if (s.stats.iter : Int) = o.max_num_iterations then
      { s with exit_flag := Exitflag.EXCEED_MAX_ITERATIONS }
    else s
  let s2 :=
    if clk.current_cpu_time - clk.cpu_time_at_start > o.cpu_time_limit then
      { s1 with exit_flag := Exitflag.EXCEED_MAX_CPU_TIME }
    else s1
  if clk.current_wallclock_time - clk.wallclock_time_at_start > o.wallclock_time_limit then
    { s2 with exit_flag := Exitflag.EXCEED_MAX_WALLCLOCK_TIME }
  else s2

/-- Main routine (`Optimize`).  The loop needs at most `max_num_iterations - iter`
passes, since every pass increments the iteration counter; `fuel` bounds the passes
of the penalty loops of each iteration. -/
def Optimize (o : SqpOptions) (nlp : SqpNlp) (h : QPhandler σ) (clk : Clock) (fuel : Nat)
    (s : SqpAlgorithm σ) : Option (Result (SqpAlgorithm σ)) :=
  let s0 := { s with exit_flag := Exitflag.UNKNOWN }
  match Optimize_loop o nlp h fuel (o.max_num_iterations - s0.stats.iter).toNat s0 with
  | none => none
  | some (Result.raise e s1) => some (Result.raise e s1)
  | some (Result.ok s1) => some (Result.ok (Optimize_finish o clk s1))

end Driver

/-! ## Specification-level notions -/

/-- Largest absolute value of an entry (0 for the empty vector): the l∞ norm as the
spec words it. -/
def Vector.inf_norm_spec (v : Vector) : ℚ := (v.map (fun x => |x|)).foldr max 0

/-- All four KKT violations of a record are strictly below their tolerances. -/
def KKT_satisfied (o : SqpOptions) (st : OptimalityStatus) : Prop :=
  st.primal_violation < o.opt_tol_primal_feasibility ∧
  st.dual_violation < o.opt_tol_dual_feasibility ∧
  st.compl_violation < o.opt_tol_complementarity ∧
  st.stationarity_violation < o.opt_tol_stationarity_feasibility

instance (o : SqpOptions) (st : OptimalityStatus) : Decidable (KKT_satisfied o st) := by
  unfold KKT_satisfied
  infer_instance

/-- The update calls the driver can make on the QP handler, with their arguments. -/
inductive QPCall
  | update_A (jacobian : SpTripletMat)
  | update_H (hessian : SpTripletMat)
  | update_bounds (delta : ℚ) (x_l x_u x_k c_l c_u c_k : Vector)
  | update_delta (delta : ℚ) (x_l x_u x_k : Vector)
  | update_penalty (rho : ℚ)
  | update_grad (grad_f : Vector)

/-- Effect of one update call on the state of a handler. -/
def QPhandler.call {σ : Type} (h : QPhandler σ) (q : σ) : QPCall → σ
  | QPCall.update_A J => h.update_A J q
  | QPCall.update_H H => h.update_H H q
  | QPCall.update_bounds delta x_l x_u x_k c_l c_u c_k =>
    h.update_bounds delta x_l x_u x_k c_l c_u c_k q
  | QPCall.update_delta delta x_l x_u x_k => h.update_delta delta x_l x_u x_k q
  | QPCall.update_penalty rho => h.update_penalty rho q
  | QPCall.update_grad g => h.update_grad g q

/-- The update calls the dirty flags of a state ask for, in the order of `setupQP`:
a pending Update_delta is covered by `update_bounds` when Update_bounds is set. -/
def setupQP_calls {σ : Type} (s : SqpAlgorithm σ) : List QPCall :=
  (if s.QPinfoFlag.Update_A then [QPCall.update_A s.jacobian] else []) ++
  (if s.QPinfoFlag.Update_H then [QPCall.update_H s.hessian] else []) ++
  (if s.QPinfoFlag.Update_bounds then
    [QPCall.update_bounds s.delta s.x_l s.x_u s.x_k s.c_l s.c_u s.c_k]
  else if s.QPinfoFlag.Update_delta then [QPCall.update_delta s.delta s.x_l s.x_u s.x_k]
  else []) ++
  (if s.QPinfoFlag.Update_penalty then [QPCall.update_penalty s.rho] else []) ++
  (if s.QPinfoFlag.Update_g then [QPCall.update_grad s.grad_f] else [])

/-- No dirty flag is set. -/
def UpdateFlags.all_clear (f : UpdateFlags) : Prop :=
  f.Update_A = false ∧ f.Update_H = false ∧ f.Update_g = false ∧ f.Update_bounds = false ∧
  f.Update_delta = false ∧ f.Update_penalty = false

instance (f : UpdateFlags) : Decidable f.all_clear := by
  unfold UpdateFlags.all_clear
  infer_instance

/-- What the penalty loops keep of a state: penalty parameter, `eps1`, infeasibility
measure and iteration counter are unchanged, and an exit flag different from OPTIMAL
stays different from OPTIMAL. -/
def PenaltyFrame {σ : Type} (s s' : SqpAlgorithm σ) : Prop :=
  s'.rho = s.rho ∧ s'.eps1 = s.eps1 ∧ s'.infea_measure = s.infea_measure ∧
  s'.stats.iter = s.stats.iter ∧
  (s.exit_flag ≠ Exitflag.OPTIMAL → s'.exit_flag ≠ Exitflag.OPTIMAL)

/-- What every sub-step of an outer iteration keeps of a state: the iteration counter
is unchanged and an exit flag different from OPTIMAL stays different from OPTIMAL. -/
def StepFrame {σ : Type} (s s' : SqpAlgorithm σ) : Prop :=
  s'.stats.iter = s.stats.iter ∧
  (s.exit_flag ≠ Exitflag.OPTIMAL → s'.exit_flag ≠ Exitflag.OPTIMAL)

/-- Trial penalty and state with which the penalty loops of `update_penalty_parameter`
end: `none` when the update is not triggered, when the LP solve fails, or when the
fuel does not suffice. -/
def penalty_trial {σ : Type} (o : SqpOptions) (h : QPhandler σ) (fuel : Nat)
    (s : SqpAlgorithm σ) : Option (ℚ × SqpAlgorithm σ) :=
  let s0 := { s with infea_measure_model := h.get_infea_measure_model s.myQP }
  let r := solveLP h (setupLP h s0)
  if s0.infea_measure_model > o.penalty_update_tol ∧ r.1 = true then
    penalty_loops o h (h.get_infea_measure_model r.2.myLP) fuel s0.rho r.2
  else none

/-- Guard of the `while` loop of `Optimize`. -/
def loop_guard {σ : Type} (o : SqpOptions) (s : SqpAlgorithm σ) : Prop :=
  (s.stats.iter : Int) < o.max_num_iterations ∧ s.exit_flag = Exitflag.UNKNOWN

instance {σ : Type} (o : SqpOptions) (s : SqpAlgorithm σ) : Decidable (loop_guard o s) := by
  unfold loop_guard
  infer_instance

/-- The states at the head of the loop of `Optimize` in the run from a given state:
`LoopReach o nlp h fuel s t` when the run started at the loop head in `s` comes back
to the loop head in `t` after some passes through the body. -/
inductive LoopReach {σ : Type} (o : SqpOptions) (nlp : SqpNlp) (h : QPhandler σ) (fuel : Nat) :
    SqpAlgorithm σ → SqpAlgorithm σ → Prop
  | start (s : SqpAlgorithm σ) : LoopReach o nlp h fuel s s
  | pass (s s1 t : SqpAlgorithm σ) :
      loop_guard o s → Optimize_body o nlp h fuel s = some (LoopControl.next s1) →
      LoopReach o nlp h fuel s1 t → LoopReach o nlp h fuel s t

/-! ## A concrete problem

`minimize (x - 2)^2` in one variable without constraints, with the default option
values of `register_options_`, and QP handlers without internal state. -/

/-- Default option values of `register_options_`. -/
def exOptions : SqpOptions :=
  { max_num_iterations := 3000
    cpu_time_limit := 10000000000
    wallclock_time_limit := 10000000000
    trust_region_max_value := 10000000000
    trust_region_min_value := 1 / 10000000000000000
    trust_region_ratio_decrease_tol := 1 / 4
    trust_region_ratio_accept_tol := 1 / 100000000
    trust_region_ratio_increase_tol := 3 / 4
    trust_region_decrease_factor := 1 / 2
    trust_region_increase_factor := 2
    penalty_update_tol := 1 / 100000000
    penalty_parameter_increase_factor := 10
    penalty_parameter_max_value := 100000000
    eps1_change_parm := 1 / 10
    eps2 := 1 / 1000000
    penalty_iter_max := 200
    perform_second_order_correction_step := false
    active_set_tol := 1 / 100000
    opt_tol := 1 / 100000000
    opt_tol_primal_feasibility := 1 / 10000
    opt_tol_dual_feasibility := 1 / 10000
    opt_tol_stationarity_feasibility := 1 / 10000
    opt_tol_complementarity := 1 / 10000
    qp_solver_choice := Solver.QPOASES
    NEW_FORMULATION := false }

/-- Oracle of `minimize (x - 2)^2`, one variable, no constraints. -/
def exNlp : SqpNlp :=
  { eval_f := fun x => (x.getD 0 0 - 2) * (x.getD 0 0 - 2)
    eval_constraints := fun _ => []
    eval_gradient := fun x => [2 * (x.getD 0 0 - 2)]
    eval_jacobian := fun _ J => J
    eval_hessian := fun _ _ H => { H with MatVal := [2] } }

/-- Handler without internal state whose solves succeed (`solved = true`) or fail
because the engine reaches its iteration limit (status EXCEED_MAX_ITER), whose
solution and multiplier buffers hold zeros, and whose slack total is `infea`. -/
def exHandler (solved : Bool) (infea : ℚ) : QPhandler Unit :=
  { set_A := fun _ q => q
    set_H := fun _ q => q
    set_bounds := fun _ _ _ _ _ _ _ q => q
    set_g := fun _ _ q => q
    set_g_LP := fun _ q => q
    update_A := fun _ q => q
    update_H := fun _ q => q
    update_bounds := fun _ _ _ _ _ _ _ q => q
    update_delta := fun _ _ _ _ q => q
    update_penalty := fun _ q => q
    update_grad := fun _ q => q
    solveQP := fun q => { handler := q, qp_iter := 1, solved := solved }
    solveLP := fun q => { handler := q, qp_iter := 1, solved := solved }
    status := fun _ => if solved then QPStatus.OPTIMAL else QPStatus.EXCEED_MAX_ITER
    get_optimal_solution := fun _ => [0]
    get_constraints_multipliers := fun _ => []
    get_bounds_multipliers := fun _ => [0]
    get_objective := fun _ => 0
    get_infea_measure_model := fun _ => infea }

/-- Driver state after `initialize` for the concrete problem started at `x0`. -/
def exState (x0 : ℚ) : SqpAlgorithm Unit :=
  { nVar := 1
    nCon := 0
    x_k := [x0]
    x_trial := [0]
    p_k := [0]
    c_k := []
    c_trial := []
    multiplier_cons := []
    multiplier_vars := [0]
    grad_f := [2 * (x0 - 2)]
    x_l := [-10]
    x_u := [10]
    c_l := []
    c_u := []
    hessian := { RowNum := 1, ColNum := 1, RowIndex := [1], ColIndex := [1], MatVal := [2],
                 isSymmetric := true }
    jacobian := { RowNum := 0, ColNum := 1, RowIndex := [], ColIndex := [], MatVal := [],
                  isSymmetric := false }
    delta := 1
    rho := 1
    eps1 := 1 / 10
    obj_value := (x0 - 2) * (x0 - 2)
    obj_value_trial := 0
    infea_measure := 0
    infea_measure_model := 0
    infea_measure_trial := 0
    norm_p_k := 0
    qp_obj := 0
    actual_reduction := 0
    pred_reduction := 0
    cons_type := []
    bound_cons_type := [ConstraintType.BOUNDED]
    Active_Set_constraints := []
    Active_Set_bounds := [ActiveType.INACTIVE]
    opt_status := { first_order_opt := false, primal_feasibility := false,
                    dual_feasibility := false, complementarity := false, stationarity := false,
                    primal_violation := 0, dual_violation := 0, compl_violation := 0,
                    stationarity_violation := 0, KKT_error := 0 }
    QPinfoFlag := { Update_A := false, Update_H := false, Update_g := false,
                    Update_bounds := false, Update_delta := false, Update_penalty := false }
    exit_flag := Exitflag.UNKNOWN
    isaccept := false
    stats := { iter := 0, qp_iter := 0, penalty_change_trial := 0, penalty_change_Succ := 0,
               penalty_change_Fail := 0 }
    myQP := ()
    myLP := () }

/-- The concrete state after one iteration that shrank the trust region: only
Update_delta is set. -/
def exStateDirty : SqpAlgorithm Unit :=
  { exState 3 with
    stats := { iter := 1, qp_iter := 1, penalty_change_trial := 0, penalty_change_Succ := 0,
               penalty_change_Fail := 0 }
    QPinfoFlag := { Update_A := false, Update_H := false, Update_g := false,
                    Update_bounds := false, Update_delta := true, Update_penalty := false } }

/-- State of the handler of the second concrete problem: the penalty it was given,
and whether it is the LP. -/
structure ExQP where
  isLP : Bool
  rho : ℚ
  deriving DecidableEq, Repr

/-- Step of the QP of the second concrete problem at `x = 3` with radius 1: the
minimiser of `p^2 + 2 p + rho (2 - p)` over `-1 ≤ p ≤ 1`. -/
def exStep (rho : ℚ) : ℚ :=
  if (rho - 2) / 2 > 1 then 1 else if (rho - 2) / 2 < -1 then -1 else (rho - 2) / 2

/-- Handler of the second concrete problem, `minimize (x - 2)^2` subject to
`5 ≤ x ≤ 10` as a general constraint, linearised at `x = 3` with radius 1: the exact
solutions of the penalty QP (slack `2 - p`) and of the LP (slack 1). -/
def exHandler2 : QPhandler ExQP :=
  { set_A := fun _ q => q
    set_H := fun _ q => q
    set_bounds := fun _ _ _ _ _ _ _ q => q
    set_g := fun _ rho q => { q with rho := rho }
    set_g_LP := fun rho _ => { isLP := true, rho := rho }
    update_A := fun _ q => q
    update_H := fun _ q => q
    update_bounds := fun _ _ _ _ _ _ _ q => q
    update_delta := fun _ _ _ _ q => q
    update_penalty := fun rho q => { q with rho := rho }
    update_grad := fun _ q => q
    solveQP := fun q => { handler := q, qp_iter := 1, solved := true }
    solveLP := fun q => { handler := q, qp_iter := 1, solved := true }
    status := fun _ => QPStatus.OPTIMAL
    get_optimal_solution := fun q =>
      if q.isLP then [1, 0, 1] else [exStep q.rho, 0, 2 - exStep q.rho]
    get_constraints_multipliers := fun _ => [0]
    get_bounds_multipliers := fun _ => [0]
    get_objective := fun q =>
      if q.isLP then q.rho else exStep q.rho * exStep q.rho + 2 * exStep q.rho + q.rho * (2 - exStep q.rho)
    get_infea_measure_model := fun q => if q.isLP then 1 else 2 - exStep q.rho }

/-- Oracle of the second concrete problem: objective `(x - 2)^2`, constraint `c(x) = x`. -/
def exNlp2 : SqpNlp :=
  { eval_f := fun x => (x.getD 0 0 - 2) * (x.getD 0 0 - 2)
    eval_constraints := fun x => [x.getD 0 0]
    eval_gradient := fun x => [2 * (x.getD 0 0 - 2)]
    eval_jacobian := fun _ J => { J with MatVal := [1] }
    eval_hessian := fun _ _ H => { H with MatVal := [2] } }

/-- Driver state of the second concrete problem at `x = 3`, after the first QP has
been solved with penalty 1. -/
def exState2 : SqpAlgorithm ExQP :=
  { nVar := 1
    nCon := 1
    x_k := [3]
    x_trial := [0]
    p_k := [0]
    c_k := [3]
    c_trial := [0]
    multiplier_cons := [0]
    multiplier_vars := [0]
    grad_f := [2]
    x_l := [-10]
    x_u := [10]
    c_l := [5]
    c_u := [10]
    hessian := { RowNum := 1, ColNum := 1, RowIndex := [1], ColIndex := [1], MatVal := [2],
                 isSymmetric := true }
    jacobian := { RowNum := 1, ColNum := 1, RowIndex := [1], ColIndex := [1], MatVal := [1],
                  isSymmetric := false }
    delta := 1
    rho := 1
    eps1 := 1 / 10
    obj_value := 1
    obj_value_trial := 0
    infea_measure := 2
    infea_measure_model := 0
    infea_measure_trial := 0
    norm_p_k := 0
    qp_obj := 0
    actual_reduction := 0
    pred_reduction := 0
    cons_type := [ConstraintType.BOUNDED]
    bound_cons_type := [ConstraintType.BOUNDED]
    Active_Set_constraints := [ActiveType.INACTIVE]
    Active_Set_bounds := [ActiveType.INACTIVE]
    opt_status := { first_order_opt := false, primal_feasibility := false,
                    dual_feasibility := false, complementarity := false, stationarity := false,
                    primal_violation := 0, dual_violation := 0, compl_violation := 0,
                    stationarity_violation := 0, KKT_error := 0 }
    QPinfoFlag := { Update_A := false, Update_H := false, Update_g := false,
                    Update_bounds := false, Update_delta := false, Update_penalty := false }
    exit_flag := Exitflag.UNKNOWN
    isaccept := false
    stats := { iter := 0, qp_iter := 1, penalty_change_trial := 0, penalty_change_Succ := 0,
               penalty_change_Fail := 0 }
    myQP := { isLP := false, rho := 1 }
    myLP := { isLP := true, rho := 1 } }

/-- The default options with the iteration cap set to 1. -/
def exOptionsCap1 : SqpOptions := { exOptions with max_num_iterations := 1 }

/-- Clock readings of a run that takes one second. -/
def exClock : Clock :=
  { cpu_time_at_start := 0, wallclock_time_at_start := 0, current_cpu_time := 1,
    current_wallclock_time := 1 }

/-! ## Classification of bounds and the starting point -/

/-- Classification of one pair of bounds (`classify_single_constraint`); `INF` is the
constant of that name, which marks an open side. -/
def classify_single_constraint (INF : ℚ) (lower_bound upper_bound : ℚ) : ConstraintType :=
  if lower_bound > -INF ∧ upper_bound < INF then
    if upper_bound - lower_bound < 1 / 100000000 then ConstraintType.EQUAL
    else ConstraintType.BOUNDED
  else if lower_bound > -INF ∧ upper_bound > INF then ConstraintType.BOUNDED_BELOW
  else if upper_bound < INF ∧ lower_bound < -INF then ConstraintType.BOUNDED_ABOVE
  else ConstraintType.UNBOUNDED

/-- One pass of the loop of `shift_starting_point_` at component `i`. -/
def shift_step (x_l x_u : Vector) (x : Vector) (i : Nat) : Vector :=
  if x_l.get_value i > x.get_value i then x.set i (x_l.get_value i)
  else if x.get_value i > x_u.get_value i then x.set i (x_u.get_value i)
  else x

/-- Shift of the starting point into its bounds (`shift_starting_point_` of
SqpAlgorithm.cpp); `none` when the assertion `x_l[i] <= x_u[i]` fails for some
component. -/
def shift_starting_point_ (x x_l x_u : Vector) : Option Vector :=
  if (List.range x.length).all (fun i => decide (x_l.get_value i ≤ x_u.get_value i)) then
    some ((List.range x.length).foldl (shift_step x_l x_u) x)
  else none

/-- Shift of the starting point of the legacy adapter (`SQPTNLP::shift_starting_point`
of SQPTNLP.cpp), with the same assertion and the same two assignments. -/
def SQPTNLP.shift_starting_point (x x_l x_u : Vector) : Option Vector :=
  if (List.range x.length).all (fun i => decide (x_l.getD i 0 ≤ x_u.getD i 0)) then
    some ((List.range x.length).foldl (fun x i =>
      if x_l.getD i 0 > x.getD i 0 then x.set i (x_l.getD i 0)
      else if x.getD i 0 > x_u.getD i 0 then x.set i (x_u.getD i 0)
      else x) x)
  else none

/-- The value one pass of the starting-point shift gives to a component. -/
def clamp_value (l u v : ℚ) : ℚ := if l > v then l else if v > u then u else v

/-- What one pass of a loop of `cal_infea` adds for a value `c` with bounds `l`, `u`. -/
def infea_term (l u c : ℚ) : ℚ := if c < l then l - c else if c > u then c - u else 0

/-- What one pass of a dual-feasibility loop of `check_optimality` adds for a row of
type `t` with multiplier `m`. -/
def dual_term (t : ConstraintType) (m : ℚ) : ℚ :=
  match t with
  | ConstraintType.BOUNDED_ABOVE => max m 0
  | ConstraintType.BOUNDED_BELOW => -(min m 0)
  | _ => 0

/-- The dual violation of `n` rows as the specification words it: the sum of
`max(mu_i, 0)` over the BOUNDED_ABOVE rows plus the sum of `max(-mu_i, 0)` over the
BOUNDED_BELOW rows. -/
def dual_violation_sum (n : Nat) (type : List ConstraintType) (mu : Vector) : ℚ :=
  ∑ i in (Finset.range n).filter
      (fun i => type.getD i ConstraintType.UNBOUNDED = ConstraintType.BOUNDED_ABOVE),
    max (mu.get_value i) 0 +
  ∑ i in (Finset.range n).filter
      (fun i => type.getD i ConstraintType.UNBOUNDED = ConstraintType.BOUNDED_BELOW),
    max (-(mu.get_value i)) 0

/-- Entry `i` of the product `Aᵀ p` of the transpose of a triplet matrix with a
vector: the sum of `value * p[row]` over the stored entries of column `i`. -/
def SpTripletMat.transpose_apply (A : SpTripletMat) (p : Vector) (i : Nat) : ℚ :=
  ∑ k in (Finset.range A.EntryNum).filter (fun k => A.ColIndex.getD k 0 - 1 = i),
    A.MatVal.getD k 0 * p.getD (A.RowIndex.getD k 0 - 1) 0

/-- The second concrete problem with the upper bounds `x ≤ 10` and `c(x) ≤ 10` only
(every row BOUNDED_ABOVE), at the iterate `x = 10`, where both rows sit on their
upper bound; all markers are still INACTIVE. -/
def exStateAtBound : SqpAlgorithm ExQP :=
  { exState2 with
    x_k := [10]
    c_k := [10]
    x_l := [-20000000000000000000]
    c_l := [-20000000000000000000]
    cons_type := [ConstraintType.BOUNDED_ABOVE]
    bound_cons_type := [ConstraintType.BOUNDED_ABOVE] }

/-- The state after the KKT check at `x = 10`, with the iterate then moved to the
interior point `x = 3`. -/
def exStateMoved : SqpAlgorithm ExQP :=
  { check_optimality exOptions exHandler2 exStateAtBound with x_k := [3], c_k := [3] }

/-- A handler that behaves as `h` and in addition keeps the list of the penalty
values handed to `update_penalty`, latest first. -/
def QPhandler.recording {σ : Type} (h : QPhandler σ) : QPhandler (σ × List ℚ) :=
  { set_A := fun J q => (h.set_A J q.1, q.2)
    set_H := fun H q => (h.set_H H q.1, q.2)
    set_bounds := fun d xl xu xk cl cu ck q => (h.set_bounds d xl xu xk cl cu ck q.1, q.2)
    set_g := fun g rho q => (h.set_g g rho q.1, q.2)
    set_g_LP := fun rho q => (h.set_g_LP rho q.1, q.2)
    update_A := fun J q => (h.update_A J q.1, q.2)
    update_H := fun H q => (h.update_H H q.1, q.2)
    update_bounds := fun d xl xu xk cl cu ck q =>
      (h.update_bounds d xl xu xk cl cu ck q.1, q.2)
    update_delta := fun d xl xu xk q => (h.update_delta d xl xu xk q.1, q.2)
    update_penalty := fun rho q => (h.update_penalty rho q.1, rho :: q.2)
    update_grad := fun g q => (h.update_grad g q.1, q.2)
    solveQP := fun q =>
      { handler := ((h.solveQP q.1).handler, q.2), qp_iter := (h.solveQP q.1).qp_iter,
        solved := (h.solveQP q.1).solved }
    solveLP := fun q =>
      { handler := ((h.solveLP q.1).handler, q.2), qp_iter := (h.solveLP q.1).qp_iter,
        solved := (h.solveLP q.1).solved }
    status := fun q => h.status q.1
    get_optimal_solution := fun q => h.get_optimal_solution q.1
    get_constraints_multipliers := fun q => h.get_constraints_multipliers q.1
    get_bounds_multipliers := fun q => h.get_bounds_multipliers q.1
    get_objective := fun q => h.get_objective q.1
    get_infea_measure_model := fun q => h.get_infea_measure_model q.1 }

/-- What the penalty loops of a recording handler keep: `rho` is unchanged and every
recorded penalty was either recorded before (`L0`) or is at most the maximum. -/
def PenaltyLog {σ : Type} (o : SqpOptions) (L0 : List ℚ) (rho : ℚ)
    (s : SqpAlgorithm (σ × List ℚ)) : Prop :=
  s.rho = rho ∧ ∀ x ∈ s.myQP.2, x ∈ L0 ∨ x ≤ o.penalty_parameter_max_value

/-- The state `s` with the two handler states replaced by `q` and `l`. -/
def SqpAlgorithm.with_handlers {σ τ : Type} (s : SqpAlgorithm σ) (q l : τ) : SqpAlgorithm τ :=
  { nVar := s.nVar
    nCon := s.nCon
    x_k := s.x_k
    x_trial := s.x_trial
    p_k := s.p_k
    c_k := s.c_k
    c_trial := s.c_trial
    multiplier_cons := s.multiplier_cons
    multiplier_vars := s.multiplier_vars
    grad_f := s.grad_f
    x_l := s.x_l
    x_u := s.x_u
    c_l := s.c_l
    c_u := s.c_u
    hessian := s.hessian
    jacobian := s.jacobian
    delta := s.delta
    rho := s.rho
    eps1 := s.eps1
    obj_value := s.obj_value
    obj_value_trial := s.obj_value_trial
    infea_measure := s.infea_measure
    infea_measure_model := s.infea_measure_model
    infea_measure_trial := s.infea_measure_trial
    norm_p_k := s.norm_p_k
    qp_obj := s.qp_obj
    actual_reduction := s.actual_reduction
    pred_reduction := s.pred_reduction
    cons_type := s.cons_type
    bound_cons_type := s.bound_cons_type
    Active_Set_constraints := s.Active_Set_constraints
    Active_Set_bounds := s.Active_Set_bounds
    opt_status := s.opt_status
    QPinfoFlag := s.QPinfoFlag
    exit_flag := s.exit_flag
    isaccept := s.isaccept
    stats := s.stats
    myQP := q
    myLP := l }

/-- The state of the second concrete problem for the recording handler, with nothing
recorded yet. -/
def exState2Recording : SqpAlgorithm (ExQP × List ℚ) :=
  exState2.with_handlers (exState2.myQP, []) (exState2.myLP, [])

/-! ## Compressed sparse matrices -/

/-- Modelled from the spec: the two-identity descriptor `Identity2Info`: two identity
blocks of dimension `size`, the first with its top-left entry at row `irow1`, column
`jcol1`, the second at row `irow2`, column `jcol2` (1-based). -/
structure Identity2Info where
  irow1 : Nat
  irow2 : Nat
  jcol1 : Nat
  jcol2 : Nat
  size : Nat
  deriving DecidableEq, Repr

/-- Members of the compressed sparse matrix `SpHbMat`; an array that is `NULL` is the
empty list, and `EntryNum` is `-1` until the number of entries is known. -/
structure SpHbMat where
  RowIndex : List Nat
  ColIndex : List Nat
  MatVal : List ℚ
  order : List Nat
  EntryNum : Int
  isInitialised : Bool
  RowNum : Nat
  ColNum : Nat
  isSymmetric : Bool
  isCompressedRow : Bool
  deriving DecidableEq, Repr

/-- The constructor `SpHbMat(RowNum, ColNum, isSymmetric, isCompressedRow)`: only the
pointer array is allocated. -/
def SpHbMat.create (RowNum ColNum : Nat) (isSymmetric isCompressedRow : Bool) : SpHbMat :=
  { RowIndex := if isCompressedRow then List.replicate (RowNum + 1) 0 else []
    ColIndex := if isCompressedRow then [] else List.replicate (ColNum + 1) 0
    MatVal := []
    order := []
    EntryNum := -1
    isInitialised := false
    RowNum := RowNum
    ColNum := ColNum
    isSymmetric := isSymmetric
    isCompressedRow := isCompressedRow }

/-- The constructor `SpHbMat(nnz, RowNum, ColNum, isCompressedRow)`: all arrays are
allocated and zeroed, and `order_` is the identity. -/
def SpHbMat.create_nnz (nnz RowNum ColNum : Nat) (isCompressedRow : Bool) : SpHbMat :=
  { RowIndex :=
      if isCompressedRow then List.replicate (RowNum + 1) 0 else List.replicate nnz 0
    ColIndex :=
      if isCompressedRow then List.replicate nnz 0 else List.replicate (ColNum + 1) 0
    MatVal := List.replicate nnz 0
    order := List.range nnz
    EntryNum := nnz
    isInitialised := false
    RowNum := RowNum
    ColNum := ColNum
    isSymmetric := false
    isCompressedRow := isCompressedRow }

/-- Modelled from the spec: `set_zero` (declared in Matrix.hpp) puts the index and
value arrays back to zero, the state in which the constructors leave them. -/
def SpHbMat.set_zero (m : SpHbMat) : SpHbMat :=
  { m with RowIndex := List.replicate m.RowIndex.length 0
           ColIndex := List.replicate m.ColIndex.length 0
           MatVal := List.replicate m.MatVal.length 0 }

/-- Modelled from the spec: the comparison of `std::sort` in row-compressed mode, by
row and then by column. -/
def tuple_sort_rule_compressed_row (left right : Nat × Nat × Nat) : Bool :=
  decide (left.1 < right.1 ∨ (left.1 = right.1 ∧ left.2.1 < right.2.1))

/-- Modelled from the spec: the comparison of `std::sort` in column-compressed mode,
by column and then by row. -/
def tuple_sort_rule_compressed_column (left right : Nat × Nat × Nat) : Bool :=
  decide (left.2.1 < right.2.1 ∨ (left.2.1 = right.2.1 ∧ left.1 < right.1))

/-- Modelled from the spec: `std::sort(begin, end, rule)` as the stable sort into an
order in which no element comes before one that `rule` puts before it. -/
def sort_tuples (rule : Nat × Nat × Nat → Nat × Nat × Nat → Bool)
    (l : List (Nat × Nat × Nat)) : List (Nat × Nat × Nat) :=
  l.insertionSort (fun a b => rule b a = false)

/-- The loop `for (j = first; j < n; j++) ptr[j]++`. -/
def increment_from (first n : Nat) (ptr : List Nat) : List Nat :=
  (List.range' first (n - first)).foldl (fun p j => p.set j (p.getD j 0 + 1)) ptr

/-- The tuples `(row, col, counter)` of the entries of the triplet matrix, with the
counter after them (first loop of `setStructure(rhs, I_info)`). -/
def push_triplet_entries (rhs : SpTripletMat) : List (Nat × Nat × Nat) × Nat :=
  (List.range rhs.EntryNum).foldl (fun st i =>
    (st.1 ++ [(rhs.RowIndex.getD i 0, rhs.ColIndex.getD i 0, st.2)], st.2 + 1)) ([], 0)

/-- The tuples of the two identity blocks appended to the list (second loop of
`setStructure(rhs, I_info)`), which runs when `irow1` is not 0. -/
def push_identity_entries (I_info : Identity2Info) (st : List (Nat × Nat × Nat) × Nat) :
    List (Nat × Nat × Nat) × Nat :=
  if I_info.irow1 ≠ 0 then
    (List.range I_info.size).foldl (fun st j =>
      (st.1 ++ [(I_info.irow1 + j, I_info.jcol1 + j, st.2),
                (I_info.irow2 + j, I_info.jcol2 + j, st.2 + 1)], st.2 + 2)) st
  else st

/-- The tuples of the entries of a symmetric triplet matrix, an off-diagonal entry
followed by its mirror image (loop of `setStructure(rhs)`). -/
def push_symmetric_entries (rhs : SpTripletMat) : List (Nat × Nat × Nat) × Nat :=
  (List.range rhs.EntryNum).foldl (fun st i =>
    let st1 : List (Nat × Nat × Nat) × Nat :=
      (st.1 ++ [(rhs.RowIndex.getD i 0, rhs.ColIndex.getD i 0, st.2)], st.2 + 1)
    if rhs.RowIndex.getD i 0 ≠ rhs.ColIndex.getD i 0 then
      (st1.1 ++ [(rhs.ColIndex.getD i 0, rhs.RowIndex.getD i 0, st1.2)], st1.2 + 1)
    else st1) ([], 0)

/-- Pass `i` of the loop of `setStructure` in row-compressed mode; `last_in_loop`
tells whether `RowIndex_[RowNum_] = EntryNum_` is inside the loop body. -/
def SpHbMat.row_pass (sorted_index_info : List (Nat × Nat × Nat)) (last_in_loop : Bool)
    (m : SpHbMat) (i : Nat) : SpHbMat :=
  let t := sorted_index_info.getD i (0, 0, 0)
  let m1 := { m with ColIndex := m.ColIndex.set i (t.2.1 - 1), order := m.order.set i t.2.2 }
  let m2 := { m1 with RowIndex := increment_from t.1 m1.RowNum m1.RowIndex }
  if last_in_loop then { m2 with RowIndex := m2.RowIndex.set m2.RowNum m2.EntryNum.toNat }
  else m2

/-- Pass `i` of the loop of `setStructure` in column-compressed mode. -/
def SpHbMat.column_pass (sorted_index_info : List (Nat × Nat × Nat)) (last_in_loop : Bool)
    (m : SpHbMat) (i : Nat) : SpHbMat :=
  let t := sorted_index_info.getD i (0, 0, 0)
  let m1 := { m with RowIndex := m.RowIndex.set i (t.1 - 1), order := m.order.set i t.2.2 }
  let m2 := { m1 with ColIndex := increment_from t.2.1 m1.ColNum m1.ColIndex }
  if last_in_loop then { m2 with ColIndex := m2.ColIndex.set m2.ColNum m2.EntryNum.toNat }
  else m2

/-- Sort the tuples by the rule of the storage mode and fill the index, order and
pointer arrays (second half of both `setStructure` overloads). -/
def SpHbMat.fill (m : SpHbMat) (index_info : List (Nat × Nat × Nat)) (last_in_loop : Bool) :
    SpHbMat :=
  if m.isCompressedRow then
    let sorted_index_info := sort_tuples tuple_sort_rule_compressed_row index_info
    let m1 := (List.range m.EntryNum.toNat).foldl
      (SpHbMat.row_pass sorted_index_info last_in_loop) m
    if last_in_loop then m1
    else { m1 with RowIndex := m1.RowIndex.set m1.RowNum m1.EntryNum.toNat }
  else
    let sorted_index_info := sort_tuples tuple_sort_rule_compressed_column index_info
    let m1 := (List.range m.EntryNum.toNat).foldl
      (SpHbMat.column_pass sorted_index_info last_in_loop) m
    if last_in_loop then m1
    else { m1 with ColIndex := m1.ColIndex.set m1.ColNum m1.EntryNum.toNat }

/-- The tuple list of `setStructure(rhs, I_info)` before it is sorted, with the
counter. -/
def index_info (rhs : SpTripletMat) (I_info : Identity2Info) : List (Nat × Nat × Nat) × Nat :=
  push_identity_entries I_info (push_triplet_entries rhs)

/-- Structure of the compressed form of a triplet matrix with two identity blocks
(`setStructure(rhs, I_info)`); `none` when one of the two assertions fails. -/
def SpHbMat.setStructure (m : SpHbMat) (rhs : SpTripletMat) (I_info : Identity2Info) :
    Option SpHbMat :=
  let m0 := m.set_zero
  if m0.isInitialised = false then
    let info := index_info rhs I_info
    if (info.2 : Int) = m0.EntryNum then some (m0.fill info.1 true)
    else none
  else none

/-- The allocation in `setStructure(rhs)` when the number of entries was not known:
`EntryNum_` becomes the counter and the value, order and index arrays are allocated
with that many zeros. -/
def SpHbMat.allocate (m : SpHbMat) (counter : Nat) : SpHbMat :=
  { m with EntryNum := counter
           MatVal := List.replicate counter 0
           order := List.replicate counter 0
           ColIndex := if m.isCompressedRow then List.replicate counter 0 else m.ColIndex
           RowIndex := if m.isCompressedRow then m.RowIndex else List.replicate counter 0 }

/-- Structure of the compressed form of a triplet matrix (`setStructure(rhs)`): the
tuples are only collected for a symmetric matrix, whose arrays are allocated here when
the number of entries was not known; `none` when one of the two assertions fails. -/
def SpHbMat.setStructure_triplet (m : SpHbMat) (rhs : SpTripletMat) : Option SpHbMat :=
  let m0 := m.set_zero
  if m0.isInitialised = false then
    let info : List (Nat × Nat × Nat) × Nat :=
      if m0.isSymmetric then push_symmetric_entries rhs else ([], 0)
    let m1 := if m0.isSymmetric ∧ m0.EntryNum = -1 then m0.allocate info.2 else m0
    if (info.2 : Int) = m1.EntryNum then some (m1.fill info.1 false)
    else none
  else none

/-- Values of the compressed form (`setMatVal(rhs, I_info)`): at the first call the
last `2 * size` slots receive `+1` and `-1`, and at every call source value `i` is
written to slot `order()[i]`. -/
def SpHbMat.setMatVal (m : SpHbMat) (rhs : SpTripletMat) (I_info : Identity2Info) : SpHbMat :=
  let m1 :=
    if m.isInitialised = false then
      let vals := (List.range I_info.size).foldl (fun v i =>
        let v1 := v.set (m.EntryNum - i - 1).toNat (-1)
        v1.set (m.EntryNum - i - I_info.size - 1).toNat 1) m.MatVal
      { m with MatVal := vals, isInitialised := true }
    else m
  let vals := (List.range (m1.EntryNum - 2 * I_info.size).toNat).foldl (fun v i =>
    v.set (m1.order.getD i 0) (rhs.MatVal.getD i 0)) m1.MatVal
  { m1 with MatVal := vals }

/-- Values of the compressed form without identity blocks (`setMatVal(rhs)`); for a
symmetric matrix an off-diagonal source value is written twice. -/
def SpHbMat.setMatVal_triplet (m : SpHbMat) (rhs : SpTripletMat) : SpHbMat :=
  let r := (List.range rhs.EntryNum).foldl (fun (st : List ℚ × Nat) i =>
    let v1 := st.1.set (m.order.getD st.2 0) (rhs.MatVal.getD i 0)
    if m.isSymmetric ∧ rhs.ColIndex.getD i 0 ≠ rhs.RowIndex.getD i 0 then
      (v1.set (m.order.getD (st.2 + 1) 0) (rhs.MatVal.getD i 0), st.2 + 2)
    else (v1, st.2 + 1)) (m.MatVal, 0)
  { m with MatVal := r.1 }

/-- The pointer array after the first `k` passes of the loop of `setStructure`, for
the keys `κ i` (row or column of tuple `i`) of the sorted tuples. -/
def pointer_loop (n E : Nat) (last_in_loop : Bool) (κ : Nat → Nat) (k : Nat) (p : List Nat) :
    List Nat :=
  (List.range k).foldl (fun p i =>
    if last_in_loop then (increment_from (κ i) n p).set n E
    else increment_from (κ i) n p) p

/-- The pointer array of the compressed form: `RowIndex_` in row-compressed mode,
`ColIndex_` in column-compressed mode. -/
def SpHbMat.pointer (m : SpHbMat) : List Nat :=
  if m.isCompressedRow then m.RowIndex else m.ColIndex

/-- The index array of the compressed form: the columns of the slots in row-compressed
mode, their rows in column-compressed mode. -/
def SpHbMat.index (m : SpHbMat) : List Nat :=
  if m.isCompressedRow then m.ColIndex else m.RowIndex

/-- Number of rows in row-compressed mode, of columns in column-compressed mode. -/
def SpHbMat.major_dim (m : SpHbMat) : Nat :=
  if m.isCompressedRow then m.RowNum else m.ColNum

/-- The row of a tuple in row-compressed mode, its column in column-compressed mode. -/
def SpHbMat.major (m : SpHbMat) (t : Nat × Nat × Nat) : Nat :=
  if m.isCompressedRow then t.1 else t.2.1

/-- The column of a tuple in row-compressed mode, its row in column-compressed mode. -/
def SpHbMat.minor (m : SpHbMat) (t : Nat × Nat × Nat) : Nat :=
  if m.isCompressedRow then t.2.1 else t.1

/-- The tuples `(row, col, counter)` are numbered by their position, and the counter
is their number. -/
def Indexed (st : List (Nat × Nat × Nat) × Nat) : Prop :=
  st.2 = st.1.length ∧ ∀ i, i < st.1.length → (st.1.getD i (0, 0, 0)).2.2 = i

/-- The structure of `m` is a compressed form of the source entries `entries` (1-based
`(row, col, position)`): the pointer array starts at 0, is non-decreasing and ends with
the number of entries; `order_` lists every source position once; slot `k` stores the
0-based minor index of source entry `order_[k]`, and lies between pointer `j` and
pointer `j + 1` exactly when that entry belongs to row (column) `j + 1`. -/
def SpHbMat.compresses (m : SpHbMat) (entries : List (Nat × Nat × Nat)) : Prop :=
  m.EntryNum = entries.length ∧
  m.pointer.length = m.major_dim + 1 ∧
  m.pointer.getD 0 0 = 0 ∧
  (∀ j, j < m.major_dim → m.pointer.getD j 0 ≤ m.pointer.getD (j + 1) 0) ∧
  m.pointer.getD m.major_dim 0 = entries.length ∧
  m.order.Perm (List.range entries.length) ∧
  ∀ k, k < entries.length →
    m.index.getD k 0 + 1 = m.minor (entries.getD (m.order.getD k 0) (0, 0, 0)) ∧
    ∀ j, j < m.major_dim →
      ((m.pointer.getD j 0 ≤ k ∧ k < m.pointer.getD (j + 1) 0) ↔
        m.major (entries.getD (m.order.getD k 0) (0, 0, 0)) = j + 1)

/-- A 1 x 3 Jacobian in triplet form whose entries are listed in the column order
2, 3, 1, with the values 20, 30, 10. -/
def exJacobianTriplet : SpTripletMat :=
  { RowNum := 1, ColNum := 3, RowIndex := [1, 1, 1], ColIndex := [2, 3, 1],
    MatVal := [20, 30, 10], isSymmetric := false }

/-- Two 1 x 1 identity blocks in the columns 4 and 5 of row 1, to the right of the
Jacobian. -/
def exIdentityColumns : Identity2Info :=
  { irow1 := 1, jcol1 := 4, irow2 := 1, jcol2 := 5, size := 1 }

/-- A 2 x 1 Jacobian in triplet form with the values 7 and 8. -/
def exJacobianRows : SpTripletMat :=
  { RowNum := 2, ColNum := 1, RowIndex := [1, 2], ColIndex := [1, 1],
    MatVal := [7, 8], isSymmetric := false }

/-- Two 2 x 2 identity blocks in the columns 2..3 and 4..5, to the right of the
Jacobian. -/
def exIdentityRows : Identity2Info :=
  { irow1 := 1, jcol1 := 2, irow2 := 1, jcol2 := 4, size := 2 }

/-- A symmetric 2 x 2 Hessian in triplet form, upper triangle only. -/
def exHessianTriplet : SpTripletMat :=
  { RowNum := 2, ColNum := 2, RowIndex := [1, 1, 2], ColIndex := [1, 2, 2],
    MatVal := [4, 1, 3], isSymmetric := true }

/-- The 2 x 1 Jacobian after an update of its values to 70 and 80. -/
def exJacobianRowsUpdated : SpTripletMat :=
  { RowNum := 2, ColNum := 1, RowIndex := [1, 2], ColIndex := [1, 1],
    MatVal := [70, 80], isSymmetric := false }

/-- The default options with GUROBI as the QP engine. -/
def exOptionsGurobi : SqpOptions := { exOptions with qp_solver_choice := Solver.GUROBI }

/-- The default options with the second-order correction switched on. -/
def exOptionsSOC : SqpOptions :=
  { exOptions with perform_second_order_correction_step := true }

/-- The first concrete problem at its minimiser `x = 2` after the step `p_k = 1` has
been rejected. -/
def exStateRejected : SqpAlgorithm Unit :=
  { exState 2 with p_k := [1], norm_p_k := 1, qp_obj := 1, isaccept := false }

/-- The handler state on which the second-order correction solves its QP: the gradient
is replaced by `H p_k + grad_f` and the bounds are centred on the trial point. -/
def soc_handler {σ : Type} (h : QPhandler σ) (s : SqpAlgorithm σ) : σ :=
  h.update_bounds s.delta s.x_l s.x_u s.x_trial s.c_l s.c_u s.c_trial
    (h.update_grad
      (Vector.add_vector (s.hessian.multiply s.p_k (List.replicate s.nVar 0)) 1 s.grad_f)
      s.myQP)

/-- The default options with `eps2 = 9/10`. -/
def exOptionsEps2 : SqpOptions := { exOptions with eps2 := 9 / 10 }

/-- The state at entry to the ratio test of the main iteration (line 137 of
`Optimize`), given the state `s` with which `update_penalty_parameter` returned. -/
def ratio_test_entry {σ : Type} (o : SqpOptions) (nlp : SqpNlp) (s : SqpAlgorithm σ) :
    SqpAlgorithm σ :=
  get_trial_point_info o nlp { s with norm_p_k := Vector.calc_inf_norm s.p_k }

/-- The state at entry to the ratio test inside the second-order correction (line 1386),
given the state `s` after the QP of the correction has been solved. -/
def soc_ratio_test_entry {σ : Type} (o : SqpOptions) (nlp : SqpNlp) (h : QPhandler σ)
    (qp_obj_tmp : ℚ) (s : SqpAlgorithm σ) : SqpAlgorithm σ :=
  let tmp_sol :=
    Vector.copy_vector (List.replicate (s.nVar + 2 * s.nCon) 0) (h.get_optimal_solution s.myQP)
  let s_k := Vector.copy_vector (List.replicate s.nVar 0) tmp_sol
  get_trial_point_info o nlp
    { s with qp_obj := get_obj_QP h s + (qp_obj_tmp - s.rho * s.infea_measure_model),
             p_k := Vector.add_vector s.p_k 1 s_k }

/-- The second concrete problem in a later outer iteration: 200 trial increases of the
penalty have been counted in earlier iterations. -/
def exState2Tried : SqpAlgorithm ExQP :=
  { exState2 with
    stats := { iter := 7, qp_iter := 208, penalty_change_trial := 200, penalty_change_Succ := 0,
               penalty_change_Fail := 200 } }

/-- A handler that behaves as `h` and in addition counts the calls of `solveQP`. -/
def QPhandler.counting {σ : Type} (h : QPhandler σ) : QPhandler (σ × Nat) :=
  { set_A := fun J q => (h.set_A J q.1, q.2)
    set_H := fun H q => (h.set_H H q.1, q.2)
    set_bounds := fun d xl xu xk cl cu ck q => (h.set_bounds d xl xu xk cl cu ck q.1, q.2)
    set_g := fun g rho q => (h.set_g g rho q.1, q.2)
    set_g_LP := fun rho q => (h.set_g_LP rho q.1, q.2)
    update_A := fun J q => (h.update_A J q.1, q.2)
    update_H := fun H q => (h.update_H H q.1, q.2)
    update_bounds := fun d xl xu xk cl cu ck q =>
      (h.update_bounds d xl xu xk cl cu ck q.1, q.2)
    update_delta := fun d xl xu xk q => (h.update_delta d xl xu xk q.1, q.2)
    update_penalty := fun rho q => (h.update_penalty rho q.1, q.2)
    update_grad := fun g q => (h.update_grad g q.1, q.2)
    solveQP := fun q =>
      { handler := ((h.solveQP q.1).handler, q.2 + 1), qp_iter := (h.solveQP q.1).qp_iter,
        solved := (h.solveQP q.1).solved }
    solveLP := fun q =>
      { handler := ((h.solveLP q.1).handler, q.2), qp_iter := (h.solveLP q.1).qp_iter,
        solved := (h.solveLP q.1).solved }
    status := fun q => h.status q.1
    get_optimal_solution := fun q => h.get_optimal_solution q.1
    get_constraints_multipliers := fun q => h.get_constraints_multipliers q.1
    get_bounds_multipliers := fun q => h.get_bounds_multipliers q.1
    get_objective := fun q => h.get_objective q.1
    get_infea_measure_model := fun q => h.get_infea_measure_model q.1 }

/-- The state of the second concrete problem for the counting handler, with no solve
counted yet. -/
def exState2Counting : SqpAlgorithm (ExQP × Nat) :=
  exState2.with_handlers (exState2.myQP, 0) (exState2.myLP, 0)

/-- The record of the KKT check as computed from a state `s` in which the multipliers
have been fetched (lines 271-388 of `check_optimality`). -/
def kkt_record {σ : Type} (o : SqpOptions) (s : SqpAlgorithm σ) : OptimalityStatus :=
  let primal_violation : ℚ := 0 + s.infea_measure
  let dual_violation :=
    dual_violation_loop s.nCon s.cons_type s.multiplier_cons
      (dual_violation_loop s.nVar s.bound_cons_type s.multiplier_vars 0)
  let compl_violation :=
    compl_violation_loop s.nVar s.bound_cons_type s.multiplier_vars s.x_k s.x_l s.x_u
      (compl_violation_loop s.nCon s.cons_type s.multiplier_cons s.c_k s.c_l s.c_u 0)
  let difference0 := s.jacobian.multiply_transpose s.multiplier_cons (List.replicate s.nVar 0)
  let difference1 := Vector.add_vector difference0 1 s.multiplier_vars
  let difference := Vector.add_vector difference1 (-1) s.grad_f
  let stationarity_violation := Vector.calc_one_norm difference
  { s.opt_status with
    dual_violation := dual_violation
    primal_violation := primal_violation
    compl_violation := compl_violation
    stationarity_violation := stationarity_violation
    KKT_error := dual_violation + primal_violation + compl_violation + stationarity_violation
    primal_feasibility := decide (primal_violation < o.opt_tol_primal_feasibility)
    dual_feasibility := decide (dual_violation < o.opt_tol_dual_feasibility)
    complementarity := decide (compl_violation < o.opt_tol_complementarity)
    stationarity := decide (stationarity_violation < o.opt_tol_stationarity_feasibility) }

/-- The second concrete problem with a trust-region radius below its minimum. -/
def exStateTiny : SqpAlgorithm ExQP :=
  { exState2 with delta := 1 / 100000000000000000 }

/-! ## The legacy driver -/

/-- Entries of `options_` that the legacy penalty update reads (and, for `eps1`,
writes). -/
structure AlgorithmOptions where
  penalty_update : Bool
  penalty_update_tol : ℚ
  rho_max : ℚ
  increase_parm : ℚ
  eps1 : ℚ
  eps1_change_parm : ℚ
  eps2 : ℚ
  penalty_iter_max : Int
  deriving Repr

/-- Members of the legacy driver `Algorithm` that its penalty update and its trial-point
evaluation use; `myQP` and `myLP` are the states of the two handlers, whose methods
`GetOptimalSolution`, `GetObjective`, `GetStatus`, `set_g(rho)` are the fields
`get_optimal_solution`, `get_objective`, `status`, `set_g_LP` of `QPhandler`. -/
structure Algorithm (σ : Type) where
  nVar : Nat
  nCon : Nat
  x_k : Vector
  x_trial : Vector
  p_k : Vector
  c_k : Vector
  c_trial : Vector
  x_l : Vector
  x_u : Vector
  c_l : Vector
  c_u : Vector
  jacobian : SpTripletMat
  delta : ℚ
  rho : ℚ
  obj_value : ℚ
  obj_value_trial : ℚ
  infea_measure : ℚ
  infea_measure_model : ℚ
  infea_measure_trial : ℚ
  qp_obj : ℚ
  QPinfoFlag : UpdateFlags
  exitflag : Exitflag
  stats : Stats
  options : AlgorithmOptions
  myQP : σ
  myLP : σ

/-- Elementwise addition of the legacy vector class (`Vector::add_vector(const double*)`
of Vector.cpp). -/
def Vector.add_values (v rhs : Vector) : Vector :=
  (List.range v.length).map (fun i => v.getD i 0 + rhs.getD i 0)

/-- Modelled from the spec: `oneNorm(values + offset, n)`, the l1 norm of the `n`
entries that start at position `offset`. -/
def oneNorm (v : Vector) (offset n : Nat) : ℚ :=
  (List.range n).foldl (fun acc i => acc + |v.getD (offset + i) 0|) 0

/-- The oracle adapter `SQPTNLP::Eval_f(shared_ptr<Vector> x, Number obj_value)`: the
parameter `obj_value` is passed by value, so `nlp_->eval_f` writes the objective into
the callee's copy `obj_value_copy`, which is dropped at the return.  The result is the
return value together with the caller's variable as it is after the call. -/
def SQPTNLP.Eval_f (nlp_ : SqpNlp) (x : Vector) (obj_value : ℚ) : Bool × ℚ :=
  let _obj_value_copy := nlp_.eval_f x
  (true, obj_value)

/-- The oracle adapter `SQPTNLP::Eval_constraints(x, constraints)`: the oracle writes
the constraint values into the buffer of the caller's vector. -/
def SQPTNLP.Eval_constraints (nlp_ : SqpNlp) (x : Vector) (constraints : Vector) :
    Bool × Vector :=
  (true, Vector.copy_values constraints (nlp_.eval_constraints x))

/-- Infeasibility of the trial point (`Algorithm::cal_infea_trial`). -/
def Algorithm.cal_infea_trial {σ : Type} (s : Algorithm σ) : Algorithm σ :=
  let s0 := { s with infea_measure_trial := 0 }
  (List.range s0.c_k.length).foldl (fun s i =>
    if s.c_trial.getD i 0 < s.c_l.getD i 0 then
      { s with infea_measure_trial := s.infea_measure_trial + (s.c_l.getD i 0 - s.c_trial.getD i 0) }
    else if s.c_trial.getD i 0 > s.c_u.getD i 0 then
      { s with infea_measure_trial := s.infea_measure_trial + (s.c_trial.getD i 0 - s.c_u.getD i 0) }
    else s) s0

/-- Trial point of the legacy driver (`Algorithm::get_trial_point_info`): the calls
`nlp_->Eval_f(x_trial_, obj_value_trial_)` and `nlp_->Eval_constraints(x_trial_,
c_trial_)` leave their second argument as the adapter leaves it. -/
def Algorithm.get_trial_point_info {σ : Type} (nlp_ : SqpNlp) (s : Algorithm σ) : Algorithm σ :=
  let s1 := { s with x_trial := Vector.copy_values s.x_trial s.x_k }
  let s2 := { s1 with x_trial := Vector.add_values s1.x_trial s1.p_k }
  let s3 := { s2 with obj_value_trial := (SQPTNLP.Eval_f nlp_ s2.x_trial s2.obj_value_trial).2 }
  let s4 := { s3 with c_trial := (SQPTNLP.Eval_constraints nlp_ s3.x_trial s3.c_trial).2 }
  Algorithm.cal_infea_trial s4

/-- The `catch` blocks of the legacy penalty update (`Algorithm::handle_error` with
"QP NOT OPTIMAL" or "LP NOT OPTIMAL"): the exit flag is set from the status of `myQP_`;
for the statuses of the legacy enumeration that `QPStatus` does not list the flag is
left as it is. -/
def Algorithm.handle_error {σ : Type} (h : QPhandler σ) (s : Algorithm σ) : Algorithm σ :=
  match h.status s.myQP with
  | QPStatus.INFEASIBLE => { s with exitflag := Exitflag.QPERROR_INFEASIBLE }
  | QPStatus.UNBOUNDED => { s with exitflag := Exitflag.QPERROR_UNBOUNDED }
  | QPStatus.NOT_INITIALISED => { s with exitflag := Exitflag.QPERROR_NOTINITIALISED }
  | _ => s

/-- LP data of the legacy driver (`Algorithm::setupLP`). -/
def Algorithm.setupLP {σ : Type} (h : QPhandler σ) (s : Algorithm σ) : Algorithm σ :=
  let lp1 := h.set_bounds s.delta s.x_k s.x_l s.x_u s.c_k s.c_l s.c_u s.myLP
  let lp2 := h.set_g_LP s.rho lp1
  { s with myLP := h.set_A s.jacobian lp2 }

/-- The `try { myLP_->solveLP(stats_, options_); } catch (LP_NOT_OPTIMAL)` block:
after the handler the function goes on. -/
def Algorithm.solveLP {σ : Type} (h : QPhandler σ) (s : Algorithm σ) : Algorithm σ :=
  let r := h.solveLP s.myLP
  let s1 := { s with myLP := r.handler, stats := s.stats.qp_iter_addValue r.qp_iter }
  if r.solved then s1 else Algorithm.handle_error h s1

/-- The `try { myQP_->solveQP(stats_, options_); } catch (QP_NOT_OPTIMAL)` block:
after the handler the loop goes on. -/
def Algorithm.solveQP {σ : Type} (h : QPhandler σ) (s : Algorithm σ) : Algorithm σ :=
  let r := h.solveQP s.myQP
  let s1 := { s with myQP := r.handler, stats := s.stats.qp_iter_addValue r.qp_iter }
  if r.solved then s1 else Algorithm.handle_error h s1

/-- Body of both `while` loops of the legacy penalty update after the `break` test
(lines 877-903 and 916-942): the trial penalty is multiplied by
`std::min(rho_max, increase_parm)`, the QP is solved again and the slack part of its
solution gives the new model infeasibility.  The result is the new trial penalty, the
new `sol_tmp` and the new state. -/
def Algorithm.penalty_pass {σ : Type} (h : QPhandler σ) (rho_trial : ℚ) (sol_tmp : Vector)
    (s : Algorithm σ) : ℚ × Vector × Algorithm σ :=
  let rho_trial1 := rho_trial * min s.options.rho_max s.options.increase_parm
  let s1 := { s with stats := s.stats.penalty_change_trial_addone }
  let s2 := { s1 with myQP := h.update_penalty rho_trial1 s1.myQP }
  let s3 := Algorithm.solveQP h s2
  let sol_tmp1 := Vector.copy_values sol_tmp (h.get_optimal_solution s3.myQP)
  (rho_trial1, sol_tmp1,
    { s3 with infea_measure_model := oneNorm sol_tmp1 s3.nVar (2 * s3.nCon) })

/-- First `while` loop of the legacy penalty update (lines 871-904).  `none` when the
fuel is used up before the loop is left. -/
def Algorithm.penalty_loop_feasible {σ : Type} (h : QPhandler σ) :
    Nat → ℚ → Vector → Algorithm σ → Option (ℚ × Vector × Algorithm σ)
  | 0, rho_trial, sol_tmp, s =>
    if s.infea_measure_model > s.options.penalty_update_tol then
      if rho_trial ≥ s.options.rho_max then some (rho_trial, sol_tmp, s) else none
    else some (rho_trial, sol_tmp, s)
  | fuel + 1, rho_trial, sol_tmp, s =>
    if s.infea_measure_model > s.options.penalty_update_tol then
      if rho_trial ≥ s.options.rho_max then some (rho_trial, sol_tmp, s)
      else
        let r := Algorithm.penalty_pass h rho_trial sol_tmp s
        Algorithm.penalty_loop_feasible h fuel r.1 r.2.1 r.2.2
    else some (rho_trial, sol_tmp, s)

/-- Second `while` loop of the legacy penalty update (lines 907-943).  `none` when the
fuel is used up before the loop is left. -/
def Algorithm.penalty_loop_infeasible {σ : Type} (h : QPhandler σ) (infea_measure_infty : ℚ) :
    Nat → ℚ → Vector → Algorithm σ → Option (ℚ × Vector × Algorithm σ)
  | 0, rho_trial, sol_tmp, s =>
    if s.infea_measure - s.infea_measure_model <
          s.options.eps1 * (s.infea_measure - infea_measure_infty) ∧
        (s.stats.penalty_change_trial : Int) < s.options.penalty_iter_max then
      if rho_trial * 2 ≥ s.options.rho_max then some (rho_trial, sol_tmp, s) else none
    else some (rho_trial, sol_tmp, s)
  | fuel + 1, rho_trial, sol_tmp, s =>
    if s.infea_measure - s.infea_measure_model <
          s.options.eps1 * (s.infea_measure - infea_measure_infty) ∧
        (s.stats.penalty_change_trial : Int) < s.options.penalty_iter_max then
      if rho_trial * 2 ≥ s.options.rho_max then some (rho_trial, sol_tmp, s)
      else
        let r := Algorithm.penalty_pass h rho_trial sol_tmp s
        Algorithm.penalty_loop_infeasible h infea_measure_infty fuel r.1 r.2.1 r.2.2
    else some (rho_trial, sol_tmp, s)

/-- Decision at the end of the legacy penalty update (lines 945-964). -/
def Algorithm.penalty_decision {σ : Type} (h : QPhandler σ) (infea_measure_model_tmp rho_trial : ℚ)
    (sol_tmp : Vector) (s : Algorithm σ) : Algorithm σ :=
  if rho_trial > s.rho then
    if rho_trial * s.infea_measure - s.qp_obj ≥
        s.options.eps2 * rho_trial * (s.infea_measure - s.infea_measure_model) then
      let s1 := { s with stats := s.stats.penalty_change_Succ_addone }
      let s2 := { s1 with options := { s1.options with
                    eps1 := s1.options.eps1 + (1 - s1.options.eps1) * s1.options.eps1_change_parm } }
      let s3 := { s2 with p_k := Vector.copy_values s2.p_k sol_tmp }
      let s4 := { s3 with rho := rho_trial }
      { s4 with qp_obj := h.get_objective s4.myQP }
    else
      let s1 := { s with stats := s.stats.penalty_change_Fail_addone }
      { s1 with infea_measure_model := infea_measure_model_tmp,
                QPinfoFlag := { s1.QPinfoFlag with Update_penalty := true } }
  else s

/-- Penalty update of the legacy driver (`Algorithm::update_penalty_parameter`, lines
832-958 of Algorithm.cpp).  `fuel` bounds the passes of the `while` loops; `none` when
it does not suffice. -/
def Algorithm.update_penalty_parameter {σ : Type} (h : QPhandler σ) (fuel : Nat) (s : Algorithm σ) :
    Option (Algorithm σ) :=
  if s.options.penalty_update then
    if s.infea_measure_model > s.options.penalty_update_tol then
      let infea_measure_model_tmp := s.infea_measure_model
      let rho_trial := s.rho
      let s1 := Algorithm.setupLP h s
      let s2 := Algorithm.solveLP h s1
      let sol_tmp := Vector.copy_values (List.replicate (s2.nVar + 2 * s2.nCon) 0)
        (h.get_optimal_solution s2.myLP)
      let infea_measure_infty := oneNorm sol_tmp s2.nVar (2 * s2.nCon)
      let loops :=
        if infea_measure_infty ≤ s2.options.penalty_update_tol then
          Algorithm.penalty_loop_feasible h fuel rho_trial sol_tmp s2
        else
          Algorithm.penalty_loop_infeasible h infea_measure_infty fuel rho_trial sol_tmp s2
      match loops with
      | none => none
      | some (rho_trial1, sol_tmp1, s3) =>
        some (Algorithm.penalty_decision h infea_measure_model_tmp rho_trial1 sol_tmp1 s3)
    else some s
  else some s

/-- The legacy driver at `x_k = 3` with the step `p_k = -1/2` of the second concrete
problem; `obj_value_trial_` still has the value 0 that the constructor gives it. -/
def exAlgorithm : Algorithm ExQP :=
  { nVar := 1
    nCon := 1
    x_k := [3]
    x_trial := [0]
    p_k := [-1 / 2]
    c_k := [3]
    c_trial := [0]
    x_l := [-10]
    x_u := [10]
    c_l := [5]
    c_u := [10]
    jacobian := { RowNum := 1, ColNum := 1, RowIndex := [1], ColIndex := [1], MatVal := [1],
                  isSymmetric := false }
    delta := 1
    rho := 11 / 5
    obj_value := 1
    obj_value_trial := 0
    infea_measure := 2
    infea_measure_model := 19 / 10
    infea_measure_trial := 0
    qp_obj := 439 / 100
    QPinfoFlag := { Update_A := false, Update_H := false, Update_g := false,
                    Update_bounds := false, Update_delta := false, Update_penalty := false }
    exitflag := Exitflag.UNKNOWN
    stats := { iter := 0, qp_iter := 1, penalty_change_trial := 0, penalty_change_Succ := 0,
               penalty_change_Fail := 0 }
    options := { penalty_update := true, penalty_update_tol := 1 / 100000000, rho_max := 20,
                 increase_parm := 10, eps1 := 3 / 10, eps1_change_parm := 1 / 10,
                 eps2 := 1 / 1000000, penalty_iter_max := 10 }
    myQP := { isLP := false, rho := 11 / 5 }
    myLP := { isLP := true, rho := 11 / 5 } }

/-! ## The SL1QP subproblem and exact handlers -/

/-- Modelled from the spec: the SL1QP subproblem for fixed `H`, `g`, `J` and bounds, as far
as the penalty loops see it: the points `(p, u)` of type `π` that satisfy its
constraints, the part `1/2 p^T H p + g^T p` of the objective and the slack total, the
l1 norm of `u`. -/
structure SL1QP (π : Type) where
  feasible : π → Prop
  quadratic : π → ℚ
  slack_total : π → ℚ

/-- Modelled from the spec: objective of the SL1QP subproblem with penalty `rho`. -/
def SL1QP.objective {π : Type} (P : SL1QP π) (rho : ℚ) (x : π) : ℚ :=
  P.quadratic x + rho * P.slack_total x

/-- Modelled from the spec: `x` minimises the SL1QP subproblem with penalty `rho`. -/
def SL1QP.minimises {π : Type} (P : SL1QP π) (rho : ℚ) (x : π) : Prop :=
  P.feasible x ∧ ∀ y, P.feasible y → P.objective rho x ≤ P.objective rho y

/-- The handler `h` returns exact minimisers of the subproblem `P`.  `valid` marks the
handler states that hold the data of `P`, `penalty q` is the penalty such a state
holds and `point q` the point in its solution buffer: `update_penalty` stores its
argument, a `solveQP` that returns leaves a minimiser for the penalty held, and
`get_infea_measure_model` is the slack total of the point held. -/
structure QPhandler.Exact {σ π : Type} (h : QPhandler σ) (P : SL1QP π) (valid : σ → Prop)
    (penalty : σ → ℚ) (point : σ → π) : Prop where
  update_valid : ∀ rho q, valid q → valid (h.update_penalty rho q)
  update_stores : ∀ rho q, valid q → penalty (h.update_penalty rho q) = rho
  solve_valid : ∀ q, valid q → valid (h.solveQP q).handler
  solve_keeps : ∀ q, valid q → penalty (h.solveQP q).handler = penalty q
  solve_minimises : ∀ q, valid q → (h.solveQP q).solved = true →
    P.minimises (penalty q) (point (h.solveQP q).handler)
  infea_slack : ∀ q, valid q → h.get_infea_measure_model q = P.slack_total (point q)

/-- A handler that behaves as `h` and in addition keeps the list of the values of
`get_infea_measure_model` after every `solveQP` that returned, latest first: the
values the penalty loops assign to `infea_measure_model_`. -/
def QPhandler.tracing {σ : Type} (h : QPhandler σ) : QPhandler (σ × List ℚ) :=
  { set_A := fun J q => (h.set_A J q.1, q.2)
    set_H := fun H q => (h.set_H H q.1, q.2)
    set_bounds := fun d xl xu xk cl cu ck q => (h.set_bounds d xl xu xk cl cu ck q.1, q.2)
    set_g := fun g rho q => (h.set_g g rho q.1, q.2)
    set_g_LP := fun rho q => (h.set_g_LP rho q.1, q.2)
    update_A := fun J q => (h.update_A J q.1, q.2)
    update_H := fun H q => (h.update_H H q.1, q.2)
    update_bounds := fun d xl xu xk cl cu ck q =>
      (h.update_bounds d xl xu xk cl cu ck q.1, q.2)
    update_delta := fun d xl xu xk q => (h.update_delta d xl xu xk q.1, q.2)
    update_penalty := fun rho q => (h.update_penalty rho q.1, q.2)
    update_grad := fun g q => (h.update_grad g q.1, q.2)
    solveQP := fun q =>
      { handler := ((h.solveQP q.1).handler,
          if (h.solveQP q.1).solved then
            h.get_infea_measure_model (h.solveQP q.1).handler :: q.2
          else q.2),
        qp_iter := (h.solveQP q.1).qp_iter,
        solved := (h.solveQP q.1).solved }
    solveLP := fun q =>
      { handler := ((h.solveLP q.1).handler, q.2), qp_iter := (h.solveLP q.1).qp_iter,
        solved := (h.solveLP q.1).solved }
    status := fun q => h.status q.1
    get_optimal_solution := fun q => h.get_optimal_solution q.1
    get_constraints_multipliers := fun q => h.get_constraints_multipliers q.1
    get_bounds_multipliers := fun q => h.get_bounds_multipliers q.1
    get_objective := fun q => h.get_objective q.1
    get_infea_measure_model := fun q => h.get_infea_measure_model q.1 }

/-- The trace of a tracing handler in the penalty loops, with the value `m0` of the
model infeasibility before the loops put at its end: every value is at most the one
before it (the list is latest first), and the latest is the value of
`infea_measure_model`. -/
def TraceOk {σ : Type} (m0 : ℚ) (s : SqpAlgorithm (σ × List ℚ)) : Prop :=
  List.Chain' (fun later earlier => later ≤ earlier) (s.myQP.2 ++ [m0]) ∧
  (s.myQP.2 ++ [m0]).head? = some s.infea_measure_model

/-- What holds at the head of the penalty loops for an exact handler: the QP handler
holds a minimiser for the trial penalty, `infea_measure_model` is its slack total, and
the trace is in order. -/
def TraceInv {σ π : Type} (P : SL1QP π) (valid : σ → Prop) (penalty : σ → ℚ) (point : σ → π)
    (m0 rho_trial : ℚ) (s : SqpAlgorithm (σ × List ℚ)) : Prop :=
  valid s.myQP.1 ∧ penalty s.myQP.1 = rho_trial ∧ P.minimises rho_trial (point s.myQP.1) ∧
  s.infea_measure_model = P.slack_total (point s.myQP.1) ∧ TraceOk m0 s

/-- The SL1QP subproblem of the second concrete problem at `x = 3` with radius 1, in
the step `p` alone: `-1 ≤ p ≤ 1`, quadratic part `p^2 + 2 p`, slack total `2 - p`. -/
def exSL1QP : SL1QP ℚ :=
  { feasible := fun p => -1 ≤ p ∧ p ≤ 1
    quadratic := fun p => p * p + 2 * p
    slack_total := fun p => 2 - p }

/-- The descriptor without identity blocks (`irow1 = 0`, `size = 0`). -/
def exNoIdentity : Identity2Info :=
  { irow1 := 0, jcol1 := 0, irow2 := 0, jcol2 := 0, size := 0 }

/-! ## Properties -/

section Properties

variable {σ : Type}

/-- State of a normal return. -/
@[simp]
theorem Result.state_ok {α : Type} (s : α) : (Result.ok s).state = s := rfl

/-- State at a throw. -/
@[simp]
theorem Result.state_raise {α : Type} (e : SqpException) (s : α) :
    (Result.raise e s).state = s := rfl

/-- A normal return carries no exception. -/
@[simp]
theorem Result.raised_ok {α : Type} (s : α) : (Result.ok s).raised = none := rfl

/-- A throw carries its exception. -/
@[simp]
theorem Result.raised_raise {α : Type} (e : SqpException) (s : α) :
    (Result.raise e s).raised = some e := rfl

/-- Copying a vector of the same dimension yields that vector. -/
theorem Vector.copy_vector_eq (dst src : Vector) (hlen : src.length = dst.length) :
    Vector.copy_vector dst src = src := by
  unfold Vector.copy_vector Vector.copy_values
  apply List.ext_getElem
  · simp [hlen]
  · intro i h1 h2
    simp at h1
    simp [List.getD_eq_getElem?_getD, List.getElem?_eq_getElem h2]

/-- Fetching the multipliers leaves `x_k` unchanged. -/
@[simp]
theorem get_multipliers_x_k (o : SqpOptions) (h : QPhandler σ) (s : SqpAlgorithm σ) :
    (get_multipliers o h s).x_k = s.x_k := by
  unfold get_multipliers
  split_ifs <;> rfl

/-- Fetching the multipliers leaves `c_k` unchanged. -/
@[simp]
theorem get_multipliers_c_k (o : SqpOptions) (h : QPhandler σ) (s : SqpAlgorithm σ) :
    (get_multipliers o h s).c_k = s.c_k := by
  unfold get_multipliers
  split_ifs <;> rfl

/-- Fetching the multipliers leaves `obj_value` unchanged. -/
@[simp]
theorem get_multipliers_obj_value (o : SqpOptions) (h : QPhandler σ) (s : SqpAlgorithm σ) :
    (get_multipliers o h s).obj_value = s.obj_value := by
  unfold get_multipliers
  split_ifs <;> rfl

/-- Fetching the multipliers leaves `infea_measure` unchanged. -/
@[simp]
theorem get_multipliers_infea_measure (o : SqpOptions) (h : QPhandler σ) (s : SqpAlgorithm σ) :
    (get_multipliers o h s).infea_measure = s.infea_measure := by
  unfold get_multipliers
  split_ifs <;> rfl

/-- Fetching the multipliers leaves `QPinfoFlag` unchanged. -/
@[simp]
theorem get_multipliers_QPinfoFlag (o : SqpOptions) (h : QPhandler σ) (s : SqpAlgorithm σ) :
    (get_multipliers o h s).QPinfoFlag = s.QPinfoFlag := by
  unfold get_multipliers
  split_ifs <;> rfl

/-- Fetching the multipliers leaves `exit_flag` unchanged. -/
@[simp]
theorem get_multipliers_exit_flag (o : SqpOptions) (h : QPhandler σ) (s : SqpAlgorithm σ) :
    (get_multipliers o h s).exit_flag = s.exit_flag := by
  unfold get_multipliers
  split_ifs <;> rfl

/-- Fetching the multipliers leaves `stats` unchanged. -/
@[simp]
theorem get_multipliers_stats (o : SqpOptions) (h : QPhandler σ) (s : SqpAlgorithm σ) :
    (get_multipliers o h s).stats = s.stats := by
  unfold get_multipliers
  split_ifs <;> rfl

/-- Fetching the multipliers leaves `myQP` unchanged. -/
@[simp]
theorem get_multipliers_myQP (o : SqpOptions) (h : QPhandler σ) (s : SqpAlgorithm σ) :
    (get_multipliers o h s).myQP = s.myQP := by
  unfold get_multipliers
  split_ifs <;> rfl

/-- Fetching the multipliers leaves `isaccept` unchanged. -/
@[simp]
theorem get_multipliers_isaccept (o : SqpOptions) (h : QPhandler σ) (s : SqpAlgorithm σ) :
    (get_multipliers o h s).isaccept = s.isaccept := by
  unfold get_multipliers
  split_ifs <;> rfl

/-- Fetching the multipliers leaves `opt_status` unchanged. -/
@[simp]
theorem get_multipliers_opt_status (o : SqpOptions) (h : QPhandler σ) (s : SqpAlgorithm σ) :
    (get_multipliers o h s).opt_status = s.opt_status := by
  unfold get_multipliers
  split_ifs <;> rfl

/-- Fetching the multipliers leaves `rho` unchanged. -/
@[simp]
theorem get_multipliers_rho (o : SqpOptions) (h : QPhandler σ) (s : SqpAlgorithm σ) :
    (get_multipliers o h s).rho = s.rho := by
  unfold get_multipliers
  split_ifs <;> rfl

/-- Fetching the multipliers leaves `delta` unchanged. -/
@[simp]
theorem get_multipliers_delta (o : SqpOptions) (h : QPhandler σ) (s : SqpAlgorithm σ) :
    (get_multipliers o h s).delta = s.delta := by
  unfold get_multipliers
  split_ifs <;> rfl

/-- Fetching the multipliers leaves `eps1` unchanged. -/
@[simp]
theorem get_multipliers_eps1 (o : SqpOptions) (h : QPhandler σ) (s : SqpAlgorithm σ) :
    (get_multipliers o h s).eps1 = s.eps1 := by
  unfold get_multipliers
  split_ifs <;> rfl

/-- Fetching the multipliers leaves `infea_measure_model` unchanged. -/
@[simp]
theorem get_multipliers_infea_measure_model (o : SqpOptions) (h : QPhandler σ) (s : SqpAlgorithm σ) :
    (get_multipliers o h s).infea_measure_model = s.infea_measure_model := by
  unfold get_multipliers
  split_ifs <;> rfl

/-- Fetching the multipliers leaves `nVar` unchanged. -/
@[simp]
theorem get_multipliers_nVar (o : SqpOptions) (h : QPhandler σ) (s : SqpAlgorithm σ) :
    (get_multipliers o h s).nVar = s.nVar := by
  unfold get_multipliers
  split_ifs <;> rfl

/-- Fetching the multipliers leaves `nCon` unchanged. -/
@[simp]
theorem get_multipliers_nCon (o : SqpOptions) (h : QPhandler σ) (s : SqpAlgorithm σ) :
    (get_multipliers o h s).nCon = s.nCon := by
  unfold get_multipliers
  split_ifs <;> rfl

/-- C1: the ratio test commits the trial point (isaccept becomes true) exactly when
the actual reduction of the merit function is at least
`trust_region_ratio_accept_tol` times the predicted reduction and at least
`-opt_tol`; on commit the iterate, the constraint values, the objective and the
infeasibility measure are those of the trial point and the flags Update_A, Update_H,
Update_bounds, Update_g are set; otherwise the iterate, the constraint values, the
objective, the infeasibility measure and all dirty flags are unchanged. -/
theorem ratio_test_commit (o : SqpOptions) (nlp : SqpNlp) (h : QPhandler σ)
    (s : SqpAlgorithm σ) (hx : s.x_trial.length = s.x_k.length)
    (hc : s.c_trial.length = s.c_k.length) :
    ((ratio_test o nlp h s).isaccept = true ↔
      ((s.obj_value + s.rho * s.infea_measure) -
            (s.obj_value_trial + s.rho * s.infea_measure_trial) ≥
          o.trust_region_ratio_accept_tol * (s.rho * s.infea_measure - h.get_objective s.myQP) ∧
        (s.obj_value + s.rho * s.infea_measure) -
            (s.obj_value_trial + s.rho * s.infea_measure_trial) ≥ -o.opt_tol)) ∧
    ((ratio_test o nlp h s).isaccept = true →
      (ratio_test o nlp h s).x_k = s.x_trial ∧
      (ratio_test o nlp h s).c_k = s.c_trial ∧
      (ratio_test o nlp h s).obj_value = s.obj_value_trial ∧
      (ratio_test o nlp h s).infea_measure = s.infea_measure_trial ∧
      (ratio_test o nlp h s).QPinfoFlag.Update_A = true ∧
      (ratio_test o nlp h s).QPinfoFlag.Update_H = true ∧
      (ratio_test o nlp h s).QPinfoFlag.Update_bounds = true ∧
      (ratio_test o nlp h s).QPinfoFlag.Update_g = true) ∧
    ((ratio_test o nlp h s).isaccept = false →
      (ratio_test o nlp h s).x_k = s.x_k ∧
      (ratio_test o nlp h s).c_k = s.c_k ∧
      (ratio_test o nlp h s).obj_value = s.obj_value ∧
      (ratio_test o nlp h s).infea_measure = s.infea_measure ∧
      (ratio_test o nlp h s).QPinfoFlag = s.QPinfoFlag) := by
  by_cases hcond :
      ((s.obj_value + s.rho * s.infea_measure) -
            (s.obj_value_trial + s.rho * s.infea_measure_trial) ≥
          o.trust_region_ratio_accept_tol * (s.rho * s.infea_measure - h.get_objective s.myQP) ∧
        (s.obj_value + s.rho * s.infea_measure) -
            (s.obj_value_trial + s.rho * s.infea_measure_trial) ≥ -o.opt_tol)
  · simp only [ratio_test, get_obj_QP, hcond, and_self, if_true]
    simp [Vector.copy_vector_eq _ _ hx, Vector.copy_vector_eq _ _ hc, hcond]
  · simp only [ratio_test, get_obj_QP, hcond, if_false]
    simp [hcond]

/-- The ratio test accepts the step of the concrete problem started at 3, and the
iterate becomes the trial point. -/
theorem ratio_test_commit_witness :
    (exState 3).x_trial.length = (exState 3).x_k.length ∧
    (exState 3).c_trial.length = (exState 3).c_k.length ∧
    (ratio_test exOptions exNlp (exHandler true 0) (exState 3)).isaccept = true ∧
    (ratio_test exOptions exNlp (exHandler true 0) (exState 3)).x_k = (exState 3).x_trial :=
  have hacc : (ratio_test exOptions exNlp (exHandler true 0) (exState 3)).isaccept = true :=
    (ratio_test_commit exOptions exNlp (exHandler true 0) (exState 3) rfl rfl).1.mpr
      (by norm_num [exState, exOptions, exHandler])
  ⟨rfl, rfl, hacc,
    ((ratio_test_commit exOptions exNlp (exHandler true 0) (exState 3) rfl rfl).2.1 hacc).1⟩

/-- The loop of `getInfNorm` started from a non-negative value computes the maximum
of that value and the largest absolute entry. -/
theorem Vector.calc_inf_norm_foldl (v : Vector) (a : ℚ) (ha : 0 ≤ a) :
    v.foldl (fun infnorm x =>
      let absxk := if x < 0 then -x else x
      if absxk > infnorm then absxk else infnorm) a = max a (Vector.inf_norm_spec v) := by
  induction v generalizing a with
  | nil => simp [Vector.inf_norm_spec, ha]
  | cons x v ih =>
    have habs : (if x < 0 then -x else x) = |x| := by
      split_ifs with hx
      · exact (abs_of_neg hx).symm
      · exact (abs_of_nonneg (not_lt.mp hx)).symm
    have hstep : (if |x| > a then |x| else a) = max a |x| := by
      split_ifs with hx
      · exact (max_eq_right (le_of_lt hx)).symm
      · exact (max_eq_left (not_lt.mp hx)).symm
    have hnn : 0 ≤ max a |x| := le_max_of_le_left ha
    simp only [List.foldl_cons, habs, hstep]
    rw [ih _ hnn]
    simp [Vector.inf_norm_spec, max_assoc]

/-- The routine `calc_inf_norm` computes the l∞ norm. -/
theorem Vector.calc_inf_norm_eq (v : Vector) :
    Vector.calc_inf_norm v = Vector.inf_norm_spec v := by
  unfold Vector.calc_inf_norm
  rw [Vector.calc_inf_norm_foldl v 0 le_rfl]
  apply max_eq_right
  unfold Vector.inf_norm_spec
  induction v with
  | nil => simp
  | cons x v _ => simp

/-- C2: the new trust-region radius is `gamma_c * delta` when the actual reduction is
below `eta_c` times the predicted one; otherwise `min (gamma_e * delta) delta_max`
when the actual reduction exceeds `eta_e` times the predicted one and the step lies
within `opt_tol` of the trust-region boundary in the l∞ norm; otherwise the radius is
unchanged.  Update_delta is set in the first two cases and kept in the third. -/
theorem update_radius_delta (o : SqpOptions) (s : SqpAlgorithm σ) :
    (update_radius o s).state.delta =
      (if s.actual_reduction < o.trust_region_ratio_decrease_tol * s.pred_reduction then
        o.trust_region_decrease_factor * s.delta
      else if s.actual_reduction > o.trust_region_ratio_increase_tol * s.pred_reduction ∧
          |s.delta - Vector.inf_norm_spec s.p_k| < o.opt_tol then
        min (o.trust_region_increase_factor * s.delta) o.trust_region_max_value
      else s.delta) ∧
    (update_radius o s).state.QPinfoFlag.Update_delta =
      (if s.actual_reduction < o.trust_region_ratio_decrease_tol * s.pred_reduction ∨
          (s.actual_reduction > o.trust_region_ratio_increase_tol * s.pred_reduction ∧
            |s.delta - Vector.inf_norm_spec s.p_k| < o.opt_tol) then true
      else s.QPinfoFlag.Update_delta) := by
  rw [← Vector.calc_inf_norm_eq]
  unfold update_radius
  by_cases h1 : s.actual_reduction < o.trust_region_ratio_decrease_tol * s.pred_reduction
  · simp only [if_pos h1, true_or]
    constructor <;> split_ifs <;> simp_all
  · simp only [if_neg h1, or_iff_right h1]
    by_cases h2 : s.actual_reduction > o.trust_region_ratio_increase_tol * s.pred_reduction ∧
        o.opt_tol > |s.delta - Vector.calc_inf_norm s.p_k|
    · have h2' : s.actual_reduction > o.trust_region_ratio_increase_tol * s.pred_reduction ∧
          |s.delta - Vector.calc_inf_norm s.p_k| < o.opt_tol := h2
      simp only [if_pos h2, if_pos h2']
      constructor <;> split_ifs <;> simp_all
    · have h2' : ¬ (s.actual_reduction > o.trust_region_ratio_increase_tol * s.pred_reduction ∧
          |s.delta - Vector.calc_inf_norm s.p_k| < o.opt_tol) := h2
      simp only [if_neg h2, if_neg h2']
      constructor <;> split_ifs <;> simp_all

/-- C8: `update_radius` throws SMALL_TRUST_REGION exactly when the radius after its
update is strictly smaller than `trust_region_min_value`, and then the exit flag is
TRUST_REGION_TOO_SMALL; when it does not throw, the exit flag is unchanged.  No other
exception is thrown. -/
theorem update_radius_small (o : SqpOptions) (s : SqpAlgorithm σ) :
    ((update_radius o s).raised = some SqpException.SMALL_TRUST_REGION ↔
      (update_radius o s).state.delta < o.trust_region_min_value) ∧
    ((update_radius o s).state.delta < o.trust_region_min_value →
      (update_radius o s).state.exit_flag = Exitflag.TRUST_REGION_TOO_SMALL) ∧
    (¬ (update_radius o s).state.delta < o.trust_region_min_value →
      (update_radius o s).raised = none ∧
      (update_radius o s).state.exit_flag = s.exit_flag) := by
  simp only [update_radius, apply_ite Result.state, apply_ite Result.raised, Result.state_ok,
    Result.state_raise, Result.raised_ok, Result.raised_raise]
  refine ⟨?_, ?_, ?_⟩ <;> split_ifs <;> simp_all

/-- The KKT check either records violations that are all below their tolerances and
sets the exit flag to OPTIMAL, or keeps the exit flag and the first-order flag. -/
theorem check_optimality_cases (o : SqpOptions) (h : QPhandler σ) (s : SqpAlgorithm σ) :
    (KKT_satisfied o (check_optimality o h s).opt_status ∧
      (check_optimality o h s).exit_flag = Exitflag.OPTIMAL ∧
      (check_optimality o h s).opt_status.first_order_opt = true) ∨
    (¬ KKT_satisfied o (check_optimality o h s).opt_status ∧
      (check_optimality o h s).exit_flag = s.exit_flag ∧
      (check_optimality o h s).opt_status.first_order_opt = s.opt_status.first_order_opt) := by
  unfold check_optimality KKT_satisfied
  simp only [multiplier_vars_is_nullptr, Bool.false_eq_true, if_false, Bool.and_eq_true,
    decide_eq_true_eq]
  split_ifs with hk
  · left
    simp only [and_assoc] at hk
    exact ⟨hk, rfl, rfl⟩
  · right
    simp only [and_assoc] at hk
    refine ⟨hk, ?_, ?_⟩ <;> simp

/-- C3: `check_optimality` sets the exit flag to OPTIMAL (and first_order_opt to
true) when all four violations it records are strictly below their tolerances, and
only then: otherwise the exit flag (and first_order_opt) stay as they were on entry. -/
theorem check_optimality_optimal_iff (o : SqpOptions) (h : QPhandler σ) (s : SqpAlgorithm σ) :
    (KKT_satisfied o (check_optimality o h s).opt_status →
      (check_optimality o h s).exit_flag = Exitflag.OPTIMAL ∧
      (check_optimality o h s).opt_status.first_order_opt = true) ∧
    (¬ KKT_satisfied o (check_optimality o h s).opt_status →
      (check_optimality o h s).exit_flag = s.exit_flag ∧
      (check_optimality o h s).opt_status.first_order_opt = s.opt_status.first_order_opt) ∧
    (s.exit_flag ≠ Exitflag.OPTIMAL →
      ((check_optimality o h s).exit_flag = Exitflag.OPTIMAL ↔
        ((check_optimality o h s).opt_status.primal_violation < o.opt_tol_primal_feasibility ∧
         (check_optimality o h s).opt_status.dual_violation < o.opt_tol_dual_feasibility ∧
         (check_optimality o h s).opt_status.compl_violation < o.opt_tol_complementarity ∧
         (check_optimality o h s).opt_status.stationarity_violation <
           o.opt_tol_stationarity_feasibility))) := by
  rcases check_optimality_cases o h s with ⟨hk, hf, hfo⟩ | ⟨hk, hf, hfo⟩
  · refine ⟨fun _ => ⟨hf, hfo⟩, fun hn => absurd hk hn, fun _ => ⟨fun _ => hk, fun _ => hf⟩⟩
  · refine ⟨fun hk' => absurd hk' hk, fun _ => ⟨hf, hfo⟩, fun hne => ⟨fun hopt => ?_, fun hk' => absurd hk' hk⟩⟩
    rw [hf] at hopt
    exact absurd hopt hne

/-- After the first iteration `setupQP` with a clean flag record throws QP_UNCHANGED
and leaves the driver, handler included, as it was. -/
theorem setupQP_unchanged (h : QPhandler σ) (s : SqpAlgorithm σ) (hiter : s.stats.iter ≠ 0)
    (hclear : s.QPinfoFlag.all_clear) :
    setupQP h s = Result.raise SqpException.QP_UNCHANGED s := by
  obtain ⟨hA, hH, hg, hb, hd, hp⟩ := hclear
  simp [setupQP, hiter, hA, hH, hg, hb, hd, hp]

/-- After the first iteration `setupQP` with some flag set returns, having made
exactly the flagged update calls and cleared all flags. -/
theorem setupQP_updates (h : QPhandler σ) (s : SqpAlgorithm σ) (hiter : s.stats.iter ≠ 0)
    (hdirty : ¬ s.QPinfoFlag.all_clear) :
    (setupQP h s).raised = none ∧
    (setupQP h s).state.myQP = (setupQP_calls s).foldl h.call s.myQP ∧
    (setupQP h s).state.QPinfoFlag.all_clear := by
  unfold UpdateFlags.all_clear at hdirty ⊢
  rcases hf : s.QPinfoFlag with ⟨a, b, c, d, e, f⟩
  rw [hf] at hdirty
  cases a <;> cases b <;> cases c <;> cases d <;> cases e <;> cases f <;>
    first
    | (simp at hdirty; done)
    | simp [setupQP, setupQP_calls, hiter, hf, QPhandler.call]

/-- At iteration 0 `setupQP` returns. -/
theorem setupQP_first (h : QPhandler σ) (s : SqpAlgorithm σ) (hiter : s.stats.iter = 0) :
    (setupQP h s).raised = none := by
  simp [setupQP, hiter]

/-- C9: for `stats.iter > 0`, `setupQP` throws QP_UNCHANGED exactly when all six dirty
flags are false, and then nothing is changed (no update reaches the QP handler); when
some flag is set it returns, the handler has received exactly the flagged update calls
(`update_bounds` covering a pending Update_delta) and all six flags are false.  At
`stats.iter = 0` it never throws. -/
theorem setupQP_dirty_flags (h : QPhandler σ) (s : SqpAlgorithm σ) :
    (s.stats.iter ≠ 0 →
      ((setupQP h s).raised = some SqpException.QP_UNCHANGED ↔ s.QPinfoFlag.all_clear) ∧
      (s.QPinfoFlag.all_clear → setupQP h s = Result.raise SqpException.QP_UNCHANGED s) ∧
      (¬ s.QPinfoFlag.all_clear →
        (setupQP h s).raised = none ∧
        (setupQP h s).state.myQP = (setupQP_calls s).foldl h.call s.myQP ∧
        (setupQP h s).state.QPinfoFlag.all_clear)) ∧
    (s.stats.iter = 0 → (setupQP h s).raised = none) := by
  refine ⟨fun hiter => ⟨⟨fun hr => ?_, fun hc => ?_⟩, setupQP_unchanged h s hiter,
    setupQP_updates h s hiter⟩, setupQP_first h s⟩
  · by_contra hn
    rw [(setupQP_updates h s hiter hn).1] at hr
    exact absurd hr (by simp)
  · rw [setupQP_unchanged h s hiter hc]
    rfl

/-- In the concrete state where only Update_delta is set, `setupQP` returns with a
clean flag record. -/
theorem setupQP_dirty_flags_witness :
    exStateDirty.stats.iter ≠ 0 ∧ ¬ exStateDirty.QPinfoFlag.all_clear ∧
    (setupQP (exHandler true 0) exStateDirty).raised = none ∧
    (setupQP (exHandler true 0) exStateDirty).state.QPinfoFlag.all_clear :=
  have hiter : exStateDirty.stats.iter ≠ 0 := by decide
  have hdirty : ¬ exStateDirty.QPinfoFlag.all_clear := by decide
  ⟨hiter, hdirty,
    (((setupQP_dirty_flags (exHandler true 0) exStateDirty).1 hiter).2.2 hdirty).1,
    (((setupQP_dirty_flags (exHandler true 0) exStateDirty).1 hiter).2.2 hdirty).2.2⟩

/-- In the concrete problem started at its minimiser the KKT check sets OPTIMAL. -/
theorem check_optimality_optimal_iff_witness :
    KKT_satisfied exOptions
      (check_optimality exOptions (exHandler true 0) (exState 2)).opt_status ∧
    (check_optimality exOptions (exHandler true 0) (exState 2)).exit_flag = Exitflag.OPTIMAL :=
  have hk : KKT_satisfied exOptions
      (check_optimality exOptions (exHandler true 0) (exState 2)).opt_status := by decide!
  ⟨hk, ((check_optimality_optimal_iff exOptions (exHandler true 0) (exState 2)).1 hk).1⟩

/-! ### Frame lemmas -/

/-- A status code of the QP handler is never the driver's OPTIMAL. -/
theorem QPStatus.toExitflag_ne_OPTIMAL (st : QPStatus) : st.toExitflag ≠ Exitflag.OPTIMAL := by
  cases st <;> simp [QPStatus.toExitflag]

/-- The exit code read from a handler is never OPTIMAL. -/
theorem QPhandler.get_status_ne_OPTIMAL (h : QPhandler σ) (q : σ) :
    h.get_status q ≠ Exitflag.OPTIMAL :=
  QPStatus.toExitflag_ne_OPTIMAL _

/-- The penalty frame is reflexive. -/
theorem PenaltyFrame.pf_refl (s : SqpAlgorithm σ) : PenaltyFrame s s :=
  ⟨rfl, rfl, rfl, rfl, fun hne => hne⟩

/-- The penalty frame is transitive. -/
theorem PenaltyFrame.pf_trans {s1 s2 s3 : SqpAlgorithm σ} (h12 : PenaltyFrame s1 s2)
    (h23 : PenaltyFrame s2 s3) : PenaltyFrame s1 s3 :=
  ⟨h23.1.trans h12.1, h23.2.1.trans h12.2.1, h23.2.2.1.trans h12.2.2.1,
    h23.2.2.2.1.trans h12.2.2.2.1, fun hne => h23.2.2.2.2 (h12.2.2.2.2 hne)⟩

/-- The step frame is reflexive. -/
theorem StepFrame.sf_refl (s : SqpAlgorithm σ) : StepFrame s s := ⟨rfl, fun hne => hne⟩

/-- The step frame is transitive. -/
theorem StepFrame.sf_trans {s1 s2 s3 : SqpAlgorithm σ} (h12 : StepFrame s1 s2)
    (h23 : StepFrame s2 s3) : StepFrame s1 s3 :=
  ⟨h23.1.trans h12.1, fun hne => h23.2 (h12.2 hne)⟩

/-- The penalty frame implies the step frame. -/
theorem PenaltyFrame.toStepFrame {s1 s2 : SqpAlgorithm σ} (h12 : PenaltyFrame s1 s2) :
    StepFrame s1 s2 := ⟨h12.2.2.2.1, h12.2.2.2.2⟩

/-- One pass of a penalty loop whose QP solve succeeds keeps the penalty frame. -/
theorem penalty_pass_solved (h : QPhandler σ) (s : SqpAlgorithm σ) (rho_trial1 : ℚ) :
    PenaltyFrame s
      { (solveQP h { s with stats := s.stats.penalty_change_trial_addone,
                            myQP := h.update_penalty rho_trial1 s.myQP }).2 with
        infea_measure_model := h.get_infea_measure_model
          (solveQP h { s with stats := s.stats.penalty_change_trial_addone,
                              myQP := h.update_penalty rho_trial1 s.myQP }).2.myQP } := by
  simp [PenaltyFrame, solveQP, Stats.penalty_change_trial_addone, Stats.qp_iter_addValue]

/-- One pass of a penalty loop whose QP solve fails keeps the penalty frame. -/
theorem penalty_pass_failed (h : QPhandler σ) (s : SqpAlgorithm σ) (rho_trial1 : ℚ) :
    PenaltyFrame s
      { (solveQP h { s with stats := s.stats.penalty_change_trial_addone,
                            myQP := h.update_penalty rho_trial1 s.myQP }).2 with
        exit_flag := h.get_status
          (solveQP h { s with stats := s.stats.penalty_change_trial_addone,
                              myQP := h.update_penalty rho_trial1 s.myQP }).2.myQP } := by
  refine ⟨?_, ?_, ?_, ?_, fun _ => QPhandler.get_status_ne_OPTIMAL h _⟩ <;>
    simp [solveQP, Stats.penalty_change_trial_addone, Stats.qp_iter_addValue]

/-- The first penalty loop keeps the penalty frame. -/
theorem penalty_loop_feasible_frame (o : SqpOptions) (h : QPhandler σ) :
    ∀ (fuel : Nat) (rho_trial : ℚ) (s : SqpAlgorithm σ) (r : ℚ) (sL : SqpAlgorithm σ),
      penalty_loop_feasible o h fuel rho_trial s = some (r, sL) → PenaltyFrame s sL := by
  intro fuel
  induction fuel with
  | zero =>
    intro rho_trial s r sL hres
    simp only [penalty_loop_feasible] at hres
    split_ifs at hres <;> simp only [Option.some.injEq, Prod.mk.injEq] at hres <;>
      (obtain ⟨-, rfl⟩ := hres; exact PenaltyFrame.pf_refl _)
  | succ n ih =>
    intro rho_trial s r sL hres
    simp only [penalty_loop_feasible] at hres
    split_ifs at hres
    · simp only [Option.some.injEq, Prod.mk.injEq] at hres
      obtain ⟨-, rfl⟩ := hres
      exact PenaltyFrame.pf_refl _
    · exact (penalty_pass_solved h s _).pf_trans (ih _ _ _ _ hres)
    · simp only [Option.some.injEq, Prod.mk.injEq] at hres
      obtain ⟨-, rfl⟩ := hres
      exact penalty_pass_failed h s _
    · simp only [Option.some.injEq, Prod.mk.injEq] at hres
      obtain ⟨-, rfl⟩ := hres
      exact PenaltyFrame.pf_refl _

/-- The second penalty loop keeps the penalty frame. -/
theorem penalty_loop_infeasible_frame (o : SqpOptions) (h : QPhandler σ) (infty : ℚ) :
    ∀ (fuel : Nat) (rho_trial : ℚ) (s : SqpAlgorithm σ) (r : ℚ) (sL : SqpAlgorithm σ),
      penalty_loop_infeasible o h infty fuel rho_trial s = some (r, sL) → PenaltyFrame s sL := by
  intro fuel
  induction fuel with
  | zero =>
    intro rho_trial s r sL hres
    simp only [penalty_loop_infeasible] at hres
    split_ifs at hres <;> simp only [Option.some.injEq, Prod.mk.injEq] at hres <;>
      (obtain ⟨-, rfl⟩ := hres; exact PenaltyFrame.pf_refl _)
  | succ n ih =>
    intro rho_trial s r sL hres
    simp only [penalty_loop_infeasible] at hres
    split_ifs at hres
    · simp only [Option.some.injEq, Prod.mk.injEq] at hres
      obtain ⟨-, rfl⟩ := hres
      exact PenaltyFrame.pf_refl _
    · exact (penalty_pass_solved h s _).pf_trans (ih _ _ _ _ hres)
    · simp only [Option.some.injEq, Prod.mk.injEq] at hres
      obtain ⟨-, rfl⟩ := hres
      exact penalty_pass_failed h s _
    · simp only [Option.some.injEq, Prod.mk.injEq] at hres
      obtain ⟨-, rfl⟩ := hres
      exact PenaltyFrame.pf_refl _

/-- Both penalty loops keep the penalty frame. -/
theorem penalty_loops_frame (o : SqpOptions) (h : QPhandler σ) (infty : ℚ) (fuel : Nat)
    (rho_trial : ℚ) (s : SqpAlgorithm σ) (r : ℚ) (sL : SqpAlgorithm σ)
    (hres : penalty_loops o h infty fuel rho_trial s = some (r, sL)) : PenaltyFrame s sL := by
  unfold penalty_loops at hres
  split_ifs at hres
  · exact penalty_loop_feasible_frame o h fuel rho_trial s r sL hres
  · exact penalty_loop_infeasible_frame o h infty fuel rho_trial s r sL hres

/-- Evaluating the trial point leaves `rho` unchanged. -/
@[simp]
theorem get_trial_point_info_rho (o : SqpOptions) (nlp : SqpNlp) (s : SqpAlgorithm σ) :
    (get_trial_point_info o nlp s).rho = s.rho := by
  unfold get_trial_point_info
  split_ifs <;> rfl

/-- Evaluating the trial point leaves `eps1` unchanged. -/
@[simp]
theorem get_trial_point_info_eps1 (o : SqpOptions) (nlp : SqpNlp) (s : SqpAlgorithm σ) :
    (get_trial_point_info o nlp s).eps1 = s.eps1 := by
  unfold get_trial_point_info
  split_ifs <;> rfl

/-- Evaluating the trial point leaves `stats` unchanged. -/
@[simp]
theorem get_trial_point_info_stats (o : SqpOptions) (nlp : SqpNlp) (s : SqpAlgorithm σ) :
    (get_trial_point_info o nlp s).stats = s.stats := by
  unfold get_trial_point_info
  split_ifs <;> rfl

/-- Evaluating the trial point leaves `exit_flag` unchanged. -/
@[simp]
theorem get_trial_point_info_exit_flag (o : SqpOptions) (nlp : SqpNlp) (s : SqpAlgorithm σ) :
    (get_trial_point_info o nlp s).exit_flag = s.exit_flag := by
  unfold get_trial_point_info
  split_ifs <;> rfl

/-- Evaluating the trial point leaves `infea_measure` unchanged. -/
@[simp]
theorem get_trial_point_info_infea_measure (o : SqpOptions) (nlp : SqpNlp) (s : SqpAlgorithm σ) :
    (get_trial_point_info o nlp s).infea_measure = s.infea_measure := by
  unfold get_trial_point_info
  split_ifs <;> rfl

/-- Evaluating the trial point leaves `infea_measure_model` unchanged. -/
@[simp]
theorem get_trial_point_info_infea_measure_model (o : SqpOptions) (nlp : SqpNlp) (s : SqpAlgorithm σ) :
    (get_trial_point_info o nlp s).infea_measure_model = s.infea_measure_model := by
  unfold get_trial_point_info
  split_ifs <;> rfl

/-- Evaluating the trial point leaves `QPinfoFlag` unchanged. -/
@[simp]
theorem get_trial_point_info_QPinfoFlag (o : SqpOptions) (nlp : SqpNlp) (s : SqpAlgorithm σ) :
    (get_trial_point_info o nlp s).QPinfoFlag = s.QPinfoFlag := by
  unfold get_trial_point_info
  split_ifs <;> rfl

/-- Evaluating the trial point leaves `x_k` unchanged. -/
@[simp]
theorem get_trial_point_info_x_k (o : SqpOptions) (nlp : SqpNlp) (s : SqpAlgorithm σ) :
    (get_trial_point_info o nlp s).x_k = s.x_k := by
  unfold get_trial_point_info
  split_ifs <;> rfl

/-- Evaluating the trial point leaves `c_k` unchanged. -/
@[simp]
theorem get_trial_point_info_c_k (o : SqpOptions) (nlp : SqpNlp) (s : SqpAlgorithm σ) :
    (get_trial_point_info o nlp s).c_k = s.c_k := by
  unfold get_trial_point_info
  split_ifs <;> rfl

/-- Evaluating the trial point leaves `myQP` unchanged. -/
@[simp]
theorem get_trial_point_info_myQP (o : SqpOptions) (nlp : SqpNlp) (s : SqpAlgorithm σ) :
    (get_trial_point_info o nlp s).myQP = s.myQP := by
  unfold get_trial_point_info
  split_ifs <;> rfl

/-- Evaluating the trial point leaves `myLP` unchanged. -/
@[simp]
theorem get_trial_point_info_myLP (o : SqpOptions) (nlp : SqpNlp) (s : SqpAlgorithm σ) :
    (get_trial_point_info o nlp s).myLP = s.myLP := by
  unfold get_trial_point_info
  split_ifs <;> rfl

/-- Evaluating the trial point leaves `p_k` unchanged. -/
@[simp]
theorem get_trial_point_info_p_k (o : SqpOptions) (nlp : SqpNlp) (s : SqpAlgorithm σ) :
    (get_trial_point_info o nlp s).p_k = s.p_k := by
  unfold get_trial_point_info
  split_ifs <;> rfl

/-- Evaluating the trial point leaves `opt_status` unchanged. -/
@[simp]
theorem get_trial_point_info_opt_status (o : SqpOptions) (nlp : SqpNlp) (s : SqpAlgorithm σ) :
    (get_trial_point_info o nlp s).opt_status = s.opt_status := by
  unfold get_trial_point_info
  split_ifs <;> rfl

/-- Evaluating the trial point leaves `delta` unchanged. -/
@[simp]
theorem get_trial_point_info_delta (o : SqpOptions) (nlp : SqpNlp) (s : SqpAlgorithm σ) :
    (get_trial_point_info o nlp s).delta = s.delta := by
  unfold get_trial_point_info
  split_ifs <;> rfl

/-- Evaluating the trial point leaves `obj_value` unchanged. -/
@[simp]
theorem get_trial_point_info_obj_value (o : SqpOptions) (nlp : SqpNlp) (s : SqpAlgorithm σ) :
    (get_trial_point_info o nlp s).obj_value = s.obj_value := by
  unfold get_trial_point_info
  split_ifs <;> rfl

/-- Evaluating the trial point leaves `isaccept` unchanged. -/
@[simp]
theorem get_trial_point_info_isaccept (o : SqpOptions) (nlp : SqpNlp) (s : SqpAlgorithm σ) :
    (get_trial_point_info o nlp s).isaccept = s.isaccept := by
  unfold get_trial_point_info
  split_ifs <;> rfl

/-- Evaluating the trial point leaves `qp_obj` unchanged. -/
@[simp]
theorem get_trial_point_info_qp_obj (o : SqpOptions) (nlp : SqpNlp) (s : SqpAlgorithm σ) :
    (get_trial_point_info o nlp s).qp_obj = s.qp_obj := by
  unfold get_trial_point_info
  split_ifs <;> rfl

/-- The decision block at the end of `update_penalty_parameter`, for an increased
trial penalty. -/
theorem penalty_decision_increased (o : SqpOptions) (nlp : SqpNlp) (h : QPhandler σ)
    (infea_measure_model_tmp rho_trial : ℚ) (s : SqpAlgorithm σ) (hinc : rho_trial > s.rho) :
    (rho_trial * s.infea_measure - h.get_objective s.myQP ≥
        o.eps2 * rho_trial * (s.infea_measure - s.infea_measure_model) →
      (penalty_decision o nlp h infea_measure_model_tmp rho_trial s).rho = rho_trial ∧
      (penalty_decision o nlp h infea_measure_model_tmp rho_trial s).eps1 =
        s.eps1 + (1 - s.eps1) * o.eps1_change_parm) ∧
    (¬ rho_trial * s.infea_measure - h.get_objective s.myQP ≥
        o.eps2 * rho_trial * (s.infea_measure - s.infea_measure_model) →
      (penalty_decision o nlp h infea_measure_model_tmp rho_trial s).rho = s.rho ∧
      (penalty_decision o nlp h infea_measure_model_tmp rho_trial s).eps1 = s.eps1 ∧
      (penalty_decision o nlp h infea_measure_model_tmp rho_trial s).infea_measure_model =
        infea_measure_model_tmp ∧
      (penalty_decision o nlp h infea_measure_model_tmp rho_trial s).QPinfoFlag.Update_penalty =
        true) := by
  constructor
  · intro hc
    simp only [penalty_decision, if_pos hinc, get_obj_QP, if_pos hc]
    simp [get_search_direction]
  · intro hc
    simp only [penalty_decision, if_pos hinc, get_obj_QP, if_neg hc]
    simp

/-- C10: when the penalty loops of `update_penalty_parameter` end with a trial penalty
`rho_trial > rho`, the call returns and `rho` is replaced by `rho_trial` exactly when
`rho_trial * infea_measure - (QP objective) ≥
eps2 * rho_trial * (infea_measure - infea_measure_model)`; on acceptance `eps1` becomes
`eps1 + (1 - eps1) * eps1_change_parm`; on rejection `rho` and `eps1` are unchanged,
`infea_measure_model` is the value from before the penalty loops and Update_penalty
is set. -/
theorem update_penalty_parameter_decision (o : SqpOptions) (nlp : SqpNlp) (h : QPhandler σ)
    (fuel : Nat) (s : SqpAlgorithm σ) (rho_trial : ℚ) (sL : SqpAlgorithm σ)
    (hloop : penalty_trial o h fuel s = some (rho_trial, sL)) (hinc : rho_trial > s.rho) :
    ∃ s', update_penalty_parameter o nlp h fuel s = some (Result.ok s') ∧
      (s'.rho = rho_trial ↔
        rho_trial * sL.infea_measure - h.get_objective sL.myQP ≥
          o.eps2 * rho_trial * (sL.infea_measure - sL.infea_measure_model)) ∧
      (rho_trial * sL.infea_measure - h.get_objective sL.myQP ≥
          o.eps2 * rho_trial * (sL.infea_measure - sL.infea_measure_model) →
        s'.eps1 = s.eps1 + (1 - s.eps1) * o.eps1_change_parm) ∧
      (¬ rho_trial * sL.infea_measure - h.get_objective sL.myQP ≥
          o.eps2 * rho_trial * (sL.infea_measure - sL.infea_measure_model) →
        s'.rho = s.rho ∧ s'.eps1 = s.eps1 ∧
        s'.infea_measure_model = h.get_infea_measure_model s.myQP ∧
        s'.QPinfoFlag.Update_penalty = true) := by
  unfold penalty_trial at hloop
  simp only [] at hloop
  split_ifs at hloop with htrig
  obtain ⟨htrig, hLP⟩ := htrig
  have hframe := penalty_loops_frame o h _ fuel _ _ rho_trial sL hloop
  have hrho : sL.rho = s.rho := by
    rw [hframe.1]
    simp [solveLP, setupLP]
  have heps : sL.eps1 = s.eps1 := by
    rw [hframe.2.1]
    simp [solveLP, setupLP]
  have hinc' : rho_trial > sL.rho := by
    rw [hrho]
    exact hinc
  have hdec := penalty_decision_increased o nlp h (h.get_infea_measure_model s.myQP)
    rho_trial sL hinc'
  refine ⟨penalty_decision o nlp h (h.get_infea_measure_model s.myQP) rho_trial sL, ?_, ?_, ?_, ?_⟩
  · unfold update_penalty_parameter
    simp only [if_pos htrig, hLP, if_true, hloop]
  · constructor
    · intro hr
      by_contra hn
      have := (hdec.2 hn).1
      rw [hr, hrho] at this
      exact absurd this (ne_of_gt hinc)
    · intro hc
      exact (hdec.1 hc).1
  · intro hc
    rw [(hdec.1 hc).2, heps]
  · intro hn
    obtain ⟨h1, h2, h3, h4⟩ := hdec.2 hn
    exact ⟨h1.trans hrho, h2.trans heps, h3, h4⟩

/-- The set-up of the QP keeps the counters and the exit flag. -/
theorem setupQP_frame (h : QPhandler σ) (s : SqpAlgorithm σ) :
    (setupQP h s).state.stats = s.stats ∧ (setupQP h s).state.exit_flag = s.exit_flag := by
  by_cases hiter : s.stats.iter = 0
  · simp [setupQP, hiter]
  · rcases hf : s.QPinfoFlag with ⟨a, b, c, d, e, f⟩
    cases a <;> cases b <;> cases c <;> cases d <;> cases e <;> cases f <;>
      simp [setupQP, hiter, hf]

/-- The QP solve at the head of an iteration keeps the step frame. -/
theorem Optimize_solve_frame (h : QPhandler σ) (s : SqpAlgorithm σ) :
    StepFrame s (Optimize_solve h s) := by
  cases hs : (h.solveQP s.myQP).solved
  · refine ⟨?_, fun _ => ?_⟩
    · simp [Optimize_solve, hs, get_search_direction, solveQP, Stats.qp_iter_addValue]
    · simpa [Optimize_solve, hs, get_search_direction, solveQP] using
        QPhandler.get_status_ne_OPTIMAL h _
  · simp [Optimize_solve, hs, StepFrame, get_search_direction, solveQP, Stats.qp_iter_addValue]

/-- The decision on the trial penalty keeps the step frame. -/
theorem penalty_decision_frame (o : SqpOptions) (nlp : SqpNlp) (h : QPhandler σ)
    (tmp rho_trial : ℚ) (s : SqpAlgorithm σ) :
    StepFrame s (penalty_decision o nlp h tmp rho_trial s) := by
  unfold penalty_decision
  split_ifs <;>
    simp [StepFrame, get_search_direction, Stats.penalty_change_Succ_addone,
      Stats.penalty_change_Fail_addone]

/-- Reading the model infeasibility and solving the LP keeps the step frame. -/
theorem solveLP_setupLP_frame (h : QPhandler σ) (s : SqpAlgorithm σ) (v : ℚ) :
    StepFrame s (solveLP h (setupLP h { s with infea_measure_model := v })).2 := by
  simp [StepFrame, solveLP, setupLP, Stats.qp_iter_addValue]

/-- The penalty update keeps the step frame, whether it returns or throws. -/
theorem update_penalty_parameter_frame (o : SqpOptions) (nlp : SqpNlp) (h : QPhandler σ)
    (fuel : Nat) (s : SqpAlgorithm σ) (r : Result (SqpAlgorithm σ))
    (hres : update_penalty_parameter o nlp h fuel s = some r) : StepFrame s r.state := by
  unfold update_penalty_parameter at hres
  simp only [] at hres
  split_ifs at hres with htrig hLP
  · split at hres
    · exact absurd hres (by simp)
    · rename_i rho_trial1 s2 hloop
      simp only [Option.some.injEq] at hres
      subst hres
      have hf := (penalty_loops_frame o h _ fuel _ _ rho_trial1 s2 hloop).toStepFrame
      have h0 := solveLP_setupLP_frame h s (h.get_infea_measure_model s.myQP)
      exact (h0.sf_trans hf).sf_trans (penalty_decision_frame o nlp h _ _ s2)
  · simp only [Option.some.injEq] at hres
    subst hres
    refine ⟨?_, fun _ => ?_⟩
    · simp [solveLP, setupLP, Stats.qp_iter_addValue]
    · simpa using QPhandler.get_status_ne_OPTIMAL h _
  · simp only [Option.some.injEq] at hres
    subst hres
    simp [StepFrame]

/-- The ratio test keeps the step frame. -/
theorem ratio_test_frame (o : SqpOptions) (nlp : SqpNlp) (h : QPhandler σ)
    (s : SqpAlgorithm σ) : StepFrame s (ratio_test o nlp h s) := by
  simp only [ratio_test]
  split_ifs <;> simp [StepFrame]

/-- Evaluating the trial point keeps the step frame. -/
theorem get_trial_point_info_frame (o : SqpOptions) (nlp : SqpNlp) (s : SqpAlgorithm σ) :
    StepFrame s (get_trial_point_info o nlp s) := by
  simp [StepFrame]

/-- The corrected ratio test of the second-order correction keeps the step frame. -/
theorem second_order_correction_trial_frame (o : SqpOptions) (nlp : SqpNlp) (h : QPhandler σ)
    (qp_obj_tmp : ℚ) (s : SqpAlgorithm σ) :
    StepFrame s (second_order_correction_trial o nlp h qp_obj_tmp s) := by
  simp only [second_order_correction_trial]
  refine StepFrame.sf_trans ?_ (ratio_test_frame o nlp h _)
  simp [StepFrame]

/-- Reverting a rejected correction keeps the step frame. -/
theorem second_order_correction_revert_frame (h : QPhandler σ) (p_k_tmp : Vector)
    (qp_obj_tmp norm_p_k_tmp : ℚ) (s : SqpAlgorithm σ) :
    StepFrame s (second_order_correction_revert h p_k_tmp qp_obj_tmp norm_p_k_tmp s) := by
  simp only [second_order_correction_revert]
  split_ifs <;> simp [StepFrame]

/-- The second-order correction keeps the step frame, whether it returns or throws. -/
theorem second_order_correction_frame (o : SqpOptions) (nlp : SqpNlp) (h : QPhandler σ)
    (s : SqpAlgorithm σ) : StepFrame s (second_order_correction o nlp h s).state := by
  simp only [second_order_correction]
  split_ifs
  · simp only [Result.state_ok]
    refine StepFrame.sf_trans ?_ (second_order_correction_revert_frame h _ _ _ _)
    refine StepFrame.sf_trans ?_ (second_order_correction_trial_frame o nlp h _ _)
    simp [StepFrame, solveQP, Stats.qp_iter_addValue]
  · simp only [Result.state_raise]
    refine ⟨?_, fun _ => ?_⟩
    · simp [solveQP, Stats.qp_iter_addValue]
    · simpa using QPhandler.get_status_ne_OPTIMAL h _
  · exact StepFrame.sf_refl s

/-- A completed second half of the iteration has incremented the iteration counter
once and has not set OPTIMAL. -/
theorem Optimize_trial_ok (o : SqpOptions) (nlp : SqpNlp) (h : QPhandler σ)
    (s s1 : SqpAlgorithm σ) (hres : Optimize_trial o nlp h s = Result.ok s1) :
    s1.stats.iter = s.stats.iter + 1 ∧
    (s.exit_flag ≠ Exitflag.OPTIMAL → s1.exit_flag ≠ Exitflag.OPTIMAL) := by
  unfold Optimize_trial at hres
  simp only [] at hres
  split at hres
  · exact absurd hres (by simp)
  · rename_i s10 hsoc
    simp only [Result.ok.injEq] at hres
    subst hres
    have h1 : StepFrame s { s with norm_p_k := Vector.calc_inf_norm s.p_k } := by
      simp [StepFrame]
    have h2 := get_trial_point_info_frame o nlp { s with norm_p_k := Vector.calc_inf_norm s.p_k }
    have h3 := ratio_test_frame o nlp h
      (get_trial_point_info o nlp { s with norm_p_k := Vector.calc_inf_norm s.p_k })
    have h4 := second_order_correction_frame o nlp h
      (ratio_test o nlp h
        (get_trial_point_info o nlp { s with norm_p_k := Vector.calc_inf_norm s.p_k }))
    rw [hsoc] at h4
    have hall := ((h1.sf_trans h2).sf_trans h3).sf_trans h4
    simp only [Result.state_ok] at hall
    refine ⟨?_, fun hne => hall.2 hne⟩
    show s10.stats.iter + 1 = s.stats.iter + 1
    rw [hall.1]

/-- A completed first part of the loop body has incremented the iteration counter
once and has not set OPTIMAL. -/
theorem Optimize_step_ok (o : SqpOptions) (nlp : SqpNlp) (h : QPhandler σ) (fuel : Nat)
    (s s1 : SqpAlgorithm σ) (hres : Optimize_step o nlp h fuel s = some (Result.ok s1)) :
    s1.stats.iter = s.stats.iter + 1 ∧
    (s.exit_flag ≠ Exitflag.OPTIMAL → s1.exit_flag ≠ Exitflag.OPTIMAL) := by
  unfold Optimize_step at hres
  split at hres
  · exact absurd hres (by simp)
  · rename_i sa hq
    have hA : StepFrame s sa := by
      have := setupQP_frame h s
      rw [hq] at this
      exact ⟨by rw [← this.1]; rfl, fun hne => by rw [show sa.exit_flag = s.exit_flag from this.2]; exact hne⟩
    have hB := Optimize_solve_frame h sa
    split at hres
    · exact absurd hres (by simp)
    · exact absurd hres (by simp)
    · rename_i s6 hpen
      have hC := update_penalty_parameter_frame o nlp h fuel _ _ hpen
      simp only [Option.some.injEq] at hres
      have hD := Optimize_trial_ok o nlp h s6 s1 hres
      have hall := (hA.sf_trans hB).sf_trans hC
      simp only [Result.state_ok] at hall
      exact ⟨by rw [hD.1, hall.1], fun hne => hD.2 (hall.2 hne)⟩

/-- The KKT check keeps the counters. -/
theorem check_optimality_stats (o : SqpOptions) (h : QPhandler σ) (s : SqpAlgorithm σ) :
    (check_optimality o h s).stats = s.stats := by
  simp only [check_optimality, multiplier_vars_is_nullptr]
  split_ifs <;> simp

/-- The KKT check sets OPTIMAL only with violations below the tolerances. -/
theorem check_optimality_sound (o : SqpOptions) (h : QPhandler σ) (s : SqpAlgorithm σ)
    (hne : s.exit_flag ≠ Exitflag.OPTIMAL)
    (hopt : (check_optimality o h s).exit_flag = Exitflag.OPTIMAL) :
    KKT_satisfied o (check_optimality o h s).opt_status := by
  rcases check_optimality_cases o h s with ⟨hk, -, -⟩ | ⟨-, hf, -⟩
  · exact hk
  · rw [hf] at hopt
    exact absurd hopt hne

/-- The trust-region update keeps the counters; when it returns it keeps the exit
flag, and when it throws the exit flag is TRUST_REGION_TOO_SMALL. -/
theorem update_radius_frame (o : SqpOptions) (s : SqpAlgorithm σ) :
    (update_radius o s).state.stats = s.stats ∧
    ((update_radius o s).raised = none → (update_radius o s).state.exit_flag = s.exit_flag) ∧
    ((update_radius o s).raised ≠ none →
      (update_radius o s).state.exit_flag = Exitflag.TRUST_REGION_TOO_SMALL) := by
  simp only [update_radius, apply_ite Result.state, apply_ite Result.raised, Result.state_ok,
    Result.state_raise, Result.raised_ok, Result.raised_raise]
  refine ⟨?_, ?_, ?_⟩ <;> split_ifs <;> simp

/-- A pass whose second part reaches the end of the body has kept the iteration
counter and left the exit flag UNKNOWN. -/
theorem Optimize_check_next (o : SqpOptions) (h : QPhandler σ) (s s1 : SqpAlgorithm σ)
    (hres : Optimize_check o h s = LoopControl.next s1) :
    s1.stats.iter = s.stats.iter ∧ s1.exit_flag = Exitflag.UNKNOWN := by
  simp only [Optimize_check] at hres
  split_ifs at hres with hflag
  split at hres
  · exact absurd hres (by simp)
  · exact absurd hres (by simp)
  · rename_i s2 hrad
    simp only [LoopControl.next.injEq] at hres
    subst hres
    have hf := update_radius_frame o (check_optimality o h s)
    rw [hrad] at hf
    simp only [Result.state_ok, Result.raised_ok, true_implies] at hf
    refine ⟨?_, ?_⟩
    · rw [hf.1, check_optimality_stats]
    · rw [hf.2.1]
      exact not_not.mp hflag

/-- A pass whose second part ends at a `break` has kept the iteration counter, and
its exit flag is OPTIMAL only with violations below the tolerances. -/
theorem Optimize_check_brk (o : SqpOptions) (h : QPhandler σ) (s s1 : SqpAlgorithm σ)
    (hres : Optimize_check o h s = LoopControl.brk s1) (hne : s.exit_flag ≠ Exitflag.OPTIMAL) :
    s1.stats.iter = s.stats.iter ∧
    (s1.exit_flag = Exitflag.OPTIMAL → KKT_satisfied o s1.opt_status) := by
  simp only [Optimize_check] at hres
  split_ifs at hres with hflag
  · simp only [LoopControl.brk.injEq] at hres
    subst hres
    exact ⟨by rw [check_optimality_stats], check_optimality_sound o h s hne⟩
  · split at hres
    · rename_i s2 hrad
      simp only [LoopControl.brk.injEq] at hres
      subst hres
      have hf := update_radius_frame o (check_optimality o h s)
      rw [hrad] at hf
      simp only [Result.state_raise, Result.raised_raise] at hf
      have hts : s2.exit_flag = Exitflag.TRUST_REGION_TOO_SMALL := hf.2.2 (by simp)
      refine ⟨?_, check_optimality_sound o h s2 (by rw [hts]; simp)⟩
      rw [check_optimality_stats, hf.1, check_optimality_stats]
    · exact absurd hres (by simp)
    · exact absurd hres (by simp)

/-- When the KKT check is satisfied the body is left at the `break` after it, with
exit flag OPTIMAL. -/
theorem Optimize_check_optimal (o : SqpOptions) (h : QPhandler σ) (s : SqpAlgorithm σ)
    (hk : KKT_satisfied o (check_optimality o h s).opt_status) :
    Optimize_check o h s = LoopControl.brk (check_optimality o h s) ∧
    (check_optimality o h s).exit_flag = Exitflag.OPTIMAL := by
  have hopt : (check_optimality o h s).exit_flag = Exitflag.OPTIMAL := by
    rcases check_optimality_cases o h s with ⟨-, hf, -⟩ | ⟨hn, -, -⟩
    · exact hf
    · exact absurd hk hn
  refine ⟨?_, hopt⟩
  simp only [Optimize_check]
  rw [if_pos]
  rw [hopt]
  simp

/-- A pass that reaches the end of the body has incremented the iteration counter
once and left the exit flag UNKNOWN. -/
theorem Optimize_body_next (o : SqpOptions) (nlp : SqpNlp) (h : QPhandler σ) (fuel : Nat)
    (s s1 : SqpAlgorithm σ) (hres : Optimize_body o nlp h fuel s = some (LoopControl.next s1)) :
    s1.stats.iter = s.stats.iter + 1 ∧ s1.exit_flag = Exitflag.UNKNOWN := by
  unfold Optimize_body at hres
  split at hres
  · exact absurd hres (by simp)
  · exact absurd hres (by simp)
  · rename_i sa hstep
    simp only [Option.some.injEq] at hres
    have h1 := Optimize_step_ok o nlp h fuel s sa hstep
    have h2 := Optimize_check_next o h sa s1 hres
    exact ⟨by rw [h2.1, h1.1], h2.2⟩

/-- A pass that ends at a `break` has incremented the iteration counter once, and
its exit flag is OPTIMAL only with violations below the tolerances. -/
theorem Optimize_body_brk (o : SqpOptions) (nlp : SqpNlp) (h : QPhandler σ) (fuel : Nat)
    (s s1 : SqpAlgorithm σ) (hres : Optimize_body o nlp h fuel s = some (LoopControl.brk s1))
    (hne : s.exit_flag ≠ Exitflag.OPTIMAL) :
    s1.stats.iter = s.stats.iter + 1 ∧
    (s1.exit_flag = Exitflag.OPTIMAL → KKT_satisfied o s1.opt_status) := by
  unfold Optimize_body at hres
  split at hres
  · exact absurd hres (by simp)
  · exact absurd hres (by simp)
  · rename_i sa hstep
    simp only [Option.some.injEq] at hres
    have h1 := Optimize_step_ok o nlp h fuel s sa hstep
    have h2 := Optimize_check_brk o h sa s1 hres (h1.2 hne)
    exact ⟨by rw [h2.1, h1.1], h2.2⟩

/-- Invariant of the loop of `Optimize`: when it returns, the exit flag is OPTIMAL only
with violations below the tolerances, and the iteration counter is within the cap if
it was at the start. -/
theorem Optimize_loop_inv (o : SqpOptions) (nlp : SqpNlp) (h : QPhandler σ) (fuel : Nat) :
    ∀ (n : Nat) (s r : SqpAlgorithm σ),
      Optimize_loop o nlp h fuel n s = some (Result.ok r) →
      s.exit_flag ≠ Exitflag.OPTIMAL →
      (r.exit_flag = Exitflag.OPTIMAL → KKT_satisfied o r.opt_status) ∧
      ((s.stats.iter : Int) ≤ o.max_num_iterations →
        (r.stats.iter : Int) ≤ o.max_num_iterations) := by
  intro n
  induction n with
  | zero =>
    intro s r hres hne
    simp only [Optimize_loop] at hres
    split_ifs at hres
    simp only [Option.some.injEq, Result.ok.injEq] at hres
    subst hres
    exact ⟨fun hopt => absurd hopt hne, fun hle => hle⟩
  | succ n ih =>
    intro s r hres hne
    simp only [Optimize_loop] at hres
    split_ifs at hres with hguard
    · split at hres
      · exact absurd hres (by simp)
      · rename_i s1 hbody
        have hb := Optimize_body_next o nlp h fuel s s1 hbody
        have hi := ih s1 r hres (by rw [hb.2]; simp)
        refine ⟨hi.1, fun _ => hi.2 ?_⟩
        rw [hb.1]
        have := hguard.1
        push_cast
        omega
      · rename_i s1 hbody
        simp only [Option.some.injEq, Result.ok.injEq] at hres
        subst hres
        have hb := Optimize_body_brk o nlp h fuel s s1 hbody hne
        refine ⟨hb.2, fun _ => ?_⟩
        rw [hb.1]
        have := hguard.1
        push_cast
        omega
      · exact absurd hres (by simp)
    · simp only [Option.some.injEq, Result.ok.injEq] at hres
      subst hres
      exact ⟨fun hopt => absurd hopt hne, fun hle => hle⟩

/-- The checks after the loop keep the KKT record and the counters; they never set
OPTIMAL; within the time limits they set EXCEED_MAX_ITERATIONS when the iteration
counter equals the cap and keep the exit flag otherwise. -/
theorem Optimize_finish_spec (o : SqpOptions) (clk : Clock) (s : SqpAlgorithm σ) :
    (Optimize_finish o clk s).opt_status = s.opt_status ∧
    (Optimize_finish o clk s).stats = s.stats ∧
    ((Optimize_finish o clk s).exit_flag = Exitflag.OPTIMAL → s.exit_flag = Exitflag.OPTIMAL) ∧
    (¬ clk.current_cpu_time - clk.cpu_time_at_start > o.cpu_time_limit →
      ¬ clk.current_wallclock_time - clk.wallclock_time_at_start > o.wallclock_time_limit →
      (Optimize_finish o clk s).exit_flag =
        if (s.stats.iter : Int) = o.max_num_iterations then Exitflag.EXCEED_MAX_ITERATIONS
        else s.exit_flag) := by
  simp only [Optimize_finish]
  refine ⟨?_, ?_, ?_, ?_⟩
  · split_ifs <;> rfl
  · split_ifs <;> rfl
  · split_ifs <;> simp
  · intro hcpu hwall
    rw [if_neg hwall, if_neg hcpu]
    split_ifs <;> rfl

/-- C5: whenever `Optimize` returns with exit flag OPTIMAL, the four violations
recorded in `opt_status_` are each strictly below their tolerance. -/
theorem Optimize_OPTIMAL_sound (o : SqpOptions) (nlp : SqpNlp) (h : QPhandler σ) (clk : Clock)
    (fuel : Nat) (s r : SqpAlgorithm σ)
    (hret : Optimize o nlp h clk fuel s = some (Result.ok r))
    (hopt : r.exit_flag = Exitflag.OPTIMAL) : KKT_satisfied o r.opt_status := by
  simp only [Optimize] at hret
  split at hret
  · exact absurd hret (by simp)
  · exact absurd hret (by simp)
  · rename_i s1 hloop
    simp only [Option.some.injEq, Result.ok.injEq] at hret
    subst hret
    have hfin := Optimize_finish_spec o clk s1
    have hinv := Optimize_loop_inv o nlp h fuel _ _ s1 hloop (by simp)
    rw [hfin.1]
    exact hinv.1 (hfin.2.2.1 hopt)

/-- The states at the head of the loop stay within the iteration cap. -/
theorem LoopReach_iter_le (o : SqpOptions) (nlp : SqpNlp) (h : QPhandler σ) (fuel : Nat)
    (s t : SqpAlgorithm σ) (hreach : LoopReach o nlp h fuel s t)
    (hle : (s.stats.iter : Int) ≤ o.max_num_iterations) :
    (t.stats.iter : Int) ≤ o.max_num_iterations := by
  induction hreach with
  | start s => exact hle
  | pass s s1 t hguard hbody _ ih =>
    apply ih
    rw [(Optimize_body_next o nlp h fuel s s1 hbody).1]
    have := hguard.1
    push_cast
    omega

/-- C6: for every run of `Optimize` that returns, started with `stats.iter = 0` and
`max_num_iterations ≥ 0`: the iteration counter is at most the cap on return; if it
equals the cap and neither time limit is exceeded the exit flag is
EXCEED_MAX_ITERATIONS; and every state at the head of the loop has its counter within
the cap, the body being entered only with the counter strictly below the cap. -/
theorem Optimize_iteration_cap (o : SqpOptions) (nlp : SqpNlp) (h : QPhandler σ) (clk : Clock)
    (fuel : Nat) (s r : SqpAlgorithm σ)
    (hret : Optimize o nlp h clk fuel s = some (Result.ok r))
    (hiter : s.stats.iter = 0) (hmax : 0 ≤ o.max_num_iterations) :
    (r.stats.iter : Int) ≤ o.max_num_iterations ∧
    ((r.stats.iter : Int) = o.max_num_iterations →
      ¬ clk.current_cpu_time - clk.cpu_time_at_start > o.cpu_time_limit →
      ¬ clk.current_wallclock_time - clk.wallclock_time_at_start > o.wallclock_time_limit →
      r.exit_flag = Exitflag.EXCEED_MAX_ITERATIONS) ∧
    (∀ t, LoopReach o nlp h fuel { s with exit_flag := Exitflag.UNKNOWN } t →
      (t.stats.iter : Int) ≤ o.max_num_iterations ∧
      (loop_guard o t → (t.stats.iter : Int) ≠ o.max_num_iterations)) := by
  have hstart : ((({ s with exit_flag := Exitflag.UNKNOWN } : SqpAlgorithm σ).stats.iter : Nat) : Int)
      ≤ o.max_num_iterations := by
    show ((s.stats.iter : Nat) : Int) ≤ o.max_num_iterations
    rw [hiter]
    exact_mod_cast hmax
  simp only [Optimize] at hret
  split at hret
  · exact absurd hret (by simp)
  · exact absurd hret (by simp)
  · rename_i s1 hloop
    simp only [Option.some.injEq, Result.ok.injEq] at hret
    subst hret
    have hfin := Optimize_finish_spec o clk s1
    have hinv := Optimize_loop_inv o nlp h fuel _ _ s1 hloop (by simp)
    refine ⟨?_, ?_, ?_⟩
    · rw [hfin.2.1]
      exact hinv.2 hstart
    · intro heq hcpu hwall
      rw [hfin.2.2.2 hcpu hwall, if_pos]
      rw [hfin.2.1] at heq
      exact heq
    · intro t hreach
      refine ⟨LoopReach_iter_le o nlp h fuel _ t hreach hstart, fun hguard heq => ?_⟩
      have := hguard.1
      omega

/-- Passes through the body use up the passes allowed to the loop one by one: a
loop-head state of the run is reached with enough passes left. -/
theorem LoopReach_loop (o : SqpOptions) (nlp : SqpNlp) (h : QPhandler σ) (fuel : Nat)
    (s t : SqpAlgorithm σ) (hreach : LoopReach o nlp h fuel s t) :
    ∀ n : Nat, (o.max_num_iterations - s.stats.iter).toNat ≤ n →
      ∃ m : Nat, (o.max_num_iterations - t.stats.iter).toNat ≤ m ∧
        Optimize_loop o nlp h fuel n s = Optimize_loop o nlp h fuel m t := by
  induction hreach with
  | start s => exact fun n hn => ⟨n, hn, rfl⟩
  | pass s s1 t hguard hbody _ ih =>
    intro n hn
    have hlt := hguard.1
    have hiter := (Optimize_body_next o nlp h fuel s s1 hbody).1
    cases n with
    | zero => omega
    | succ n =>
      obtain ⟨m, hm, heq⟩ := ih n (by rw [hiter]; push_cast; omega)
      refine ⟨m, hm, ?_⟩
      rw [← heq]
      have hg : (s.stats.iter : Int) < o.max_num_iterations ∧ s.exit_flag = Exitflag.UNKNOWN :=
        hguard
      simp only [Optimize_loop, if_pos hg, hbody]

/-- The loop of `Optimize` never uses up its passes: with `max_num_iterations - iter`
passes allowed it yields no result only when the body of some iteration of the run
yields none, that is when the fuel of a penalty loop does not suffice. -/
theorem Optimize_loop_none (o : SqpOptions) (nlp : SqpNlp) (h : QPhandler σ) (fuel : Nat) :
    ∀ (n : Nat) (s : SqpAlgorithm σ), (o.max_num_iterations - s.stats.iter).toNat ≤ n →
      Optimize_loop o nlp h fuel n s = none →
      ∃ t, LoopReach o nlp h fuel s t ∧ loop_guard o t ∧ Optimize_body o nlp h fuel t = none := by
  intro n
  induction n with
  | zero =>
    intro s hn hres
    simp only [Optimize_loop] at hres
    split_ifs at hres with hguard
    have := hguard.1
    omega
  | succ n ih =>
    intro s hn hres
    simp only [Optimize_loop] at hres
    split_ifs at hres with hguard
    split at hres
    · rename_i hbody
      exact ⟨s, LoopReach.start s, hguard, hbody⟩
    · rename_i s1 hbody
      have hiter := (Optimize_body_next o nlp h fuel s s1 hbody).1
      obtain ⟨t, hreach, hg, hb⟩ := ih s1 (by rw [hiter]; push_cast; omega) hres
      exact ⟨t, LoopReach.pass s s1 t hguard hbody hreach, hg, hb⟩
    · exact absurd hres (by simp)
    · exact absurd hres (by simp)

/-- C4 (amended): in a run of `Optimize` within its CPU and wallclock limits, if the
KKT check of some outer iteration is satisfied and the iteration counter then differs
from `max_num_iterations`, `Optimize` returns with exit flag OPTIMAL. -/
theorem Optimize_returns_OPTIMAL (o : SqpOptions) (nlp : SqpNlp) (h : QPhandler σ)
    (clk : Clock) (fuel : Nat) (s0 s s1 : SqpAlgorithm σ)
    (hreach : LoopReach o nlp h fuel { s0 with exit_flag := Exitflag.UNKNOWN } s)
    (hguard : loop_guard o s)
    (hstep : Optimize_step o nlp h fuel s = some (Result.ok s1))
    (hkkt : KKT_satisfied o (check_optimality o h s1).opt_status)
    (hcap : (s1.stats.iter : Int) ≠ o.max_num_iterations)
    (hcpu : ¬ clk.current_cpu_time - clk.cpu_time_at_start > o.cpu_time_limit)
    (hwall : ¬ clk.current_wallclock_time - clk.wallclock_time_at_start >
      o.wallclock_time_limit) :
    ∃ r, Optimize o nlp h clk fuel s0 = some (Result.ok r) ∧
      r.exit_flag = Exitflag.OPTIMAL ∧ KKT_satisfied o r.opt_status := by
  obtain ⟨m, hm, heq⟩ := LoopReach_loop o nlp h fuel _ s hreach _ (le_refl _)
  have hchk := Optimize_check_optimal o h s1 hkkt
  have hbody : Optimize_body o nlp h fuel s =
      some (LoopControl.brk (check_optimality o h s1)) := by
    simp only [Optimize_body, hstep, hchk.1]
  have hg : (s.stats.iter : Int) < o.max_num_iterations ∧ s.exit_flag = Exitflag.UNKNOWN :=
    hguard
  have hloop : Optimize_loop o nlp h fuel m s = some (Result.ok (check_optimality o h s1)) := by
    cases m with
    | zero =>
      have := hg.1
      omega
    | succ m => simp only [Optimize_loop, if_pos hg, hbody]
  have hfin := Optimize_finish_spec o clk (check_optimality o h s1)
  refine ⟨Optimize_finish o clk (check_optimality o h s1), ?_, ?_, ?_⟩
  · simp only [Optimize]
    rw [heq, hloop]
  · rw [hfin.2.2.2 hcpu hwall, if_neg, hchk.2]
    rw [check_optimality_stats]
    exact hcap
  · rw [hfin.1]
    exact hkkt

end Properties

/-! ### The properties on the concrete problems -/

/-- An outcome whose exception and observation have been evaluated is a normal return
with that observation. -/
theorem Result.of_map_eq {α β : Type} (x : Option (Result α)) (f : α → β) (b : β)
    (hx : x.map (fun r => (r.raised, f r.state)) = some (none, b)) :
    ∃ r, x = some (Result.ok r) ∧ f r = b := by
  cases x with
  | none => simp at hx
  | some res =>
    cases res with
    | raise e t => simp at hx
    | ok r =>
      simp only [Option.map_some', Result.raised_ok, Result.state_ok, Option.some.injEq,
        Prod.mk.injEq, true_and] at hx
      exact ⟨r, rfl, hx⟩

/-- C4 (counterexample): with the cap set to 1, the run of the first concrete problem
from its minimiser satisfies the KKT check in its only iteration, within the time
limits, and returns EXCEED_MAX_ITERATIONS, not OPTIMAL. -/
theorem Optimize_cap_overrides_OPTIMAL :
    ∃ s1 r,
      loop_guard exOptionsCap1 { exState 2 with exit_flag := Exitflag.UNKNOWN } ∧
      Optimize_step exOptionsCap1 exNlp (exHandler true 0) 5
        { exState 2 with exit_flag := Exitflag.UNKNOWN } = some (Result.ok s1) ∧
      KKT_satisfied exOptionsCap1
        (check_optimality exOptionsCap1 (exHandler true 0) s1).opt_status ∧
      ¬ exClock.current_cpu_time - exClock.cpu_time_at_start > exOptionsCap1.cpu_time_limit ∧
      ¬ exClock.current_wallclock_time - exClock.wallclock_time_at_start >
        exOptionsCap1.wallclock_time_limit ∧
      Optimize exOptionsCap1 exNlp (exHandler true 0) exClock 5 (exState 2) =
        some (Result.ok r) ∧
      r.exit_flag = Exitflag.EXCEED_MAX_ITERATIONS ∧ r.exit_flag ≠ Exitflag.OPTIMAL := by
  obtain ⟨s1, hs1, hk⟩ := Result.of_map_eq
    (Optimize_step exOptionsCap1 exNlp (exHandler true 0) 5
      { exState 2 with exit_flag := Exitflag.UNKNOWN })
    (fun t => decide (KKT_satisfied exOptionsCap1
      (check_optimality exOptionsCap1 (exHandler true 0) t).opt_status)) true (by decide!)
  obtain ⟨r, hr, hflag⟩ := Result.of_map_eq
    (Optimize exOptionsCap1 exNlp (exHandler true 0) exClock 5 (exState 2))
    (fun t => t.exit_flag) Exitflag.EXCEED_MAX_ITERATIONS (by decide!)
  refine ⟨s1, r, by decide!, hs1, of_decide_eq_true hk, by decide!, by decide!, hr, hflag, ?_⟩
  rw [hflag]
  decide

/-- The run of the first concrete problem from its minimiser, with the default cap,
satisfies the KKT check in its first iteration and returns OPTIMAL. -/
theorem Optimize_returns_OPTIMAL_witness :
    ∃ r, Optimize exOptions exNlp (exHandler true 0) exClock 5 (exState 2) =
        some (Result.ok r) ∧
      r.exit_flag = Exitflag.OPTIMAL ∧ KKT_satisfied exOptions r.opt_status := by
  obtain ⟨s1, hs1, hk⟩ := Result.of_map_eq
    (Optimize_step exOptions exNlp (exHandler true 0) 5
      { exState 2 with exit_flag := Exitflag.UNKNOWN })
    (fun t => (decide (KKT_satisfied exOptions
      (check_optimality exOptions (exHandler true 0) t).opt_status), t.stats.iter))
    (true, 1) (by decide!)
  have hk1 := (Prod.mk.inj hk).1
  have hk2 : s1.stats.iter = 1 := (Prod.mk.inj hk).2
  exact Optimize_returns_OPTIMAL exOptions exNlp (exHandler true 0) exClock 5 (exState 2)
    { exState 2 with exit_flag := Exitflag.UNKNOWN } s1 (LoopReach.start _) (by decide!) hs1
    (of_decide_eq_true hk1) (by rw [hk2]; decide) (by decide!) (by decide!)

/-- The run of the first concrete problem from its minimiser returns OPTIMAL with a
KKT record below the tolerances. -/
theorem Optimize_OPTIMAL_sound_witness :
    ∃ r, Optimize exOptions exNlp (exHandler true 0) exClock 5 (exState 2) =
        some (Result.ok r) ∧
      r.exit_flag = Exitflag.OPTIMAL ∧ KKT_satisfied exOptions r.opt_status := by
  obtain ⟨r, hr, hflag⟩ := Result.of_map_eq
    (Optimize exOptions exNlp (exHandler true 0) exClock 5 (exState 2))
    (fun t => t.exit_flag) Exitflag.OPTIMAL (by decide!)
  exact ⟨r, hr, hflag,
    Optimize_OPTIMAL_sound exOptions exNlp (exHandler true 0) exClock 5 (exState 2) r hr hflag⟩

/-- With the cap set to 1 the run of the first concrete problem started at 3 stops
after one iteration with EXCEED_MAX_ITERATIONS. -/
theorem Optimize_iteration_cap_witness :
    ∃ r, Optimize exOptionsCap1 exNlp (exHandler true 0) exClock 5 (exState 3) =
        some (Result.ok r) ∧
      (exState 3).stats.iter = 0 ∧ 0 ≤ exOptionsCap1.max_num_iterations ∧
      (r.stats.iter : Int) ≤ exOptionsCap1.max_num_iterations ∧
      r.exit_flag = Exitflag.EXCEED_MAX_ITERATIONS := by
  obtain ⟨r, hr, hiter⟩ := Result.of_map_eq
    (Optimize exOptionsCap1 exNlp (exHandler true 0) exClock 5 (exState 3))
    (fun t => t.stats.iter) 1 (by decide!)
  have hcap := Optimize_iteration_cap exOptionsCap1 exNlp (exHandler true 0) exClock 5
    (exState 3) r hr rfl (by decide)
  have hiter' : r.stats.iter = 1 := hiter
  exact ⟨r, hr, rfl, by decide, hcap.1,
    hcap.2.1 (by rw [hiter']; decide) (by decide!) (by decide!)⟩

/-- C7 (evaluation at the failing input): in the first concrete problem at its
minimiser the QP solve of the first iteration fails with status EXCEED_MAX_ITER; the
loop body is not left: the trial point is evaluated, the iteration counter becomes 1,
the KKT check runs and `Optimize` returns OPTIMAL instead of QPERROR_EXCEED_MAX_ITER. -/
theorem Optimize_continues_after_failed_QP :
    (solveQP (exHandler false 0) (setupQP (exHandler false 0) (exState 2)).state).1 = false ∧
    (exHandler false 0).get_status () = Exitflag.QPERROR_EXCEED_MAX_ITER ∧
    (exState 2).stats.iter = 0 ∧ (exState 2).x_trial = [0] ∧
    ∃ r, Optimize exOptions exNlp (exHandler false 0) exClock 5 (exState 2) =
        some (Result.ok r) ∧
      r.exit_flag = Exitflag.OPTIMAL ∧ r.stats.iter = 1 ∧ r.x_trial = [2] := by
  obtain ⟨r, hr, hobs⟩ := Result.of_map_eq
    (Optimize exOptions exNlp (exHandler false 0) exClock 5 (exState 2))
    (fun t => (t.exit_flag, t.stats.iter, t.x_trial)) (Exitflag.OPTIMAL, 1, [2]) (by decide!)
  have h1 := (Prod.mk.inj hobs).1
  have h2 := (Prod.mk.inj (Prod.mk.inj hobs).2).1
  have h3 := (Prod.mk.inj (Prod.mk.inj hobs).2).2
  exact ⟨by decide!, by decide!, rfl, rfl, r, hr, h1, h2, h3⟩

/-- In the second concrete problem the penalty loops end with the trial penalty 10,
above the penalty 1, and the penalty update returns. -/
theorem update_penalty_parameter_decision_witness :
    ∃ sL s', penalty_trial exOptions exHandler2 5 exState2 = some (10, sL) ∧
      (10 : ℚ) > exState2.rho ∧
      update_penalty_parameter exOptions exNlp2 exHandler2 5 exState2 = some (Result.ok s') ∧
      (s'.rho = 10 ↔
        10 * sL.infea_measure - exHandler2.get_objective sL.myQP ≥
          exOptions.eps2 * 10 * (sL.infea_measure - sL.infea_measure_model)) := by
  have hrun : (penalty_trial exOptions exHandler2 5 exState2).map (fun x => x.1) = some 10 := by
    decide!
  cases hloop : penalty_trial exOptions exHandler2 5 exState2 with
  | none =>
    rw [hloop] at hrun
    simp at hrun
  | some x =>
    obtain ⟨rho_trial, sL⟩ := x
    rw [hloop] at hrun
    simp only [Option.map_some', Option.some.injEq] at hrun
    subst hrun
    have hinc : (10 : ℚ) > exState2.rho := by decide!
    obtain ⟨s', hs', hiff, -, -⟩ :=
      update_penalty_parameter_decision exOptions exNlp2 exHandler2 5 exState2 10 sL hloop hinc
    exact ⟨sL, s', rfl, hinc, hs', hiff⟩


/-! ### Loops over the components of a vector -/

/-- A loop over the first `n` indices whose pass `i` only rewrites entry `i`, as a
function of that entry: the result, entry by entry. -/
theorem foldl_range_pointwise {α : Type} (d : α) (step : List α → Nat → List α)
    (g : Nat → α → α)
    (hlen : ∀ x i, (step x i).length = x.length)
    (hget : ∀ x i j, j < x.length →
      (step x i).getD j d = if j = i then g i (x.getD i d) else x.getD j d) :
    ∀ (n : Nat) (x : List α), ((List.range n).foldl step x).length = x.length ∧
      ∀ j, j < x.length → ((List.range n).foldl step x).getD j d =
        if j < n then g j (x.getD j d) else x.getD j d := by
  intro n
  induction n with
  | zero => intro x; simp
  | succ n ih =>
    intro x
    rw [List.range_succ, List.foldl_append]
    simp only [List.foldl_cons, List.foldl_nil]
    obtain ⟨hl, hg⟩ := ih x
    refine ⟨by rw [hlen, hl], fun j hj => ?_⟩
    rw [hget _ _ _ (by rw [hl]; exact hj)]
    by_cases hjn : j = n
    · subst hjn
      rw [if_pos rfl, hg j hj, if_neg (lt_irrefl j), if_pos (Nat.lt_succ_self j)]
    · rw [if_neg hjn, hg j hj]
      by_cases hlt : j < n
      · rw [if_pos hlt, if_pos (Nat.lt_succ_of_lt hlt)]
      · rw [if_neg hlt, if_neg (by omega)]

/-- A loop that adds one term per index computes the sum of the terms. -/
theorem foldl_range_add (f : Nat → ℚ) (n : Nat) (a : ℚ) :
    (List.range n).foldl (fun acc i => acc + f i) a = a + ∑ i in Finset.range n, f i := by
  induction n with
  | zero => simp
  | succ n ih =>
    rw [List.range_succ, List.foldl_append, ih, Finset.sum_range_succ]
    simp only [List.foldl_cons, List.foldl_nil]
    ring

/-- Entry of a list after one assignment. -/
theorem getD_set_eq {α : Type} (d : α) (x : List α) (i j : Nat) (a : α) (hj : j < x.length) :
    (x.set i a).getD j d = if j = i then a else x.getD j d := by
  simp only [List.getD_eq_getElem?_getD, List.getElem?_set]
  by_cases hji : j = i
  · subst hji
    simp [hj]
  · rw [if_neg (fun h => hji h.symm), if_neg hji]

/-- The starting-point loop clamps every component. -/
theorem shift_loop_spec (x x_l x_u : Vector) :
    ((List.range x.length).foldl (shift_step x_l x_u) x).length = x.length ∧
    ∀ j, j < x.length → ((List.range x.length).foldl (shift_step x_l x_u) x).getD j 0 =
      clamp_value (x_l.get_value j) (x_u.get_value j) (x.getD j 0) := by
  have h := foldl_range_pointwise (0 : ℚ) (shift_step x_l x_u)
    (fun i v => clamp_value (x_l.get_value i) (x_u.get_value i) v)
    (by
      intro y i
      unfold shift_step
      split_ifs <;> simp)
    (by
      intro y i j hj
      unfold shift_step clamp_value
      simp only [Vector.get_value]
      by_cases hji : j = i
      · subst hji
        simp only [if_true]
        split_ifs with h1 h2
        · rw [getD_set_eq _ _ _ _ _ hj, if_pos rfl]
        · rw [getD_set_eq _ _ _ _ _ hj, if_pos rfl]
        · rfl
      · simp only [if_neg hji]
        split_ifs with h1 h2
        · rw [getD_set_eq _ _ _ _ _ hj, if_neg hji]
        · rw [getD_set_eq _ _ _ _ _ hj, if_neg hji]
        · rfl)
    x.length x
  refine ⟨h.1, fun j hj => ?_⟩
  rw [h.2 j hj, if_pos hj]

/-- Two lists of the same length with the same entries are equal. -/
theorem list_ext_getD {α : Type} (d : α) (x y : List α) (hl : x.length = y.length)
    (h : ∀ j, j < x.length → x.getD j d = y.getD j d) : x = y := by
  apply List.ext_getElem hl
  intro n h1 h2
  have := h n h1
  simpa [List.getD_eq_getElem?_getD, List.getElem?_eq_getElem h1,
    List.getElem?_eq_getElem h2] using this

/-- The legacy shift and the shift of the driver are the same function. -/
theorem SQPTNLP.shift_starting_point_eq (x x_l x_u : Vector) :
    SQPTNLP.shift_starting_point x x_l x_u = shift_starting_point_ x x_l x_u := rfl

/-- With ordered bounds the shift returns, and returns the clamped loop result. -/
theorem shift_starting_point_some (x x_l x_u : Vector)
    (hb : ∀ i, i < x.length → x_l.get_value i ≤ x_u.get_value i) :
    shift_starting_point_ x x_l x_u =
      some ((List.range x.length).foldl (shift_step x_l x_u) x) := by
  unfold shift_starting_point_
  rw [if_pos]
  rw [List.all_eq_true]
  intro i hi
  exact decide_eq_true (hb i (List.mem_range.mp hi))

/-- Clamping with ordered bounds is the projection onto the interval. -/
theorem clamp_value_eq (l u v : ℚ) (h : l ≤ u) : clamp_value l u v = max l (min v u) := by
  unfold clamp_value
  split_ifs with h1 h2
  · rw [max_eq_left]
    exact le_trans (min_le_left _ _) (le_of_lt h1)
  · rw [min_eq_right (le_of_lt h2), max_eq_right h]
  · push_neg at h1 h2
    rw [min_eq_left h2, max_eq_right h1]

/-- C16: for bounds with `x_l ≤ x_u` componentwise, `shift_starting_point_` and the
legacy `SQPTNLP::shift_starting_point` both return the vector whose component `i` is
`max(x_l[i], min(x[i], x_u[i]))`; the result lies within the bounds, a component
already inside its bounds is unchanged, and shifting the result again returns it. -/
theorem shift_starting_point_clamps (x x_l x_u : Vector)
    (hb : ∀ i, i < x.length → x_l.get_value i ≤ x_u.get_value i) :
    ∃ y, shift_starting_point_ x x_l x_u = some y ∧
      SQPTNLP.shift_starting_point x x_l x_u = some y ∧
      y.length = x.length ∧
      (∀ i, i < x.length →
        y.get_value i = max (x_l.get_value i) (min (x.get_value i) (x_u.get_value i)) ∧
        x_l.get_value i ≤ y.get_value i ∧ y.get_value i ≤ x_u.get_value i ∧
        (x_l.get_value i ≤ x.get_value i → x.get_value i ≤ x_u.get_value i →
          y.get_value i = x.get_value i)) ∧
      shift_starting_point_ y x_l x_u = some y ∧
      SQPTNLP.shift_starting_point y x_l x_u = some y := by
  obtain ⟨hlen, hget⟩ := shift_loop_spec x x_l x_u
  have hval : ∀ i, i < x.length →
      ((List.range x.length).foldl (shift_step x_l x_u) x).get_value i =
        max (x_l.get_value i) (min (x.get_value i) (x_u.get_value i)) := by
    intro i hi
    simp only [Vector.get_value] at hb ⊢
    rw [hget i hi]
    exact clamp_value_eq _ _ _ (hb i hi)
  have hidem : shift_starting_point_
      ((List.range x.length).foldl (shift_step x_l x_u) x) x_l x_u =
        some ((List.range x.length).foldl (shift_step x_l x_u) x) := by
    rw [shift_starting_point_some _ _ _ (by rw [hlen]; exact hb)]
    congr 1
    obtain ⟨hlen2, hget2⟩ :=
      shift_loop_spec ((List.range x.length).foldl (shift_step x_l x_u) x) x_l x_u
    apply list_ext_getD 0 _ _ hlen2
    intro j hj
    rw [hlen2, hlen] at hj
    rw [hget2 j (by rw [hlen]; exact hj)]
    have h1 := hval j hj
    have h2 := hb j hj
    simp only [Vector.get_value] at h1 h2 ⊢
    rw [clamp_value_eq _ _ _ h2, h1]
    rw [min_eq_left (max_le h2 (min_le_right _ _))]
    exact max_eq_right (le_max_left _ _)
  refine ⟨_, shift_starting_point_some x x_l x_u hb, ?_, hlen, ?_, hidem, ?_⟩
  · rw [SQPTNLP.shift_starting_point_eq]
    exact shift_starting_point_some x x_l x_u hb
  · intro i hi
    rw [hval i hi]
    refine ⟨rfl, le_max_left _ _, max_le (hb i hi) (min_le_right _ _), fun h1 h2 => ?_⟩
    rw [min_eq_left h2, max_eq_right h1]
  · rw [SQPTNLP.shift_starting_point_eq]
    exact hidem

/-- Instance of C16 at the point `(3, -5, 0)` with the box `[-1, 1]³`. -/
theorem shift_starting_point_clamps_witness :
    (∀ i, i < ([3, -5, 0] : Vector).length →
      Vector.get_value [-1, -1, -1] i ≤ Vector.get_value [1, 1, 1] i) ∧
    ∃ y, shift_starting_point_ [3, -5, 0] [-1, -1, -1] [1, 1, 1] = some y ∧
      SQPTNLP.shift_starting_point [3, -5, 0] [-1, -1, -1] [1, 1, 1] = some y ∧
      y.length = ([3, -5, 0] : Vector).length ∧
      (∀ i, i < ([3, -5, 0] : Vector).length →
        y.get_value i = max (Vector.get_value [-1, -1, -1] i)
          (min (Vector.get_value [3, -5, 0] i) (Vector.get_value [1, 1, 1] i)) ∧
        Vector.get_value [-1, -1, -1] i ≤ y.get_value i ∧
        y.get_value i ≤ Vector.get_value [1, 1, 1] i ∧
        (Vector.get_value [-1, -1, -1] i ≤ Vector.get_value [3, -5, 0] i →
          Vector.get_value [3, -5, 0] i ≤ Vector.get_value [1, 1, 1] i →
          y.get_value i = Vector.get_value [3, -5, 0] i)) ∧
      shift_starting_point_ y [-1, -1, -1] [1, 1, 1] = some y ∧
      SQPTNLP.shift_starting_point y [-1, -1, -1] [1, 1, 1] = some y :=
  have hb : ∀ i, i < ([3, -5, 0] : Vector).length →
      Vector.get_value [-1, -1, -1] i ≤ Vector.get_value [1, 1, 1] i := by
    intro i hi
    have : i = 0 ∨ i = 1 ∨ i = 2 := by
      simp only [List.length_cons, List.length_nil] at hi
      omega
    rcases this with h | h | h <;> subst h <;> norm_num [Vector.get_value]
  ⟨hb, shift_starting_point_clamps [3, -5, 0] [-1, -1, -1] [1, 1, 1] hb⟩

/-! ### Infeasibility measure -/

/-- With ordered bounds the added term is the sum of the two one-sided violations. -/
theorem infea_term_eq (l u c : ℚ) (h : l ≤ u) :
    infea_term l u c = max 0 (l - c) + max 0 (c - u) := by
  unfold infea_term
  split_ifs with h1 h2
  · rw [max_eq_right (by linarith), max_eq_left (by linarith)]
    ring
  · rw [max_eq_left (by linarith), max_eq_right (by linarith)]
    ring
  · push_neg at h1 h2
    rw [max_eq_left (by linarith), max_eq_left (by linarith)]
    ring

/-- The added term is never negative. -/
theorem infea_term_nonneg (l u c : ℚ) : 0 ≤ infea_term l u c := by
  unfold infea_term
  split_ifs with h1 h2 <;> linarith

/-- The added term vanishes exactly for a value within its bounds. -/
theorem infea_term_eq_zero (l u c : ℚ) : infea_term l u c = 0 ↔ l ≤ c ∧ c ≤ u := by
  unfold infea_term
  split_ifs with h1 h2
  · constructor
    · intro h
      linarith
    · intro h
      linarith [h.1]
  · constructor
    · intro h
      linarith
    · intro h
      linarith [h.2]
  · push_neg at h1 h2
    exact ⟨fun _ => ⟨h1, h2⟩, fun _ => rfl⟩

/-- A loop of `cal_infea` adds the terms of all its indices to the running measure. -/
theorem infea_loop_eq (c l u : Vector) (n : Nat) (a : ℚ) :
    (List.range n).foldl (fun infea_measure i =>
      if c.get_value i < l.get_value i then
        infea_measure + (l.get_value i - c.get_value i)
      else if c.get_value i > u.get_value i then
        infea_measure + (c.get_value i - u.get_value i)
      else infea_measure) a =
    a + ∑ i in Finset.range n, infea_term (l.get_value i) (u.get_value i) (c.get_value i) := by
  rw [← foldl_range_add]
  congr 1
  funext acc i
  unfold infea_term
  split_ifs <;> simp

/-- The measure without variable bounds, as a sum of terms. -/
theorem cal_infea_none {σ : Type} (s : SqpAlgorithm σ) (c c_l c_u : Vector) :
    cal_infea s c c_l c_u none = ∑ i in Finset.range s.c_k.length,
      infea_term (c_l.get_value i) (c_u.get_value i) (c.get_value i) := by
  simp only [cal_infea]
  rw [infea_loop_eq, zero_add]

/-- The measure with variable bounds, as a sum of terms. -/
theorem cal_infea_some {σ : Type} (s : SqpAlgorithm σ) (c c_l c_u x x_l x_u : Vector) :
    cal_infea s c c_l c_u (some (x, x_l, x_u)) = cal_infea s c c_l c_u none +
      ∑ i in Finset.range s.x_k.length,
        infea_term (x_l.get_value i) (x_u.get_value i) (x.get_value i) := by
  rw [cal_infea_none]
  simp only [cal_infea]
  rw [infea_loop_eq, infea_loop_eq, zero_add]

/-- C15: for vectors `c`, `c_l`, `c_u` of the length of the constraint vector with
`c_l ≤ c_u` componentwise, `cal_infea` returns
`Σ max(0, c_l[i] - c[i]) + Σ max(0, c[i] - c_u[i])`; the result is non-negative and is
zero exactly when `c_l ≤ c ≤ c_u` componentwise; and when `x`, `x_l`, `x_u` of the
length of the iterate are supplied with `x_l ≤ x_u`, the same two sums for the variable
bounds are added. -/
theorem cal_infea_formula {σ : Type} (s : SqpAlgorithm σ) (c c_l c_u : Vector)
    (hc : c.length = s.c_k.length) (hl : c_l.length = c.length) (hu : c_u.length = c.length)
    (hlu : ∀ i, i < c.length → c_l.get_value i ≤ c_u.get_value i) :
    cal_infea s c c_l c_u none =
      ∑ i in Finset.range c.length, max 0 (c_l.get_value i - c.get_value i) +
      ∑ i in Finset.range c.length, max 0 (c.get_value i - c_u.get_value i) ∧
    0 ≤ cal_infea s c c_l c_u none ∧
    (cal_infea s c c_l c_u none = 0 ↔
      ∀ i, i < c.length → c_l.get_value i ≤ c.get_value i ∧ c.get_value i ≤ c_u.get_value i) ∧
    ∀ x x_l x_u : Vector, x.length = s.x_k.length → x_l.length = x.length →
      x_u.length = x.length → (∀ i, i < x.length → x_l.get_value i ≤ x_u.get_value i) →
      cal_infea s c c_l c_u (some (x, x_l, x_u)) = cal_infea s c c_l c_u none +
        (∑ i in Finset.range x.length, max 0 (x_l.get_value i - x.get_value i) +
         ∑ i in Finset.range x.length, max 0 (x.get_value i - x_u.get_value i)) := by
  have _ := hl
  have _ := hu
  refine ⟨?_, ?_, ?_, ?_⟩
  · rw [cal_infea_none, ← hc, ← Finset.sum_add_distrib]
    exact Finset.sum_congr rfl
      (fun i hi => infea_term_eq _ _ _ (hlu i (Finset.mem_range.mp hi)))
  · rw [cal_infea_none]
    exact Finset.sum_nonneg (fun i _ => infea_term_nonneg _ _ _)
  · rw [cal_infea_none, ← hc,
      Finset.sum_eq_zero_iff_of_nonneg (fun i _ => infea_term_nonneg _ _ _)]
    constructor
    · intro h i hi
      exact (infea_term_eq_zero _ _ _).mp (h i (Finset.mem_range.mpr hi))
    · intro h i hi
      exact (infea_term_eq_zero _ _ _).mpr (h i (Finset.mem_range.mp hi))
  · intro x x_l x_u hx _ _ hxlu
    rw [cal_infea_some, ← hx, ← Finset.sum_add_distrib]
    congr 1
    exact Finset.sum_congr rfl
      (fun i hi => infea_term_eq _ _ _ (hxlu i (Finset.mem_range.mp hi)))

/-! ### Dual violation and stationarity -/

/-- Fetching the multipliers leaves the constraint types unchanged. -/
@[simp]
theorem get_multipliers_cons_type {σ : Type} (o : SqpOptions) (h : QPhandler σ)
    (s : SqpAlgorithm σ) : (get_multipliers o h s).cons_type = s.cons_type := by
  unfold get_multipliers
  split_ifs <;> rfl

/-- Fetching the multipliers leaves the bound types unchanged. -/
@[simp]
theorem get_multipliers_bound_cons_type {σ : Type} (o : SqpOptions) (h : QPhandler σ)
    (s : SqpAlgorithm σ) : (get_multipliers o h s).bound_cons_type = s.bound_cons_type := by
  unfold get_multipliers
  split_ifs <;> rfl

/-- Fetching the multipliers leaves the gradient unchanged. -/
@[simp]
theorem get_multipliers_grad_f {σ : Type} (o : SqpOptions) (h : QPhandler σ)
    (s : SqpAlgorithm σ) : (get_multipliers o h s).grad_f = s.grad_f := by
  unfold get_multipliers
  split_ifs <;> rfl

/-- Fetching the multipliers leaves the Jacobian unchanged. -/
@[simp]
theorem get_multipliers_jacobian {σ : Type} (o : SqpOptions) (h : QPhandler σ)
    (s : SqpAlgorithm σ) : (get_multipliers o h s).jacobian = s.jacobian := by
  unfold get_multipliers
  split_ifs <;> rfl

/-- A dual-feasibility loop adds the terms of all its rows. -/
theorem dual_violation_loop_eq (n : Nat) (type : List ConstraintType) (mu : Vector) (dv : ℚ) :
    dual_violation_loop n type mu dv = dv + ∑ i in Finset.range n,
      dual_term (type.getD i ConstraintType.UNBOUNDED) (mu.get_value i) := by
  unfold dual_violation_loop
  rw [← foldl_range_add]
  congr 1
  funext acc i
  unfold dual_term
  cases type.getD i ConstraintType.UNBOUNDED <;> simp

/-- The term of a row is never negative. -/
theorem dual_term_nonneg (t : ConstraintType) (m : ℚ) : 0 ≤ dual_term t m := by
  unfold dual_term
  cases t <;> simp

/-- The term of a row vanishes exactly when its multiplier has the right sign. -/
theorem dual_term_eq_zero (t : ConstraintType) (m : ℚ) :
    dual_term t m = 0 ↔ (t = ConstraintType.BOUNDED_ABOVE → m ≤ 0) ∧
      (t = ConstraintType.BOUNDED_BELOW → 0 ≤ m) := by
  unfold dual_term
  cases t <;> simp

/-- The terms of the rows add up to the two sums of the specification. -/
theorem dual_term_sum (n : Nat) (type : List ConstraintType) (mu : Vector) :
    ∑ i in Finset.range n, dual_term (type.getD i ConstraintType.UNBOUNDED) (mu.get_value i) =
      dual_violation_sum n type mu := by
  unfold dual_violation_sum
  rw [Finset.sum_filter, Finset.sum_filter, ← Finset.sum_add_distrib]
  apply Finset.sum_congr rfl
  intro i _
  unfold dual_term
  cases type.getD i ConstraintType.UNBOUNDED <;>
    first
    | (simp; done)
    | (simp only [reduceCtorEq, if_false, if_true, zero_add]
       rw [← max_neg_neg, neg_zero])

/-- The dual violation recorded by the KKT check, as the two loops. -/
theorem check_optimality_dual_loops {σ : Type} (o : SqpOptions) (h : QPhandler σ)
    (s : SqpAlgorithm σ) :
    (check_optimality o h s).opt_status.dual_violation =
      dual_violation_loop s.nCon s.cons_type (get_multipliers o h s).multiplier_cons
        (dual_violation_loop s.nVar s.bound_cons_type
          (get_multipliers o h s).multiplier_vars 0) := by
  unfold check_optimality
  simp only [multiplier_vars_is_nullptr, Bool.false_eq_true, if_false]
  split_ifs <;> simp

/-- C18: `check_optimality` records as dual violation the sum of `max(mu_var[i], 0)`
over the BOUNDED_ABOVE variables plus the sum of `max(-mu_var[i], 0)` over the
BOUNDED_BELOW variables plus the same two sums over the constraints with `mu_cons`,
for the multipliers fetched at the start of the call; hence it is non-negative, and it
is zero exactly when every multiplier of a BOUNDED_ABOVE row is `≤ 0` and every
multiplier of a BOUNDED_BELOW row is `≥ 0`. -/
theorem check_optimality_dual_violation {σ : Type} (o : SqpOptions) (h : QPhandler σ)
    (s : SqpAlgorithm σ) :
    (check_optimality o h s).opt_status.dual_violation =
      dual_violation_sum s.nVar s.bound_cons_type (get_multipliers o h s).multiplier_vars +
      dual_violation_sum s.nCon s.cons_type (get_multipliers o h s).multiplier_cons ∧
    0 ≤ (check_optimality o h s).opt_status.dual_violation ∧
    ((check_optimality o h s).opt_status.dual_violation = 0 ↔
      (∀ i, i < s.nVar →
        (s.bound_cons_type.getD i ConstraintType.UNBOUNDED = ConstraintType.BOUNDED_ABOVE →
          (get_multipliers o h s).multiplier_vars.get_value i ≤ 0) ∧
        (s.bound_cons_type.getD i ConstraintType.UNBOUNDED = ConstraintType.BOUNDED_BELOW →
          0 ≤ (get_multipliers o h s).multiplier_vars.get_value i)) ∧
      (∀ i, i < s.nCon →
        (s.cons_type.getD i ConstraintType.UNBOUNDED = ConstraintType.BOUNDED_ABOVE →
          (get_multipliers o h s).multiplier_cons.get_value i ≤ 0) ∧
        (s.cons_type.getD i ConstraintType.UNBOUNDED = ConstraintType.BOUNDED_BELOW →
          0 ≤ (get_multipliers o h s).multiplier_cons.get_value i))) := by
  rw [check_optimality_dual_loops, dual_violation_loop_eq, dual_violation_loop_eq, zero_add]
  have hv := Finset.sum_nonneg (s := Finset.range s.nVar)
    (fun i _ => dual_term_nonneg (s.bound_cons_type.getD i ConstraintType.UNBOUNDED)
      ((get_multipliers o h s).multiplier_vars.get_value i))
  have hc := Finset.sum_nonneg (s := Finset.range s.nCon)
    (fun i _ => dual_term_nonneg (s.cons_type.getD i ConstraintType.UNBOUNDED)
      ((get_multipliers o h s).multiplier_cons.get_value i))
  refine ⟨by rw [dual_term_sum, dual_term_sum], add_nonneg hv hc, ?_⟩
  rw [add_eq_zero_iff_of_nonneg hv hc,
    Finset.sum_eq_zero_iff_of_nonneg (fun i _ => dual_term_nonneg _ _),
    Finset.sum_eq_zero_iff_of_nonneg (fun i _ => dual_term_nonneg _ _)]
  simp only [Finset.mem_range, dual_term_eq_zero]

/-- The l1 norm loop adds the absolute values of all entries. -/
theorem Vector.calc_one_norm_foldl (v : Vector) (a : ℚ) :
    v.foldl (fun acc x => acc + |x|) a = a + ∑ i in Finset.range v.length, |v.getD i 0| := by
  induction v generalizing a with
  | nil => simp
  | cons x v ih =>
    rw [List.foldl_cons, ih, List.length_cons, Finset.sum_range_succ']
    simp only [List.getD_cons_succ, List.getD_cons_zero]
    ring

/-- The l1 norm is the sum of the absolute values of the entries. -/
theorem Vector.calc_one_norm_eq (v : Vector) :
    v.calc_one_norm = ∑ i in Finset.range v.length, |v.getD i 0| := by
  unfold Vector.calc_one_norm
  rw [Vector.calc_one_norm_foldl, zero_add]

/-- Scaled addition keeps the length. -/
theorem Vector.add_vector_length (v : Vector) (a : ℚ) (rhs : Vector) :
    (v.add_vector a rhs).length = v.length := by
  simp [Vector.add_vector]

/-- Entries after a scaled addition. -/
theorem Vector.add_vector_getD (v : Vector) (a : ℚ) (rhs : Vector) (i : Nat)
    (hi : i < v.length) : (v.add_vector a rhs).getD i 0 = v.getD i 0 + a * rhs.getD i 0 := by
  simp [Vector.add_vector, List.getD_eq_getElem?_getD, hi]

/-- A loop of `add_number_to_element` calls keeps the length and adds to entry `i`
the amounts of the passes that address it. -/
theorem foldl_add_number_to_element (c : Nat → Nat) (w : Nat → ℚ) (m : Nat) (r0 : Vector) :
    ((List.range m).foldl (fun r k => Vector.add_number_to_element r (c k) (w k)) r0).length =
      r0.length ∧
    ∀ i, i < r0.length →
      ((List.range m).foldl (fun r k => Vector.add_number_to_element r (c k) (w k)) r0).getD i 0 =
        r0.getD i 0 + ∑ k in Finset.range m, if c k = i then w k else 0 := by
  induction m with
  | zero => simp
  | succ m ih =>
    rw [List.range_succ, List.foldl_append]
    simp only [List.foldl_cons, List.foldl_nil]
    obtain ⟨hl, hg⟩ := ih
    refine ⟨by rw [Vector.add_number_to_element, List.length_set, hl], fun i hi => ?_⟩
    rw [Vector.add_number_to_element, getD_set_eq _ _ _ _ _ (by rw [hl]; exact hi),
      Finset.sum_range_succ]
    by_cases hci : c m = i
    · rw [if_pos hci.symm, if_pos hci, hci, hg i hi]
      ring
    · rw [if_neg (fun h => hci h.symm), if_neg hci, hg i hi]
      ring

/-- The transposed product keeps the length of its result buffer. -/
theorem SpTripletMat.multiply_transpose_length (A : SpTripletMat) (p result : Vector) :
    (A.multiply_transpose p result).length = result.length := by
  unfold SpTripletMat.multiply_transpose
  rw [(foldl_add_number_to_element _ _ _ _).1, List.length_replicate]

/-- Entries of the transposed product. -/
theorem SpTripletMat.multiply_transpose_getD (A : SpTripletMat) (p result : Vector) (i : Nat)
    (hi : i < result.length) :
    (A.multiply_transpose p result).getD i 0 = A.transpose_apply p i := by
  unfold SpTripletMat.multiply_transpose SpTripletMat.transpose_apply
  rw [(foldl_add_number_to_element _ _ _ _).2 i (by rw [List.length_replicate]; exact hi),
    Finset.sum_filter]
  simp [List.getD_eq_getElem?_getD, hi]

/-- The stationarity violation recorded by the KKT check, as the three vector calls. -/
theorem check_optimality_stationarity_calls {σ : Type} (o : SqpOptions) (h : QPhandler σ)
    (s : SqpAlgorithm σ) :
    (check_optimality o h s).opt_status.stationarity_violation =
      Vector.calc_one_norm (Vector.add_vector (Vector.add_vector
        (s.jacobian.multiply_transpose (get_multipliers o h s).multiplier_cons
          (List.replicate s.nVar 0)) 1 (get_multipliers o h s).multiplier_vars)
        (-1) s.grad_f) := by
  unfold check_optimality
  simp only [multiplier_vars_is_nullptr, Bool.false_eq_true, if_false]
  split_ifs <;> simp

/-- C19: `check_optimality` records as stationarity violation the l1 norm of
`grad_f - Jᵀ mu_cons - mu_var`, the sum over the `nVar` variables of the absolute
values of its components, where `J` is the current triplet Jacobian and `mu_cons`,
`mu_var` are the multipliers fetched at the start of the call, for every state. -/
theorem check_optimality_stationarity {σ : Type} (o : SqpOptions) (h : QPhandler σ)
    (s : SqpAlgorithm σ) :
    (check_optimality o h s).opt_status.stationarity_violation =
      ∑ i in Finset.range s.nVar,
        |s.grad_f.get_value i
          - s.jacobian.transpose_apply (get_multipliers o h s).multiplier_cons i
          - (get_multipliers o h s).multiplier_vars.get_value i| := by
  rw [check_optimality_stationarity_calls, Vector.calc_one_norm_eq]
  have hlen : (Vector.add_vector (Vector.add_vector
        (s.jacobian.multiply_transpose (get_multipliers o h s).multiplier_cons
          (List.replicate s.nVar 0)) 1 (get_multipliers o h s).multiplier_vars)
        (-1) s.grad_f).length = s.nVar := by
    rw [Vector.add_vector_length, Vector.add_vector_length,
      SpTripletMat.multiply_transpose_length, List.length_replicate]
  rw [hlen]
  apply Finset.sum_congr rfl
  intro i hi
  have hi1 : i < s.nVar := Finset.mem_range.mp hi
  have h0 : i < (List.replicate s.nVar (0 : ℚ)).length := by
    rw [List.length_replicate]; exact hi1
  have h1 : i < (s.jacobian.multiply_transpose (get_multipliers o h s).multiplier_cons
      (List.replicate s.nVar 0)).length := by
    rw [SpTripletMat.multiply_transpose_length]; exact h0
  have h2 : i < (Vector.add_vector (s.jacobian.multiply_transpose
      (get_multipliers o h s).multiplier_cons (List.replicate s.nVar 0)) 1
      (get_multipliers o h s).multiplier_vars).length := by
    rw [Vector.add_vector_length]; exact h1
  rw [Vector.add_vector_getD _ _ _ _ h2, Vector.add_vector_getD _ _ _ _ h1,
    SpTripletMat.multiply_transpose_getD _ _ _ _ h0]
  simp only [Vector.get_value]
  rw [← abs_neg]
  congr 1
  ring

/-- Instance of C15 at `c = 3` with the bounds `5 ≤ c ≤ 10` of the second concrete
problem. -/
theorem cal_infea_formula_witness :
    (∀ i, i < ([3] : Vector).length →
      Vector.get_value [5] i ≤ Vector.get_value [10] i) ∧
    cal_infea exState2 [3] [5] [10] none =
      ∑ i in Finset.range ([3] : Vector).length,
        max 0 (Vector.get_value [5] i - Vector.get_value [3] i) +
      ∑ i in Finset.range ([3] : Vector).length,
        max 0 (Vector.get_value [3] i - Vector.get_value [10] i) :=
  have hlu : ∀ i, i < ([3] : Vector).length →
      Vector.get_value [5] i ≤ Vector.get_value [10] i := by
    intro i hi
    have : i = 0 := by
      simp only [List.length_cons, List.length_nil] at hi
      omega
    subst this
    norm_num [Vector.get_value]
  ⟨hlu, (cal_infea_formula exState2 [3] [5] [10] rfl rfl rfl hlu).1⟩

/-- C17: on an open side marked by the value `INF` itself the classification does
not follow the documented rules: with `u = +INF` the result is UNBOUNDED whatever the
lower bound is (also for `l > -INF`, where the rules give BOUNDED_BELOW), and with
`l = -INF` it is UNBOUNDED whatever the upper bound is (also for `u < +INF`, where
the rules give BOUNDED_ABOVE). -/
theorem classify_single_constraint_open_side (INF l u : ℚ) :
    classify_single_constraint INF l INF = ConstraintType.UNBOUNDED ∧
    classify_single_constraint INF (-INF) u = ConstraintType.UNBOUNDED := by
  unfold classify_single_constraint
  simp

/-- C20: the KKT check never writes a marker of a constraint, and a variable marker
is only overwritten in the branches that assign one: in the concrete problem the
constraint that sits on its upper bound stays INACTIVE, and the variable marked
ACTIVE_ABOVE at `x = 10` is still marked ACTIVE_ABOVE by the check at `x = 3`. -/
theorem check_optimality_stale_active_set :
    (∀ (σ : Type) (o : SqpOptions) (h : QPhandler σ) (s : SqpAlgorithm σ),
      (check_optimality o h s).Active_Set_constraints = s.Active_Set_constraints) ∧
    (check_optimality exOptions exHandler2 exStateAtBound).Active_Set_constraints =
      [ActiveType.INACTIVE] ∧
    (check_optimality exOptions exHandler2 exStateAtBound).Active_Set_bounds =
      [ActiveType.ACTIVE_ABOVE] ∧
    exStateMoved.x_k = [3] ∧ exStateMoved.x_u = [10] ∧
    exStateMoved.bound_cons_type = [ConstraintType.BOUNDED_ABOVE] ∧
    (check_optimality exOptions exHandler2 exStateMoved).Active_Set_bounds =
      [ActiveType.ACTIVE_ABOVE] := by
  refine ⟨?_, ?_, ?_, ?_, ?_, ?_, ?_⟩
  · intro σ o h s
    unfold check_optimality
    simp only [multiplier_vars_is_nullptr, Bool.false_eq_true, if_false]
    split_ifs
    · unfold get_multipliers
      split_ifs <;> rfl
    · unfold get_multipliers
      split_ifs <;> rfl
  · decide!
  · decide!
  · decide!
  · decide!
  · decide!
  · decide!

/-! ### The penalty parameter stays clamped -/

/-- One pass of a penalty loop with a trial value below the maximum keeps the log
bounded, and it still does after the model infeasibility or the exit flag is stored. -/
theorem penalty_pass_log {σ : Type} (o : SqpOptions) (h : QPhandler σ) (L0 : List ℚ) (rho : ℚ)
    (s : SqpAlgorithm (σ × List ℚ)) (rho_trial1 : ℚ)
    (hr : rho_trial1 ≤ o.penalty_parameter_max_value) (hs : PenaltyLog o L0 rho s) (v : ℚ)
    (e : Exitflag) :
    PenaltyLog o L0 rho
      { (solveQP h.recording { s with stats := s.stats.penalty_change_trial_addone,
                                      myQP := h.recording.update_penalty rho_trial1 s.myQP }).2 with
        infea_measure_model := v } ∧
    PenaltyLog o L0 rho
      { (solveQP h.recording { s with stats := s.stats.penalty_change_trial_addone,
                                      myQP := h.recording.update_penalty rho_trial1 s.myQP }).2 with
        exit_flag := e } := by
  obtain ⟨h1, h2⟩ := hs
  have key : ∀ x ∈ rho_trial1 :: s.myQP.2, x ∈ L0 ∨ x ≤ o.penalty_parameter_max_value := by
    intro x hx
    rcases List.mem_cons.mp hx with rfl | hx
    · exact Or.inr hr
    · exact h2 x hx
  exact ⟨⟨h1, key⟩, ⟨h1, key⟩⟩

/-- The clamped trial value is at most the maximum. -/
theorem rho_trial_le_max (o : SqpOptions) (rho_trial : ℚ) :
    min o.penalty_parameter_max_value (rho_trial * o.penalty_parameter_increase_factor) ≤
      o.penalty_parameter_max_value := min_le_left _ _

/-- The first penalty loop ends with a trial value at most the maximum and a bounded
log. -/
theorem penalty_loop_feasible_log {σ : Type} (o : SqpOptions) (h : QPhandler σ) (L0 : List ℚ)
    (rho : ℚ) :
    ∀ (fuel : Nat) (rho_trial : ℚ) (s : SqpAlgorithm (σ × List ℚ)) (r : ℚ)
      (sL : SqpAlgorithm (σ × List ℚ)),
      rho_trial ≤ o.penalty_parameter_max_value → PenaltyLog o L0 rho s →
      penalty_loop_feasible o h.recording fuel rho_trial s = some (r, sL) →
      r ≤ o.penalty_parameter_max_value ∧ PenaltyLog o L0 rho sL := by
  intro fuel
  induction fuel with
  | zero =>
    intro rho_trial s r sL hle hs hres
    simp only [penalty_loop_feasible] at hres
    split_ifs at hres <;> simp only [Option.some.injEq, Prod.mk.injEq] at hres <;>
      (obtain ⟨rfl, rfl⟩ := hres; exact ⟨hle, hs⟩)
  | succ n ih =>
    intro rho_trial s r sL hle hs hres
    simp only [penalty_loop_feasible] at hres
    split_ifs at hres
    · simp only [Option.some.injEq, Prod.mk.injEq] at hres
      obtain ⟨rfl, rfl⟩ := hres
      exact ⟨hle, hs⟩
    · exact ih _ _ _ _ (rho_trial_le_max o rho_trial)
        (penalty_pass_log o h L0 rho s _ (rho_trial_le_max o rho_trial) hs _
          Exitflag.UNKNOWN).1 hres
    · simp only [Option.some.injEq, Prod.mk.injEq] at hres
      obtain ⟨rfl, rfl⟩ := hres
      exact ⟨rho_trial_le_max o rho_trial,
        (penalty_pass_log o h L0 rho s _ (rho_trial_le_max o rho_trial) hs 0 _).2⟩
    · simp only [Option.some.injEq, Prod.mk.injEq] at hres
      obtain ⟨rfl, rfl⟩ := hres
      exact ⟨hle, hs⟩

/-- The second penalty loop ends with a trial value at most the maximum and a bounded
log. -/
theorem penalty_loop_infeasible_log {σ : Type} (o : SqpOptions) (h : QPhandler σ)
    (infty : ℚ) (L0 : List ℚ) (rho : ℚ) :
    ∀ (fuel : Nat) (rho_trial : ℚ) (s : SqpAlgorithm (σ × List ℚ)) (r : ℚ)
      (sL : SqpAlgorithm (σ × List ℚ)),
      rho_trial ≤ o.penalty_parameter_max_value → PenaltyLog o L0 rho s →
      penalty_loop_infeasible o h.recording infty fuel rho_trial s = some (r, sL) →
      r ≤ o.penalty_parameter_max_value ∧ PenaltyLog o L0 rho sL := by
  intro fuel
  induction fuel with
  | zero =>
    intro rho_trial s r sL hle hs hres
    simp only [penalty_loop_infeasible] at hres
    split_ifs at hres <;> simp only [Option.some.injEq, Prod.mk.injEq] at hres <;>
      (obtain ⟨rfl, rfl⟩ := hres; exact ⟨hle, hs⟩)
  | succ n ih =>
    intro rho_trial s r sL hle hs hres
    simp only [penalty_loop_infeasible] at hres
    split_ifs at hres
    · simp only [Option.some.injEq, Prod.mk.injEq] at hres
      obtain ⟨rfl, rfl⟩ := hres
      exact ⟨hle, hs⟩
    · exact ih _ _ _ _ (rho_trial_le_max o rho_trial)
        (penalty_pass_log o h L0 rho s _ (rho_trial_le_max o rho_trial) hs _
          Exitflag.UNKNOWN).1 hres
    · simp only [Option.some.injEq, Prod.mk.injEq] at hres
      obtain ⟨rfl, rfl⟩ := hres
      exact ⟨rho_trial_le_max o rho_trial,
        (penalty_pass_log o h L0 rho s _ (rho_trial_le_max o rho_trial) hs 0 _).2⟩
    · simp only [Option.some.injEq, Prod.mk.injEq] at hres
      obtain ⟨rfl, rfl⟩ := hres
      exact ⟨hle, hs⟩

/-- Both penalty loops end with a trial value at most the maximum and a bounded log. -/
theorem penalty_loops_log {σ : Type} (o : SqpOptions) (h : QPhandler σ) (infty : ℚ)
    (L0 : List ℚ) (rho : ℚ) (fuel : Nat) (rho_trial : ℚ) (s : SqpAlgorithm (σ × List ℚ))
    (r : ℚ) (sL : SqpAlgorithm (σ × List ℚ))
    (hle : rho_trial ≤ o.penalty_parameter_max_value) (hs : PenaltyLog o L0 rho s)
    (hres : penalty_loops o h.recording infty fuel rho_trial s = some (r, sL)) :
    r ≤ o.penalty_parameter_max_value ∧ PenaltyLog o L0 rho sL := by
  unfold penalty_loops at hres
  split_ifs at hres
  · exact penalty_loop_feasible_log o h L0 rho fuel rho_trial s r sL hle hs hres
  · exact penalty_loop_infeasible_log o h infty L0 rho fuel rho_trial s r sL hle hs hres

/-- The decision block keeps the handler of the QP and sets `rho` to the trial value
or leaves it. -/
theorem penalty_decision_log {σ : Type} (o : SqpOptions) (nlp : SqpNlp) (h : QPhandler σ)
    (tmp rho_trial : ℚ) (s : SqpAlgorithm σ) :
    (penalty_decision o nlp h tmp rho_trial s).myQP = s.myQP ∧
    ((penalty_decision o nlp h tmp rho_trial s).rho = rho_trial ∨
      (penalty_decision o nlp h tmp rho_trial s).rho = s.rho) := by
  simp only [penalty_decision]
  split_ifs
  · exact ⟨by simp [get_search_direction], Or.inl (by simp)⟩
  · exact ⟨rfl, Or.inr rfl⟩
  · exact ⟨rfl, Or.inr rfl⟩
  · exact ⟨rfl, Or.inr rfl⟩

/-- With enough fuel the first penalty loop returns. -/
theorem penalty_loop_feasible_returns {σ : Type} (o : SqpOptions) (h : QPhandler σ)
    (hf : 1 < o.penalty_parameter_increase_factor) :
    ∀ (fuel : Nat) (rho_trial : ℚ) (s : SqpAlgorithm σ), 0 < rho_trial →
      o.penalty_parameter_max_value ≤ rho_trial * o.penalty_parameter_increase_factor ^ fuel →
      ∃ r, penalty_loop_feasible o h fuel rho_trial s = some r := by
  intro fuel
  induction fuel with
  | zero =>
    intro rho_trial s _ hpow
    rw [pow_zero, mul_one] at hpow
    simp only [penalty_loop_feasible]
    split_ifs <;> exact ⟨_, rfl⟩
  | succ n ih =>
    intro rho_trial s hpos hpow
    simp only [penalty_loop_feasible]
    split_ifs with h1 h2 h3
    · exact ⟨_, rfl⟩
    · push_neg at h2
      apply ih
      · exact lt_min (lt_trans hpos h2) (mul_pos hpos (lt_trans zero_lt_one hf))
      · rcases le_total o.penalty_parameter_max_value
          (rho_trial * o.penalty_parameter_increase_factor) with hc | hc
        · rw [min_eq_left hc]
          exact le_mul_of_one_le_right (le_of_lt (lt_trans hpos h2))
            (one_le_pow₀ (le_of_lt hf))
        · rw [min_eq_right hc]
          calc o.penalty_parameter_max_value
              ≤ rho_trial * o.penalty_parameter_increase_factor ^ (n + 1) := hpow
            _ = rho_trial * o.penalty_parameter_increase_factor *
                  o.penalty_parameter_increase_factor ^ n := by ring
    · exact ⟨_, rfl⟩
    · exact ⟨_, rfl⟩

/-- With enough fuel the second penalty loop returns. -/
theorem penalty_loop_infeasible_returns {σ : Type} (o : SqpOptions) (h : QPhandler σ)
    (infty : ℚ) (hf : 1 < o.penalty_parameter_increase_factor) :
    ∀ (fuel : Nat) (rho_trial : ℚ) (s : SqpAlgorithm σ), 0 < rho_trial →
      o.penalty_parameter_max_value ≤ rho_trial * o.penalty_parameter_increase_factor ^ fuel →
      ∃ r, penalty_loop_infeasible o h infty fuel rho_trial s = some r := by
  intro fuel
  induction fuel with
  | zero =>
    intro rho_trial s _ hpow
    rw [pow_zero, mul_one] at hpow
    simp only [penalty_loop_infeasible]
    split_ifs <;> exact ⟨_, rfl⟩
  | succ n ih =>
    intro rho_trial s hpos hpow
    simp only [penalty_loop_infeasible]
    split_ifs with h1 h2 h3
    · exact ⟨_, rfl⟩
    · push_neg at h2
      apply ih
      · exact lt_min (lt_trans hpos h2) (mul_pos hpos (lt_trans zero_lt_one hf))
      · rcases le_total o.penalty_parameter_max_value
          (rho_trial * o.penalty_parameter_increase_factor) with hc | hc
        · rw [min_eq_left hc]
          exact le_mul_of_one_le_right (le_of_lt (lt_trans hpos h2))
            (one_le_pow₀ (le_of_lt hf))
        · rw [min_eq_right hc]
          calc o.penalty_parameter_max_value
              ≤ rho_trial * o.penalty_parameter_increase_factor ^ (n + 1) := hpow
            _ = rho_trial * o.penalty_parameter_increase_factor *
                  o.penalty_parameter_increase_factor ^ n := by ring
    · exact ⟨_, rfl⟩
    · exact ⟨_, rfl⟩

/-- A positive penalty increased by a factor above one reaches the maximum after
finitely many increases. -/
theorem exists_fuel_for_penalty (o : SqpOptions) (rho : ℚ) (hpos : 0 < rho)
    (hf : 1 < o.penalty_parameter_increase_factor) :
    ∃ fuel : Nat,
      o.penalty_parameter_max_value ≤ rho * o.penalty_parameter_increase_factor ^ fuel := by
  obtain ⟨n, hn⟩ := pow_unbounded_of_one_lt (o.penalty_parameter_max_value / rho) hf
  refine ⟨n, ?_⟩
  rw [div_lt_iff₀ hpos] at hn
  linarith

/-- With enough fuel the penalty update returns. -/
theorem update_penalty_parameter_returns {σ : Type} (o : SqpOptions) (nlp : SqpNlp)
    (h : QPhandler σ) (s : SqpAlgorithm σ) (hpos : 0 < s.rho)
    (hf : 1 < o.penalty_parameter_increase_factor) :
    ∃ fuel r, update_penalty_parameter o nlp h fuel s = some r := by
  obtain ⟨n, hn⟩ := exists_fuel_for_penalty o s.rho hpos hf
  refine ⟨n, ?_⟩
  simp only [update_penalty_parameter]
  split_ifs with h1 h2
  · have hloops : ∃ r, penalty_loops o h
        (h.get_infea_measure_model (solveLP h (setupLP h
          { s with infea_measure_model := h.get_infea_measure_model s.myQP })).2.myLP) n s.rho
        (solveLP h (setupLP h
          { s with infea_measure_model := h.get_infea_measure_model s.myQP })).2 = some r := by
      unfold penalty_loops
      split_ifs
      · exact penalty_loop_feasible_returns o h hf n s.rho _ hpos hn
      · exact penalty_loop_infeasible_returns o h _ hf n s.rho _ hpos hn
    obtain ⟨r, hr⟩ := hloops
    rw [hr]
    exact ⟨_, rfl⟩
  · exact ⟨_, rfl⟩
  · exact ⟨_, rfl⟩

/-- C11: for every state with `0 < rho ≤ penalty_parameter_max_value`, every
`penalty_parameter_increase_factor > 1` and every handler, `update_penalty_parameter`
returns (for some number of loop passes), and whenever it returns or throws, the
value of `rho` is at most `penalty_parameter_max_value` and so is every trial value
that was handed to the QP by `update_penalty` during the call. -/
theorem update_penalty_parameter_clamped {σ : Type} (o : SqpOptions) (nlp : SqpNlp)
    (h : QPhandler σ) (s : SqpAlgorithm (σ × List ℚ)) (hpos : 0 < s.rho)
    (hmax : s.rho ≤ o.penalty_parameter_max_value)
    (hf : 1 < o.penalty_parameter_increase_factor) :
    (∃ fuel r, update_penalty_parameter o nlp h.recording fuel s = some r) ∧
    ∀ fuel r, update_penalty_parameter o nlp h.recording fuel s = some r →
      r.state.rho ≤ o.penalty_parameter_max_value ∧
      ∀ x ∈ r.state.myQP.2, x ∈ s.myQP.2 ∨ x ≤ o.penalty_parameter_max_value := by
  refine ⟨update_penalty_parameter_returns o nlp h.recording s hpos hf, ?_⟩
  intro fuel r hres
  simp only [update_penalty_parameter] at hres
  split_ifs at hres with h1 h2
  · cases hl : penalty_loops o h.recording
        (h.recording.get_infea_measure_model (solveLP h.recording (setupLP h.recording
          { s with infea_measure_model := h.recording.get_infea_measure_model s.myQP })).2.myLP)
        fuel s.rho
        (solveLP h.recording (setupLP h.recording
          { s with infea_measure_model := h.recording.get_infea_measure_model s.myQP })).2 with
    | none =>
      rw [hl] at hres
      simp at hres
    | some p =>
      obtain ⟨r1, sL⟩ := p
      rw [hl] at hres
      simp only [Option.some.injEq] at hres
      subst hres
      have hstart : PenaltyLog o s.myQP.2 s.rho
          (solveLP h.recording (setupLP h.recording
            { s with infea_measure_model := h.recording.get_infea_measure_model s.myQP })).2 :=
        ⟨rfl, fun x hx => Or.inl hx⟩
      obtain ⟨hr1, hrho, hlog⟩ := penalty_loops_log o h _ s.myQP.2 s.rho fuel s.rho _ r1 sL
        hmax hstart hl
      obtain ⟨hq, hd⟩ := penalty_decision_log o nlp h.recording
        (h.recording.get_infea_measure_model s.myQP) r1 sL
      simp only [Result.state_ok]
      refine ⟨?_, ?_⟩
      · rcases hd with hd | hd
        · rw [hd]; exact hr1
        · rw [hd, hrho]; exact hmax
      · rw [hq]; exact hlog
  · simp only [Option.some.injEq] at hres
    subst hres
    exact ⟨hmax, fun x hx => Or.inl hx⟩
  · simp only [Option.some.injEq] at hres
    subst hres
    exact ⟨hmax, fun x hx => Or.inl hx⟩

/-- Instance of C11 at the second concrete problem with the default options. -/
theorem update_penalty_parameter_clamped_witness :
    0 < exState2Recording.rho ∧
    exState2Recording.rho ≤ exOptions.penalty_parameter_max_value ∧
    1 < exOptions.penalty_parameter_increase_factor ∧
    (∃ fuel r, update_penalty_parameter exOptions exNlp2 exHandler2.recording fuel
      exState2Recording = some r) ∧
    ∀ fuel r, update_penalty_parameter exOptions exNlp2 exHandler2.recording fuel
        exState2Recording = some r →
      r.state.rho ≤ exOptions.penalty_parameter_max_value ∧
      ∀ x ∈ r.state.myQP.2,
        x ∈ exState2Recording.myQP.2 ∨ x ≤ exOptions.penalty_parameter_max_value :=
  have h1 : 0 < exState2Recording.rho := by decide!
  have h2 : exState2Recording.rho ≤ exOptions.penalty_parameter_max_value := by decide!
  have h3 : 1 < exOptions.penalty_parameter_increase_factor := by decide!
  ⟨h1, h2, h3, update_penalty_parameter_clamped exOptions exNlp2 exHandler2 exState2Recording
    h1 h2 h3⟩

/-- In the second concrete problem the penalty update hands exactly the trial value
10 to the QP. -/
theorem update_penalty_parameter_records :
    (update_penalty_parameter exOptions exNlp2 exHandler2.recording 5
      exState2Recording).map (fun r => r.state.myQP.2) = some [10] := by
  decide!


/-! ### Compressed sparse matrices -/

/-- A loop keeps what every pass keeps. -/
theorem foldl_invariant {α β : Type} (P : α → Prop) (f : α → β → α)
    (hf : ∀ a b, P a → P (f a b)) : ∀ (l : List β) (a : α), P a → P (l.foldl f a) := by
  intro l
  induction l with
  | nil => intro a ha; exact ha
  | cons b l ih => intro a ha; exact ih _ (hf a b ha)

/-- A loop that assigns entry `i` in pass `i`. -/
theorem foldl_range_set {α : Type} (d : α) (f : Nat → α) (n : Nat) (a : List α) :
    ((List.range n).foldl (fun a i => a.set i (f i)) a).length = a.length ∧
    ∀ j, j < a.length → ((List.range n).foldl (fun a i => a.set i (f i)) a).getD j d =
      if j < n then f j else a.getD j d :=
  foldl_range_pointwise d (fun a i => a.set i (f i)) (fun i _ => f i)
    (fun x i => List.length_set x i (f i))
    (fun x i j hj => getD_set_eq d x i j (f i) hj) n a

/-- The increment loop adds one to the entries from `first` up to `first + len`. -/
theorem foldl_range_increment :
    ∀ (len first : Nat) (p : List Nat),
      ((List.range' first len).foldl (fun p j => p.set j (p.getD j 0 + 1)) p).length =
        p.length ∧
      ∀ j, j < p.length →
        ((List.range' first len).foldl (fun p j => p.set j (p.getD j 0 + 1)) p).getD j 0 =
          p.getD j 0 + if first ≤ j ∧ j < first + len then 1 else 0 := by
  intro len
  induction len with
  | zero =>
    intro first p
    refine ⟨rfl, fun j _ => ?_⟩
    rw [if_neg (by omega)]
    rfl
  | succ len ih =>
    intro first p
    rw [List.range'_succ, List.foldl_cons]
    obtain ⟨hl, hg⟩ := ih (first + 1) (p.set first (p.getD first 0 + 1))
    rw [List.length_set] at hl hg
    refine ⟨hl, fun j hj => ?_⟩
    rw [hg j hj, getD_set_eq 0 p first j _ hj]
    by_cases hjf : j = first
    · subst hjf
      rw [if_pos rfl, if_neg (by omega), if_pos (by omega)]
    · rw [if_neg hjf]
      by_cases h1 : first + 1 ≤ j ∧ j < first + 1 + len
      · rw [if_pos h1, if_pos (by omega)]
      · rw [if_neg h1, if_neg (by omega)]

/-- The loop `for (j = first; j < n; j++) ptr[j]++`, entry by entry. -/
theorem increment_from_spec (first n : Nat) (p : List Nat) :
    (increment_from first n p).length = p.length ∧
    ∀ j, j < p.length →
      (increment_from first n p).getD j 0 =
        p.getD j 0 + if first ≤ j ∧ j < n then 1 else 0 := by
  unfold increment_from
  obtain ⟨hl, hg⟩ := foldl_range_increment (n - first) first p
  refine ⟨hl, fun j hj => ?_⟩
  rw [hg j hj]
  by_cases h1 : first ≤ j ∧ j < n
  · rw [if_pos h1, if_pos (by omega)]
  · rw [if_neg h1, if_neg (by omega)]

/-- Number of the first `k` keys that are at most `t`. -/
theorem count_le_succ (κ : Nat → Nat) (t k : Nat) :
    (List.range (k + 1)).countP (fun i => decide (κ i ≤ t)) =
      (List.range k).countP (fun i => decide (κ i ≤ t)) + if κ k ≤ t then 1 else 0 := by
  rw [List.range_succ, List.countP_append]
  by_cases h : κ k ≤ t <;> simp [List.countP_cons, h]

/-- For keys in non-decreasing order, slot `k` lies below the count of the keys that
are at most `t` exactly when its own key is at most `t`. -/
theorem count_le_sorted (κ : Nat → Nat) (t : Nat) :
    ∀ (E : Nat), (∀ i i2, i ≤ i2 → i2 < E → κ i ≤ κ i2) →
      (List.range E).countP (fun i => decide (κ i ≤ t)) ≤ E ∧
      ∀ k, k < E → (k < (List.range E).countP (fun i => decide (κ i ≤ t)) ↔ κ k ≤ t) := by
  intro E
  induction E with
  | zero => intro _; simp
  | succ E ih =>
    intro hmono
    obtain ⟨hle, hiff⟩ := ih (fun i i2 h1 h2 => hmono i i2 h1 (by omega))
    rw [count_le_succ]
    by_cases hE : κ E ≤ t
    · rw [if_pos hE]
      have hall : ∀ k, k < E → k < (List.range E).countP (fun i => decide (κ i ≤ t)) := by
        intro k hk
        exact (hiff k hk).mpr (le_trans (hmono k E (by omega) (by omega)) hE)
      have hfull : (List.range E).countP (fun i => decide (κ i ≤ t)) = E := by
        rcases Nat.eq_zero_or_pos E with h0 | hpos
        · omega
        · have := hall (E - 1) (by omega)
          omega
      refine ⟨by omega, fun k hk => ?_⟩
      rw [hfull]
      constructor
      · intro _
        exact le_trans (hmono k E (by omega) (by omega)) hE
      · intro _
        omega
    · rw [if_neg hE]
      refine ⟨by omega, fun k hk => ?_⟩
      rcases Nat.lt_succ_iff_lt_or_eq.mp hk with hk1 | hk1
      · simpa using hiff k hk1
      · subst hk1
        constructor
        · intro h
          omega
        · intro h
          exact absurd h hE

/-- The pointer array after `k` passes: entry `j` has grown by the number of keys up
to `j`, and the last entry is assigned when the assignment is part of the pass. -/
theorem pointer_loop_spec (n E : Nat) (b : Bool) (κ : Nat → Nat) (p : List Nat)
    (hp : p.length = n + 1) :
    ∀ k, (pointer_loop n E b κ k p).length = n + 1 ∧
      (∀ j, j < n → (pointer_loop n E b κ k p).getD j 0 =
        p.getD j 0 + (List.range k).countP (fun i => decide (κ i ≤ j))) ∧
      (pointer_loop n E b κ k p).getD n 0 = if b = true ∧ 0 < k then E else p.getD n 0 := by
  intro k
  induction k with
  | zero => exact ⟨hp, fun j _ => by simp [pointer_loop], by simp [pointer_loop]⟩
  | succ k ih =>
    obtain ⟨hl, hj, hn⟩ := ih
    have hstep : pointer_loop n E b κ (k + 1) p =
        if b then (increment_from (κ k) n (pointer_loop n E b κ k p)).set n E
        else increment_from (κ k) n (pointer_loop n E b κ k p) := by
      simp only [pointer_loop]
      rw [List.range_succ, List.foldl_append]
      rfl
    obtain ⟨hil, hig⟩ := increment_from_spec (κ k) n (pointer_loop n E b κ k p)
    rw [hstep]
    cases b with
    | true =>
      simp only [if_true]
      refine ⟨by rw [List.length_set, hil, hl], fun j hjn => ?_, ?_⟩
      · rw [getD_set_eq 0 _ _ _ _ (by rw [hil, hl]; omega), if_neg (by omega),
          hig j (by rw [hl]; omega), hj j hjn, count_le_succ]
        by_cases hc : κ k ≤ j
        · rw [if_pos ⟨hc, hjn⟩, if_pos hc]
          omega
        · rw [if_neg (fun h => hc h.1), if_neg hc]
          omega
      · rw [getD_set_eq 0 _ _ _ _ (by rw [hil, hl]; omega), if_pos rfl,
          if_pos ⟨trivial, Nat.succ_pos k⟩]
    | false =>
      simp only [Bool.false_eq_true, if_false]
      refine ⟨by rw [hil, hl], fun j hjn => ?_, ?_⟩
      · rw [hig j (by rw [hl]; omega), hj j hjn, count_le_succ]
        by_cases hc : κ k ≤ j
        · rw [if_pos ⟨hc, hjn⟩, if_pos hc]
          omega
        · rw [if_neg (fun h => hc h.1), if_neg hc]
          omega
      · rw [hig n (by rw [hl]; omega), if_neg (show ¬ (κ k ≤ n ∧ n < n) by omega), add_zero, hn]
        simp

/-- The pointer array that `setStructure` builds from keys in `[1..n]` in
non-decreasing order: it starts at 0, is non-decreasing, ends with the number of
entries, and slot `k` lies between pointer `j` and pointer `j + 1` exactly when its key
is `j + 1`. -/
theorem pointer_array_spec (n E : Nat) (b : Bool) (κ : Nat → Nat) (p0 : List Nat)
    (hp0 : p0 = List.replicate (n + 1) 0)
    (hκ : ∀ i, i < E → 1 ≤ κ i ∧ κ i ≤ n)
    (hmono : ∀ i i2, i ≤ i2 → i2 < E → κ i ≤ κ i2) (p : List Nat)
    (hp : p = if b then pointer_loop n E b κ E p0 else (pointer_loop n E b κ E p0).set n E) :
    p.length = n + 1 ∧ p.getD 0 0 = 0 ∧ (∀ j, j < n → p.getD j 0 ≤ p.getD (j + 1) 0) ∧
    p.getD n 0 = E ∧
    ∀ k, k < E → ∀ j, j < n → ((p.getD j 0 ≤ k ∧ k < p.getD (j + 1) 0) ↔ κ k = j + 1) := by
  have hlen0 : p0.length = n + 1 := by rw [hp0, List.length_replicate]
  have hzero : ∀ j, p0.getD j 0 = 0 := by
    intro j
    rw [hp0, List.getD_eq_getElem?_getD]
    by_cases hj : j < n + 1
    · simp [List.getElem?_replicate, hj]
    · simp [List.getElem?_replicate, hj]
  obtain ⟨hl, hj, hn⟩ := pointer_loop_spec n E b κ p0 hlen0 E
  have hplen : p.length = n + 1 := by
    rw [hp]
    cases b
    · simp only [Bool.false_eq_true, if_false, List.length_set]; exact hl
    · simp only [if_true]; exact hl
  have hpj : ∀ j, j < n → p.getD j 0 = (List.range E).countP (fun i => decide (κ i ≤ j)) := by
    intro j hjn
    rw [hp]
    cases b
    · simp only [Bool.false_eq_true, if_false]
      rw [getD_set_eq 0 _ _ _ _ (by rw [hl]; omega), if_neg (by omega), hj j hjn, hzero,
        zero_add]
    · simp only [if_true]
      rw [hj j hjn, hzero, zero_add]
  have hpn : p.getD n 0 = E := by
    rw [hp]
    cases b
    · simp only [Bool.false_eq_true, if_false]
      rw [getD_set_eq 0 _ _ _ _ (by rw [hl]; omega), if_pos rfl]
    · simp only [if_true]
      rw [hn, hzero]
      rcases Nat.eq_zero_or_pos E with h0 | hpos
      · rw [if_neg (by omega)]
        exact h0.symm
      · rw [if_pos ⟨rfl, hpos⟩]
  have hcount : ∀ t, (List.range E).countP (fun i => decide (κ i ≤ t)) ≤ E ∧
      ∀ k, k < E → (k < (List.range E).countP (fun i => decide (κ i ≤ t)) ↔ κ k ≤ t) :=
    fun t => count_le_sorted κ t E hmono
  have hnext : ∀ k, k < E → ∀ j, j < n → (k < p.getD (j + 1) 0 ↔ κ k ≤ j + 1) := by
    intro k hk j hjn
    rcases Nat.lt_or_ge (j + 1) n with h1 | h1
    · rw [hpj (j + 1) h1]
      exact (hcount (j + 1)).2 k hk
    · have hjn1 : j + 1 = n := by omega
      rw [hjn1, hpn]
      exact ⟨fun _ => (hκ k hk).2, fun _ => hk⟩
  refine ⟨hplen, ?_, ?_, hpn, ?_⟩
  · rcases Nat.eq_zero_or_pos n with h0 | hpos
    · subst h0
      rw [hpn]
      rcases Nat.eq_zero_or_pos E with hE | hE
      · exact hE
      · have := hκ 0 hE
        omega
    · rw [hpj 0 hpos]
      by_contra hne
      have hpos2 : 0 < (List.range E).countP (fun i => decide (κ i ≤ 0)) := Nat.pos_of_ne_zero hne
      have hE : 0 < E := lt_of_lt_of_le hpos2 (hcount 0).1
      have h1 := ((hcount 0).2 0 hE).mp hpos2
      have h2 := (hκ 0 hE).1
      omega
  · intro j hjn
    rw [hpj j hjn]
    rcases Nat.lt_or_ge (j + 1) n with h1 | h1
    · rw [hpj (j + 1) h1]
      apply List.countP_mono_left
      intro i _ hi
      simp only [decide_eq_true_eq] at hi ⊢
      omega
    · have hjn1 : j + 1 = n := by omega
      rw [hjn1, hpn]
      exact (hcount j).1
  · intro k hk j hjn
    rw [hnext k hk j hjn, hpj j hjn]
    have h1 := (hcount j).2 k hk
    constructor
    · rintro ⟨ha, hb⟩
      have : ¬ κ k ≤ j := fun h => absurd (h1.mpr h) (by omega)
      omega
    · intro h
      refine ⟨?_, by omega⟩
      by_contra hlt
      have := h1.mp (by omega)
      omega

/-- Appending a tuple that carries the counter keeps the numbering. -/
theorem Indexed.push {st : List (Nat × Nat × Nat) × Nat} (a b : Nat) (h : Indexed st) :
    Indexed (st.1 ++ [(a, b, st.2)], st.2 + 1) := by
  obtain ⟨h1, h2⟩ := h
  refine ⟨by simp [h1], fun i hi => ?_⟩
  simp only [List.length_append, List.length_singleton] at hi
  rcases Nat.lt_succ_iff_lt_or_eq.mp hi with hlt | heq
  · have := h2 i hlt
    simp only [List.getD_eq_getElem?_getD] at this ⊢
    rw [List.getElem?_append_left hlt]
    exact this
  · subst heq
    simp only [List.getD_eq_getElem?_getD]
    rw [List.getElem?_append_right (le_refl _)]
    simp [h1]

/-- The tuples of the triplet entries are numbered by their position. -/
theorem push_triplet_entries_indexed (rhs : SpTripletMat) : Indexed (push_triplet_entries rhs) := by
  unfold push_triplet_entries
  apply foldl_invariant Indexed
  · intro st i h
    exact h.push _ _
  · exact ⟨rfl, fun i hi => absurd hi (Nat.not_lt_zero i)⟩

/-- The tuples of the identity blocks continue the numbering. -/
theorem push_identity_entries_indexed (I_info : Identity2Info)
    (st : List (Nat × Nat × Nat) × Nat) (h : Indexed st) :
    Indexed (push_identity_entries I_info st) := by
  unfold push_identity_entries
  split_ifs
  · apply foldl_invariant Indexed _ _ _ _ h
    intro st j hst
    have h1 := hst.push (I_info.irow1 + j) (I_info.jcol1 + j)
    have h2 := h1.push (I_info.irow2 + j) (I_info.jcol2 + j)
    simpa [List.append_assoc] using h2
  · exact h

/-- The tuples of a symmetric matrix are numbered by their position. -/
theorem push_symmetric_entries_indexed (rhs : SpTripletMat) :
    Indexed (push_symmetric_entries rhs) := by
  unfold push_symmetric_entries
  apply foldl_invariant Indexed
  · intro st i h
    have h1 := h.push (rhs.RowIndex.getD i 0) (rhs.ColIndex.getD i 0)
    simp only
    split_ifs
    · exact h1.push _ _
    · exact h1
  · exact ⟨rfl, fun i hi => absurd hi (Nat.not_lt_zero i)⟩

/-- The tuple list of `setStructure(rhs, I_info)` is numbered by position. -/
theorem index_info_indexed (rhs : SpTripletMat) (I_info : Identity2Info) :
    Indexed (index_info rhs I_info) :=
  push_identity_entries_indexed I_info _ (push_triplet_entries_indexed rhs)

/-- In a list numbered by position every tuple sits at the position it carries. -/
theorem Indexed.getD_of_mem {st : List (Nat × Nat × Nat) × Nat} (h : Indexed st)
    (t : Nat × Nat × Nat) (ht : t ∈ st.1) : t.2.2 < st.1.length ∧ st.1.getD t.2.2 (0, 0, 0) = t := by
  obtain ⟨i, hi, rfl⟩ := List.getElem_of_mem ht
  have h2 := h.2 i hi
  simp only [List.getD_eq_getElem?_getD, List.getElem?_eq_getElem hi, Option.getD_some] at h2
  rw [h2]
  exact ⟨hi, by simp [List.getD_eq_getElem?_getD, List.getElem?_eq_getElem hi]⟩

/-- The positions carried by a list numbered by position are `0, 1, ...` in order. -/
theorem Indexed.map_eq_range {st : List (Nat × Nat × Nat) × Nat} (h : Indexed st) :
    st.1.map (fun t => t.2.2) = List.range st.1.length := by
  apply List.ext_getElem
  · simp
  · intro i h1 h2
    have hi : i < st.1.length := by simpa using h1
    have h3 := h.2 i hi
    simp only [List.getD_eq_getElem?_getD, List.getElem?_eq_getElem hi, Option.getD_some] at h3
    simp [h3]

/-- Sorting rearranges the tuples. -/
theorem sort_tuples_perm (rule : Nat × Nat × Nat → Nat × Nat × Nat → Bool)
    (l : List (Nat × Nat × Nat)) : (sort_tuples rule l).Perm l :=
  List.perm_insertionSort _ l

/-- Sorting by a rule that compares `key` first leaves the keys in non-decreasing
order. -/
theorem sort_tuples_sorted (rule : Nat × Nat × Nat → Nat × Nat × Nat → Bool)
    (key other : Nat × Nat × Nat → Nat)
    (hrule : ∀ a b, rule a b = decide (key a < key b ∨ (key a = key b ∧ other a < other b)))
    (l : List (Nat × Nat × Nat)) :
    (sort_tuples rule l).Pairwise (fun a b => key a ≤ key b) := by
  have htotal : IsTotal (Nat × Nat × Nat) (fun a b => rule b a = false) :=
    ⟨fun a b => by
      simp only [hrule, decide_eq_false_iff_not]
      omega⟩
  have htrans : IsTrans (Nat × Nat × Nat) (fun a b => rule b a = false) :=
    ⟨fun a b c => by
      simp only [hrule, decide_eq_false_iff_not]
      omega⟩
  have hs := @List.sorted_insertionSort _ (fun a b => rule b a = false) _ htotal htrans l
  refine List.Pairwise.imp ?_ hs
  intro a b hab
  simp only [hrule, decide_eq_false_iff_not] at hab
  omega

/-- In a list with keys in non-decreasing order the key grows with the position. -/
theorem pairwise_getD_mono (key : Nat × Nat × Nat → Nat) (S : List (Nat × Nat × Nat))
    (hS : S.Pairwise (fun a b => key a ≤ key b)) (i i2 : Nat) (h1 : i ≤ i2)
    (h2 : i2 < S.length) : key (S.getD i (0, 0, 0)) ≤ key (S.getD i2 (0, 0, 0)) := by
  rcases Nat.lt_or_eq_of_le h1 with hlt | heq
  · have hi : i < S.length := lt_trans hlt h2
    have := (List.pairwise_iff_getElem.mp hS) i i2 hi h2 hlt
    simpa [List.getD_eq_getElem?_getD, List.getElem?_eq_getElem hi,
      List.getElem?_eq_getElem h2] using this
  · subst heq
    exact le_refl _

/-- An entry of a list, read with a default, is a member of the list. -/
theorem getD_mem {α : Type} (d : α) (S : List α) (i : Nat) (hi : i < S.length) :
    S.getD i d ∈ S := by
  simp only [List.getD_eq_getElem?_getD, List.getElem?_eq_getElem hi, Option.getD_some]
  exact List.getElem_mem hi

/-- The row-compressed loop of `setStructure`, array by array. -/
theorem row_pass_fold (S : List (Nat × Nat × Nat)) (b : Bool) (m : SpHbMat) (k : Nat) :
    (List.range k).foldl (SpHbMat.row_pass S b) m =
      { m with
        ColIndex := (List.range k).foldl
          (fun a i => a.set i ((S.getD i (0, 0, 0)).2.1 - 1)) m.ColIndex
        order := (List.range k).foldl (fun a i => a.set i (S.getD i (0, 0, 0)).2.2) m.order
        RowIndex := pointer_loop m.RowNum m.EntryNum.toNat b
          (fun i => (S.getD i (0, 0, 0)).1) k m.RowIndex } := by
  induction k with
  | zero => simp [pointer_loop]
  | succ k ih =>
    rw [List.range_succ, List.foldl_append, ih]
    cases b <;> simp [SpHbMat.row_pass, pointer_loop, List.range_succ, List.foldl_append]

/-- The column-compressed loop of `setStructure`, array by array. -/
theorem column_pass_fold (S : List (Nat × Nat × Nat)) (b : Bool) (m : SpHbMat) (k : Nat) :
    (List.range k).foldl (SpHbMat.column_pass S b) m =
      { m with
        RowIndex := (List.range k).foldl
          (fun a i => a.set i ((S.getD i (0, 0, 0)).1 - 1)) m.RowIndex
        order := (List.range k).foldl (fun a i => a.set i (S.getD i (0, 0, 0)).2.2) m.order
        ColIndex := pointer_loop m.ColNum m.EntryNum.toNat b
          (fun i => (S.getD i (0, 0, 0)).2.1) k m.ColIndex } := by
  induction k with
  | zero => simp [pointer_loop]
  | succ k ih =>
    rw [List.range_succ, List.foldl_append, ih]
    cases b <;> simp [SpHbMat.column_pass, pointer_loop, List.range_succ, List.foldl_append]

/-- The three arrays that the loop of `setStructure` fills from the tuples `L`, sorted
by a rule that compares `key` and then `other`: the conclusions of
`SpHbMat.compresses`, for either storage mode. -/
theorem compress_arrays (key other : Nat × Nat × Nat → Nat)
    (rule : Nat × Nat × Nat → Nat × Nat × Nat → Bool)
    (hrule : ∀ a b, rule a b = decide (key a < key b ∨ (key a = key b ∧ other a < other b)))
    (L : List (Nat × Nat × Nat)) (hidx : Indexed (L, L.length)) (n : Nat) (b : Bool)
    (p0 i0 o0 : List Nat) (hp0 : p0 = List.replicate (n + 1) 0) (hi0 : i0.length = L.length)
    (ho0 : o0.length = L.length)
    (hrange : ∀ t ∈ L, 1 ≤ key t ∧ key t ≤ n ∧ 1 ≤ other t)
    (p i o : List Nat)
    (hp : p = if b then pointer_loop n L.length b
        (fun i => key ((sort_tuples rule L).getD i (0, 0, 0))) L.length p0
      else (pointer_loop n L.length b
        (fun i => key ((sort_tuples rule L).getD i (0, 0, 0))) L.length p0).set n L.length)
    (hi : i = (List.range L.length).foldl
      (fun a i => a.set i (other ((sort_tuples rule L).getD i (0, 0, 0)) - 1)) i0)
    (ho : o = (List.range L.length).foldl
      (fun a i => a.set i ((sort_tuples rule L).getD i (0, 0, 0)).2.2) o0) :
    p.length = n + 1 ∧ p.getD 0 0 = 0 ∧ (∀ j, j < n → p.getD j 0 ≤ p.getD (j + 1) 0) ∧
    p.getD n 0 = L.length ∧ o.Perm (List.range L.length) ∧
    ∀ k, k < L.length →
      i.getD k 0 + 1 = other (L.getD (o.getD k 0) (0, 0, 0)) ∧
      ∀ j, j < n → ((p.getD j 0 ≤ k ∧ k < p.getD (j + 1) 0) ↔
        key (L.getD (o.getD k 0) (0, 0, 0)) = j + 1) := by
  have hperm := sort_tuples_perm rule L
  have hlenS : (sort_tuples rule L).length = L.length := hperm.length_eq
  have hsorted := sort_tuples_sorted rule key other hrule L
  have hmem : ∀ k, k < L.length → (sort_tuples rule L).getD k (0, 0, 0) ∈ L := by
    intro k hk
    exact hperm.subset (getD_mem _ _ _ (by rw [hlenS]; exact hk))
  obtain ⟨hpl, hp0z, hpmono, hpn, hpslot⟩ := pointer_array_spec n L.length b
    (fun i => key ((sort_tuples rule L).getD i (0, 0, 0))) p0 hp0
    (fun i hi => ⟨(hrange _ (hmem i hi)).1, (hrange _ (hmem i hi)).2.1⟩)
    (fun i i2 h1 h2 => pairwise_getD_mono key _ hsorted i i2 h1 (by rw [hlenS]; exact h2))
    p hp
  obtain ⟨hol, hog⟩ := foldl_range_set 0
    (fun i => ((sort_tuples rule L).getD i (0, 0, 0)).2.2) L.length o0
  obtain ⟨_, hig⟩ := foldl_range_set 0
    (fun i => other ((sort_tuples rule L).getD i (0, 0, 0)) - 1) L.length i0
  have hok : ∀ k, k < L.length → o.getD k 0 = ((sort_tuples rule L).getD k (0, 0, 0)).2.2 := by
    intro k hk
    rw [ho, hog k (by rw [ho0]; exact hk), if_pos hk]
  have hsrc : ∀ k, k < L.length →
      L.getD (o.getD k 0) (0, 0, 0) = (sort_tuples rule L).getD k (0, 0, 0) := by
    intro k hk
    rw [hok k hk]
    exact (hidx.getD_of_mem _ (hmem k hk)).2
  have homap : o = (sort_tuples rule L).map (fun t => t.2.2) := by
    apply list_ext_getD 0
    · rw [ho, hol, ho0, List.length_map, hlenS]
    · intro k hk
      have hk2 : k < L.length := by
        rw [ho, hol, ho0] at hk
        exact hk
      rw [hok k hk2]
      have hk3 : k < (sort_tuples rule L).length := by rw [hlenS]; exact hk2
      simp [List.getD_eq_getElem?_getD, List.getElem?_eq_getElem hk3]
  refine ⟨hpl, hp0z, hpmono, hpn, ?_, ?_⟩
  · rw [homap, ← hidx.map_eq_range]
    exact hperm.map _
  · intro k hk
    rw [hsrc k hk]
    refine ⟨?_, hpslot k hk⟩
    rw [hi, hig k (by rw [hi0]; exact hk), if_pos hk]
    have := (hrange _ (hmem k hk)).2.2
    omega

/-- The result of the fill loops in row-compressed mode. -/
theorem SpHbMat.fill_row (m : SpHbMat) (L : List (Nat × Nat × Nat)) (b : Bool)
    (hrow : m.isCompressedRow = true) :
    m.fill L b =
      { m with
        ColIndex := (List.range m.EntryNum.toNat).foldl (fun a i => a.set i
          (((sort_tuples tuple_sort_rule_compressed_row L).getD i (0, 0, 0)).2.1 - 1)) m.ColIndex
        order := (List.range m.EntryNum.toNat).foldl (fun a i => a.set i
          ((sort_tuples tuple_sort_rule_compressed_row L).getD i (0, 0, 0)).2.2) m.order
        RowIndex :=
          if b then pointer_loop m.RowNum m.EntryNum.toNat b
            (fun i => ((sort_tuples tuple_sort_rule_compressed_row L).getD i (0, 0, 0)).1)
            m.EntryNum.toNat m.RowIndex
          else (pointer_loop m.RowNum m.EntryNum.toNat b
            (fun i => ((sort_tuples tuple_sort_rule_compressed_row L).getD i (0, 0, 0)).1)
            m.EntryNum.toNat m.RowIndex).set m.RowNum m.EntryNum.toNat } := by
  unfold SpHbMat.fill
  rw [if_pos hrow]
  simp only [row_pass_fold]
  cases b <;> simp

/-- The result of the fill loops in column-compressed mode. -/
theorem SpHbMat.fill_column (m : SpHbMat) (L : List (Nat × Nat × Nat)) (b : Bool)
    (hcol : m.isCompressedRow = false) :
    m.fill L b =
      { m with
        RowIndex := (List.range m.EntryNum.toNat).foldl (fun a i => a.set i
          (((sort_tuples tuple_sort_rule_compressed_column L).getD i (0, 0, 0)).1 - 1)) m.RowIndex
        order := (List.range m.EntryNum.toNat).foldl (fun a i => a.set i
          ((sort_tuples tuple_sort_rule_compressed_column L).getD i (0, 0, 0)).2.2) m.order
        ColIndex :=
          if b then pointer_loop m.ColNum m.EntryNum.toNat b
            (fun i => ((sort_tuples tuple_sort_rule_compressed_column L).getD i (0, 0, 0)).2.1)
            m.EntryNum.toNat m.ColIndex
          else (pointer_loop m.ColNum m.EntryNum.toNat b
            (fun i => ((sort_tuples tuple_sort_rule_compressed_column L).getD i (0, 0, 0)).2.1)
            m.EntryNum.toNat m.ColIndex).set m.ColNum m.EntryNum.toNat } := by
  unfold SpHbMat.fill
  rw [if_neg (by simp [hcol])]
  simp only [column_pass_fold]
  cases b <;> simp

/-- Filling zeroed arrays of the right sizes from tuples that are numbered by position
and lie within the matrix gives a compressed form of the tuples. -/
theorem SpHbMat.fill_compresses (m : SpHbMat) (L : List (Nat × Nat × Nat)) (b : Bool)
    (hE : m.EntryNum = (L.length : Int)) (hidx : Indexed (L, L.length))
    (hptr : m.pointer = List.replicate (m.major_dim + 1) 0)
    (hindex : m.index.length = L.length) (hord : m.order.length = L.length)
    (hrange : ∀ t ∈ L, 1 ≤ t.1 ∧ t.1 ≤ m.RowNum ∧ 1 ≤ t.2.1 ∧ t.2.1 ≤ m.ColNum) :
    (m.fill L b).compresses L := by
  have hEn : m.EntryNum.toNat = L.length := by rw [hE]; exact Int.toNat_natCast _
  cases hmode : m.isCompressedRow with
  | true =>
    simp only [SpHbMat.pointer, SpHbMat.index, SpHbMat.major_dim, hmode, if_true] at hptr hindex
    have h := compress_arrays (fun t => t.1) (fun t => t.2.1) tuple_sort_rule_compressed_row
      (fun _ _ => rfl) L hidx m.RowNum b m.RowIndex m.ColIndex m.order hptr hindex hord
      (fun t ht => ⟨(hrange t ht).1, (hrange t ht).2.1, (hrange t ht).2.2.1⟩) _ _ _ rfl rfl rfl
    rw [SpHbMat.fill_row m L b hmode, hEn]
    simp only [SpHbMat.compresses, SpHbMat.pointer, SpHbMat.index, SpHbMat.major_dim,
      SpHbMat.major, SpHbMat.minor, hmode, if_true]
    exact ⟨hE, h⟩
  | false =>
    simp only [SpHbMat.pointer, SpHbMat.index, SpHbMat.major_dim, hmode, Bool.false_eq_true,
      if_false] at hptr hindex
    have h := compress_arrays (fun t => t.2.1) (fun t => t.1) tuple_sort_rule_compressed_column
      (fun _ _ => rfl) L hidx m.ColNum b m.ColIndex m.RowIndex m.order hptr hindex hord
      (fun t ht => ⟨(hrange t ht).2.2.1, (hrange t ht).2.2.2, (hrange t ht).1⟩) _ _ _ rfl rfl rfl
    rw [SpHbMat.fill_column m L b hmode, hEn]
    simp only [SpHbMat.compresses, SpHbMat.pointer, SpHbMat.index, SpHbMat.major_dim,
      SpHbMat.major, SpHbMat.minor, hmode, Bool.false_eq_true, if_false]
    exact ⟨hE, h⟩

/-- Resetting the arrays keeps their lengths and every other member. -/
theorem SpHbMat.set_zero_pointer (m : SpHbMat) (hptr : m.pointer.length = m.major_dim + 1) :
    m.set_zero.pointer = List.replicate (m.set_zero.major_dim + 1) 0 := by
  unfold SpHbMat.pointer SpHbMat.major_dim SpHbMat.set_zero at *
  cases hmode : m.isCompressedRow <;> simp_all

/-- Resetting the arrays keeps the length of the index array. -/
theorem SpHbMat.set_zero_index (m : SpHbMat) : m.set_zero.index.length = m.index.length := by
  unfold SpHbMat.index SpHbMat.set_zero
  cases hmode : m.isCompressedRow <;> simp

/-- Where `setStructure` collects the entries it compresses them: when the assertions
of `setStructure` hold (for the overload without descriptor: in a symmetric matrix
whose arrays it allocates), the arrays have the sizes the constructors give them and
all tuples (the triplet entries with their 1-based indices,
the entries of the two identity blocks, the mirror images in a symmetric matrix) lie in
`[1..RowNum] x [1..ColNum]`, then `setStructure`, with and without the two-identity
descriptor, returns a compressed form of those tuples: the pointer array (`ColIndex_`
in column-compressed, `RowIndex_` in row-compressed mode) starts at 0, is
non-decreasing and ends with `EntryNum_`, `order_` lists every source position once,
and slot `k` holds the 0-based index of source entry `order_[k]` and lies in
`ptr[j] .. ptr[j+1]-1` exactly when that entry belongs to column (row) `j + 1`. -/
theorem setStructure_compresses :
    (∀ (m : SpHbMat) (rhs : SpTripletMat) (I_info : Identity2Info),
      m.isInitialised = false →
      ((index_info rhs I_info).2 : Int) = m.EntryNum →
      m.pointer.length = m.major_dim + 1 →
      m.index.length = m.EntryNum.toNat →
      m.order.length = m.EntryNum.toNat →
      (∀ t ∈ (index_info rhs I_info).1,
        1 ≤ t.1 ∧ t.1 ≤ m.RowNum ∧ 1 ≤ t.2.1 ∧ t.2.1 ≤ m.ColNum) →
      ∃ m2, m.setStructure rhs I_info = some m2 ∧
        m2.compresses (index_info rhs I_info).1 ∧
        m2.isCompressedRow = m.isCompressedRow ∧ m2.RowNum = m.RowNum ∧
        m2.ColNum = m.ColNum) ∧
    (∀ (m : SpHbMat) (rhs : SpTripletMat),
      m.isInitialised = false → m.isSymmetric = true → m.EntryNum = -1 →
      m.pointer.length = m.major_dim + 1 →
      (∀ t ∈ (push_symmetric_entries rhs).1,
        1 ≤ t.1 ∧ t.1 ≤ m.RowNum ∧ 1 ≤ t.2.1 ∧ t.2.1 ≤ m.ColNum) →
      ∃ m2, m.setStructure_triplet rhs = some m2 ∧
        m2.compresses (push_symmetric_entries rhs).1 ∧
        m2.isCompressedRow = m.isCompressedRow ∧ m2.RowNum = m.RowNum ∧
        m2.ColNum = m.ColNum) := by
  constructor
  · intro m rhs I_info hinit hE hptr hindex hord hrange
    have hidx := index_info_indexed rhs I_info
    have hE2 : m.EntryNum = ((index_info rhs I_info).1.length : Int) := by
      rw [← hE, hidx.1]
    have hEn : m.EntryNum.toNat = (index_info rhs I_info).1.length := by
      rw [hE2]; exact Int.toNat_natCast _
    refine ⟨m.set_zero.fill (index_info rhs I_info).1 true, ?_, ?_, ?_, ?_, ?_⟩
    · unfold SpHbMat.setStructure
      simp only
      rw [if_pos (by simpa [SpHbMat.set_zero] using hinit),
        if_pos (by simpa [SpHbMat.set_zero] using hE)]
    · apply SpHbMat.fill_compresses
      · simpa [SpHbMat.set_zero] using hE2
      · exact ⟨rfl, hidx.2⟩
      · exact SpHbMat.set_zero_pointer m hptr
      · rw [SpHbMat.set_zero_index, hindex, hEn]
      · simpa [SpHbMat.set_zero, hEn] using hord
      · simpa [SpHbMat.set_zero] using hrange
    · cases hmode : m.isCompressedRow
      · rw [SpHbMat.fill_column _ _ _ (by simpa [SpHbMat.set_zero] using hmode)]
        simp [SpHbMat.set_zero, hmode]
      · rw [SpHbMat.fill_row _ _ _ (by simpa [SpHbMat.set_zero] using hmode)]
        simp [SpHbMat.set_zero, hmode]
    · cases hmode : m.isCompressedRow
      · rw [SpHbMat.fill_column _ _ _ (by simpa [SpHbMat.set_zero] using hmode)]
        simp [SpHbMat.set_zero]
      · rw [SpHbMat.fill_row _ _ _ (by simpa [SpHbMat.set_zero] using hmode)]
        simp [SpHbMat.set_zero]
    · cases hmode : m.isCompressedRow
      · rw [SpHbMat.fill_column _ _ _ (by simpa [SpHbMat.set_zero] using hmode)]
        simp [SpHbMat.set_zero]
      · rw [SpHbMat.fill_row _ _ _ (by simpa [SpHbMat.set_zero] using hmode)]
        simp [SpHbMat.set_zero]
  · intro m rhs hinit hsym hE hptr hrange
    have hidx := push_symmetric_entries_indexed rhs
    have hres : m.setStructure_triplet rhs =
        some ((m.set_zero.allocate (push_symmetric_entries rhs).2).fill
          (push_symmetric_entries rhs).1 false) := by
      unfold SpHbMat.setStructure_triplet
      simp only
      rw [if_pos (by simpa [SpHbMat.set_zero] using hinit)]
      have hs : m.set_zero.isSymmetric = true := by simpa [SpHbMat.set_zero] using hsym
      have he : m.set_zero.EntryNum = -1 := by simpa [SpHbMat.set_zero] using hE
      simp only [hs, he, if_true, and_self]
      rw [if_pos (by simp [SpHbMat.allocate])]
    refine ⟨_, hres, ?_, ?_, ?_, ?_⟩
    · apply SpHbMat.fill_compresses
      · simp [SpHbMat.allocate, hidx.1]
      · exact ⟨rfl, hidx.2⟩
      · unfold SpHbMat.pointer SpHbMat.major_dim SpHbMat.allocate SpHbMat.set_zero at *
        cases hmode : m.isCompressedRow <;> simp_all
      · unfold SpHbMat.index SpHbMat.allocate SpHbMat.set_zero
        cases hmode : m.isCompressedRow <;> simp [hidx.1]
      · simp [SpHbMat.allocate, hidx.1]
      · simpa [SpHbMat.allocate, SpHbMat.set_zero] using hrange
    · cases hmode : m.isCompressedRow
      · rw [SpHbMat.fill_column _ _ _
          (by simpa [SpHbMat.allocate, SpHbMat.set_zero] using hmode)]
        simp [SpHbMat.allocate, SpHbMat.set_zero, hmode]
      · rw [SpHbMat.fill_row _ _ _ (by simpa [SpHbMat.allocate, SpHbMat.set_zero] using hmode)]
        simp [SpHbMat.allocate, SpHbMat.set_zero, hmode]
    · cases hmode : m.isCompressedRow
      · rw [SpHbMat.fill_column _ _ _
          (by simpa [SpHbMat.allocate, SpHbMat.set_zero] using hmode)]
        simp [SpHbMat.allocate, SpHbMat.set_zero]
      · rw [SpHbMat.fill_row _ _ _ (by simpa [SpHbMat.allocate, SpHbMat.set_zero] using hmode)]
        simp [SpHbMat.allocate, SpHbMat.set_zero]
    · cases hmode : m.isCompressedRow
      · rw [SpHbMat.fill_column _ _ _
          (by simpa [SpHbMat.allocate, SpHbMat.set_zero] using hmode)]
        simp [SpHbMat.allocate, SpHbMat.set_zero]
      · rw [SpHbMat.fill_row _ _ _ (by simpa [SpHbMat.allocate, SpHbMat.set_zero] using hmode)]
        simp [SpHbMat.allocate, SpHbMat.set_zero]

/-- Instance of `setStructure_compresses`: the column-compressed form of a 1 x 3
Jacobian with two identity columns, and of a symmetric 2 x 2 Hessian. -/
theorem setStructure_compresses_witness :
    (∃ m2, (SpHbMat.create_nnz 5 1 5 false).setStructure exJacobianTriplet exIdentityColumns =
        some m2 ∧
      m2.compresses (index_info exJacobianTriplet exIdentityColumns).1 ∧
      m2.isCompressedRow = false ∧ m2.RowNum = 1 ∧ m2.ColNum = 5) ∧
    (∃ m2, (SpHbMat.create 2 2 true false).setStructure_triplet exHessianTriplet = some m2 ∧
      m2.compresses (push_symmetric_entries exHessianTriplet).1 ∧
      m2.isCompressedRow = false ∧ m2.RowNum = 2 ∧ m2.ColNum = 2) :=
  ⟨setStructure_compresses.1 (SpHbMat.create_nnz 5 1 5 false) exJacobianTriplet
      exIdentityColumns rfl (by decide) (by decide) (by decide) (by decide) (by decide),
    setStructure_compresses.2 (SpHbMat.create 2 2 true false) exHessianTriplet rfl rfl rfl
      (by decide) (by decide)⟩

/-- C13: `setStructure(rhs)`, the overload without descriptor, collects the entries of
`rhs` only when the compressed matrix is symmetric.  For a matrix that is not
symmetric its assertion `counter == EntryNum_` fails whenever `EntryNum_` is not 0,
for both constructors and every `rhs`; and when `EntryNum_` is 0 it returns a structure
without slots.  For the 1 x 3 Jacobian with the in-range entries (1,2), (1,3), (1,1)
the compressed forms constructed for 3 entries and with the default constructor are
not produced, the one constructed for 0 entries comes back with `EntryNum_ = 0`, pointer
array `0, 0, 0, 0` and no index slot, so it does not hold the three entries, while the
overload with the descriptor, given no identity blocks, stores them with the pointer
array `0, 1, 2, 3`. -/
theorem setStructure_triplet_skips_entries :
    (∀ (RowNum ColNum : Nat) (isCompressedRow : Bool) (rhs : SpTripletMat),
      (SpHbMat.create RowNum ColNum false isCompressedRow).setStructure_triplet rhs = none) ∧
    (∀ (nnz RowNum ColNum : Nat) (isCompressedRow : Bool) (rhs : SpTripletMat),
      (SpHbMat.create_nnz (nnz + 1) RowNum ColNum isCompressedRow).setStructure_triplet rhs =
        none) ∧
    (∀ (RowNum ColNum : Nat) (isCompressedRow : Bool) (rhs : SpTripletMat),
      ((SpHbMat.create_nnz 0 RowNum ColNum isCompressedRow).setStructure_triplet rhs).map
        (fun m => (m.EntryNum, m.index, m.order)) = some (0, [], [])) ∧
    (push_triplet_entries exJacobianTriplet).1 = [(1, 2, 0), (1, 3, 1), (1, 1, 2)] ∧
    (SpHbMat.create_nnz 3 1 3 false).setStructure_triplet exJacobianTriplet = none ∧
    (SpHbMat.create 1 3 false false).setStructure_triplet exJacobianTriplet = none ∧
    ((SpHbMat.create_nnz 0 1 3 false).setStructure_triplet exJacobianTriplet).map
      (fun m => (m.EntryNum, m.ColIndex, m.RowIndex)) = some (0, [0, 0, 0, 0], []) ∧
    (∀ m, (SpHbMat.create_nnz 0 1 3 false).setStructure_triplet exJacobianTriplet = some m →
      ¬ m.compresses (push_triplet_entries exJacobianTriplet).1) ∧
    ((SpHbMat.create_nnz 3 1 3 false).setStructure exJacobianTriplet exNoIdentity).map
      (fun m => (m.EntryNum, m.ColIndex, m.RowIndex, m.order)) =
      some (3, [0, 1, 2, 3], [0, 0, 0], [2, 0, 1]) := by
  refine ⟨?_, ?_, ?_, ?_, ?_, ?_, ?_, ?_, ?_⟩
  · intro RowNum ColNum isCompressedRow rhs
    simp [SpHbMat.setStructure_triplet, SpHbMat.create, SpHbMat.set_zero]
  · intro nnz RowNum ColNum isCompressedRow rhs
    simp [SpHbMat.setStructure_triplet, SpHbMat.create_nnz, SpHbMat.set_zero]
    omega
  · intro RowNum ColNum isCompressedRow rhs
    cases isCompressedRow <;>
      simp [SpHbMat.setStructure_triplet, SpHbMat.create_nnz, SpHbMat.set_zero, SpHbMat.fill,
        SpHbMat.index]
  · decide!
  · decide!
  · decide!
  · decide!
  · intro m hm hc
    have h0 : ((SpHbMat.create_nnz 0 1 3 false).setStructure_triplet exJacobianTriplet).map
        (fun m => m.EntryNum) = some 0 := by decide!
    rw [hm] at h0
    simp only [Option.map_some', Option.some.injEq] at h0
    have h3 : ((push_triplet_entries exJacobianTriplet).1.length : Int) = 3 := by decide!
    have h1 := hc.1
    rw [h0, h3] at h1
    exact absurd h1 (by decide)
  · decide!

/-- C12: in the column-compressed form of the 1 x 3 Jacobian with two identity
columns, slot 0 is the entry of column 1, source entry `order_[0] = 2` with the value
10, but after `setStructure` and `setMatVal` it holds 30, the value of source entry 1:
the compressed values are `30, 10, 20` for the columns 1, 2, 3. -/
theorem setMatVal_misplaces_values :
    ((SpHbMat.create_nnz 5 1 5 false).setStructure exJacobianTriplet exIdentityColumns).map
      (fun m =>
        ((m.setMatVal exJacobianTriplet exIdentityColumns).order,
         (m.setMatVal exJacobianTriplet exIdentityColumns).RowIndex,
         (m.setMatVal exJacobianTriplet exIdentityColumns).ColIndex,
         (m.setMatVal exJacobianTriplet exIdentityColumns).MatVal)) =
      some ([2, 0, 1, 3, 4], [0, 0, 0, 0, 0], [0, 1, 2, 3, 4, 5], [30, 10, 20, 1, -1]) ∧
    exJacobianTriplet.MatVal.getD 2 0 = 10 := by
  constructor
  · decide!
  · decide!

/-- C14: in the row-compressed form of the 2 x 1 Jacobian with two identity blocks to
its right, slot 2 is an identity entry (source entry `order_[2] = 3`, the first entry of
the second block); the first `setMatVal` sets `isInitialised_` and leaves 8 there, and a
second `setMatVal` with the Jacobian values 70, 80 changes it to 80. -/
theorem setMatVal_overwrites_identity :
    ((SpHbMat.create_nnz 6 2 5 true).setStructure exJacobianRows exIdentityRows).map
      (fun m => (m.order, m.ColIndex, m.RowIndex)) =
      some ([0, 2, 3, 1, 4, 5], [0, 1, 3, 0, 2, 4], [0, 3, 6]) ∧
    (index_info exJacobianRows exIdentityRows).1.getD 3 (0, 0, 0) = (1, 4, 3) ∧
    ((SpHbMat.create_nnz 6 2 5 true).setStructure exJacobianRows exIdentityRows).map
      (fun m =>
        ((m.setMatVal exJacobianRows exIdentityRows).isInitialised,
         (m.setMatVal exJacobianRows exIdentityRows).MatVal,
         ((m.setMatVal exJacobianRows exIdentityRows).setMatVal
           exJacobianRowsUpdated exIdentityRows).MatVal)) =
      some (true, [7, 0, 8, 1, -1, -1], [70, 0, 80, 1, -1, -1]) := by
  refine ⟨?_, ?_, ?_⟩
  · decide!
  · decide!
  · decide!


/-! ### The dirty flags after an iteration -/

/-- The ratio test sets four dirty flags when it accepts the trial point, and when it
rejects it, it leaves the flags and records reductions with
`actual_reduction < trust_region_ratio_accept_tol * pred_reduction` or
`actual_reduction < -opt_tol`. -/
theorem ratio_test_flags {σ : Type} (o : SqpOptions) (nlp : SqpNlp) (h : QPhandler σ)
    (s : SqpAlgorithm σ) :
    ((ratio_test o nlp h s).isaccept = true ∧
      (ratio_test o nlp h s).QPinfoFlag.Update_A = true) ∨
    ((ratio_test o nlp h s).isaccept = false ∧
      ((ratio_test o nlp h s).actual_reduction <
          o.trust_region_ratio_accept_tol * (ratio_test o nlp h s).pred_reduction ∨
        (ratio_test o nlp h s).actual_reduction < -o.opt_tol)) := by
  simp only [ratio_test]
  split_ifs with hacc
  · left
    exact ⟨rfl, rfl⟩
  · right
    refine ⟨rfl, ?_⟩
    by_contra hcon
    push_neg at hcon
    exact hacc ⟨hcon.1, hcon.2⟩

/-- The trust-region update never clears a dirty flag, and sets Update_delta when it
contracts the radius. -/
theorem update_radius_flags {σ : Type} (o : SqpOptions) (s : SqpAlgorithm σ) :
    (s.QPinfoFlag.Update_A = true → (update_radius o s).state.QPinfoFlag.Update_A = true) ∧
    (s.actual_reduction < o.trust_region_ratio_decrease_tol * s.pred_reduction →
      (update_radius o s).state.QPinfoFlag.Update_delta = true) := by
  simp only [update_radius]
  constructor
  · intro hA
    split_ifs <;> simp [hA]
  · intro hdec
    simp only [if_pos hdec]
    split_ifs <;> simp

/-- C29: for every state and options with
`0 ≤ trust_region_ratio_accept_tol ≤ trust_region_ratio_decrease_tol`, `opt_tol ≥ 0` and
a predicted reduction `≥ 0` in the ratio test, after `ratio_test` followed by
`update_radius` at least one dirty flag is set (Update_A after an accepted step,
Update_delta after a rejected one), so that `setupQP` on a state with these flags does
not throw QP_UNCHANGED. -/
theorem flags_dirty_after_iteration {σ : Type} (o : SqpOptions) (nlp : SqpNlp)
    (h : QPhandler σ) (s : SqpAlgorithm σ)
    (htol0 : 0 ≤ o.trust_region_ratio_accept_tol)
    (htol : o.trust_region_ratio_accept_tol ≤ o.trust_region_ratio_decrease_tol)
    (hopt : 0 ≤ o.opt_tol) (hpred : 0 ≤ (ratio_test o nlp h s).pred_reduction) :
    ((ratio_test o nlp h s).isaccept = true →
      (update_radius o (ratio_test o nlp h s)).state.QPinfoFlag.Update_A = true) ∧
    ((ratio_test o nlp h s).isaccept = false →
      (ratio_test o nlp h s).actual_reduction <
        o.trust_region_ratio_decrease_tol * (ratio_test o nlp h s).pred_reduction ∧
      (update_radius o (ratio_test o nlp h s)).state.QPinfoFlag.Update_delta = true) ∧
    ¬ (update_radius o (ratio_test o nlp h s)).state.QPinfoFlag.all_clear ∧
    ∀ s2 : SqpAlgorithm σ,
      s2.QPinfoFlag = (update_radius o (ratio_test o nlp h s)).state.QPinfoFlag →
      (setupQP h s2).raised = none := by
  obtain ⟨hkeep, hcontract⟩ := update_radius_flags o (ratio_test o nlp h s)
  have hrej : (ratio_test o nlp h s).isaccept = false →
      (ratio_test o nlp h s).actual_reduction <
        o.trust_region_ratio_decrease_tol * (ratio_test o nlp h s).pred_reduction := by
    intro hr
    rcases ratio_test_flags o nlp h s with ⟨hacc, -⟩ | ⟨-, hlt | hlt⟩
    · rw [hacc] at hr
      exact absurd hr (by simp)
    · exact lt_of_lt_of_le hlt (mul_le_mul_of_nonneg_right htol hpred)
    · have h1 : 0 ≤ o.trust_region_ratio_decrease_tol *
          (ratio_test o nlp h s).pred_reduction :=
        mul_nonneg (le_trans htol0 htol) hpred
      linarith
  have hdirty : ¬ (update_radius o (ratio_test o nlp h s)).state.QPinfoFlag.all_clear := by
    intro hclear
    obtain ⟨hA, -, -, -, hd, -⟩ := hclear
    rcases ratio_test_flags o nlp h s with ⟨-, hAset⟩ | ⟨hr, -⟩
    · rw [hkeep hAset] at hA
      exact absurd hA (by simp)
    · rw [hcontract (hrej hr)] at hd
      exact absurd hd (by simp)
  refine ⟨fun hacc => ?_, fun hr => ⟨hrej hr, hcontract (hrej hr)⟩, hdirty, ?_⟩
  · rcases ratio_test_flags o nlp h s with ⟨-, hAset⟩ | ⟨hr, -⟩
    · exact hkeep hAset
    · rw [hr] at hacc
      exact absurd hacc (by simp)
  · intro s2 hs2
    by_cases hiter : s2.stats.iter = 0
    · simp [setupQP, hiter]
    · exact (setupQP_updates h s2 hiter (by rw [hs2]; exact hdirty)).1

/-- Instance of C29 at the second concrete problem with the default options. -/
theorem flags_dirty_after_iteration_witness :
    0 ≤ exOptions.trust_region_ratio_accept_tol ∧
    exOptions.trust_region_ratio_accept_tol ≤ exOptions.trust_region_ratio_decrease_tol ∧
    0 ≤ exOptions.opt_tol ∧
    0 ≤ (ratio_test exOptions exNlp2 exHandler2 exState2).pred_reduction ∧
    ¬ (update_radius exOptions
        (ratio_test exOptions exNlp2 exHandler2 exState2)).state.QPinfoFlag.all_clear :=
  have h1 : 0 ≤ exOptions.trust_region_ratio_accept_tol := by decide!
  have h2 : exOptions.trust_region_ratio_accept_tol ≤
      exOptions.trust_region_ratio_decrease_tol := by decide!
  have h3 : 0 ≤ exOptions.opt_tol := by decide!
  have h4 : 0 ≤ (ratio_test exOptions exNlp2 exHandler2 exState2).pred_reduction := by
    decide!
  ⟨h1, h2, h3, h4,
    (flags_dirty_after_iteration exOptions exNlp2 exHandler2 exState2 h1 h2 h3 h4).2.2.1⟩

/-! ### Stationarity with reconstructed bound multipliers -/

/-- The product with a triplet matrix keeps the length of its result buffer. -/
theorem SpTripletMat.multiply_length (A : SpTripletMat) (p result : Vector) :
    (A.multiply p result).length = result.length := by
  unfold SpTripletMat.multiply
  have h := foldl_invariant (fun r : Vector => r.length = result.length)
    (fun r i =>
      if A.isSymmetric ∧ A.RowIndex.getD i 0 - 1 ≠ A.ColIndex.getD i 0 - 1 then
        Vector.add_number_to_element
          (Vector.add_number_to_element r (A.RowIndex.getD i 0 - 1)
            (A.MatVal.getD i 0 * p.getD (A.ColIndex.getD i 0 - 1) 0))
          (A.ColIndex.getD i 0 - 1) (A.MatVal.getD i 0 * p.getD (A.RowIndex.getD i 0 - 1) 0)
      else
        Vector.add_number_to_element r (A.RowIndex.getD i 0 - 1)
          (A.MatVal.getD i 0 * p.getD (A.ColIndex.getD i 0 - 1) 0))
    (by
      intro r i hr
      simp only
      split_ifs <;> simp [Vector.add_number_to_element, hr])
    (List.range A.EntryNum) (List.replicate result.length 0) (by simp)
  exact h

/-- With GUROBI or CPLEX the bound multipliers are rebuilt from the step. -/
theorem get_multipliers_rebuilt {σ : Type} (o : SqpOptions) (h : QPhandler σ)
    (s : SqpAlgorithm σ)
    (hsolver : o.qp_solver_choice = Solver.GUROBI ∨ o.qp_solver_choice = Solver.CPLEX) :
    (get_multipliers o h s).multiplier_vars =
      Vector.add_vector (Vector.add_vector (s.hessian.multiply s.p_k s.multiplier_vars) 1
        s.grad_f) (-1)
        (s.jacobian.multiply_transpose (get_multipliers o h s).multiplier_cons
          (List.replicate s.nVar 0)) := by
  unfold get_multipliers
  rw [if_neg (by rcases hsolver with h1 | h1 <;> simp [h1]), if_pos hsolver]

/-- C30: with `qp_solver_choice` GUROBI or CPLEX and a buffer `multiplier_vars` of
dimension `nVar`, the stationarity violation that `check_optimality` records is the l1
norm of the vector `H p_k` that `hessian_->multiply(p_k_, .)` computes, and the
stationarity flag is the test `‖H p_k‖₁ < opt_tol_stationarity_feasibility`. -/
theorem check_optimality_stationarity_rebuilt {σ : Type} (o : SqpOptions) (h : QPhandler σ)
    (s : SqpAlgorithm σ)
    (hsolver : o.qp_solver_choice = Solver.GUROBI ∨ o.qp_solver_choice = Solver.CPLEX)
    (hdim : s.multiplier_vars.length = s.nVar) :
    (check_optimality o h s).opt_status.stationarity_violation =
      Vector.calc_one_norm (s.hessian.multiply s.p_k s.multiplier_vars) ∧
    (check_optimality o h s).opt_status.stationarity_violation =
      ∑ i in Finset.range s.nVar,
        |(s.hessian.multiply s.p_k (List.replicate s.nVar 0)).get_value i| ∧
    (check_optimality o h s).opt_status.stationarity =
      decide (Vector.calc_one_norm (s.hessian.multiply s.p_k s.multiplier_vars) <
        o.opt_tol_stationarity_feasibility) := by
  have hbuf : s.hessian.multiply s.p_k s.multiplier_vars =
      s.hessian.multiply s.p_k (List.replicate s.nVar 0) := by
    unfold SpTripletMat.multiply
    rw [hdim, List.length_replicate]
  have hHlen : (s.hessian.multiply s.p_k s.multiplier_vars).length = s.nVar := by
    rw [SpTripletMat.multiply_length, hdim]
  have hval : (check_optimality o h s).opt_status.stationarity_violation =
      Vector.calc_one_norm (s.hessian.multiply s.p_k s.multiplier_vars) := by
    rw [check_optimality_stationarity_calls, get_multipliers_rebuilt o h s hsolver,
      Vector.calc_one_norm_eq, Vector.calc_one_norm_eq, hHlen,
      Vector.add_vector_length, Vector.add_vector_length,
      SpTripletMat.multiply_transpose_length, List.length_replicate]
    apply Finset.sum_congr rfl
    intro i hi
    have hi1 : i < s.nVar := Finset.mem_range.mp hi
    have hJ : i < (s.jacobian.multiply_transpose (get_multipliers o h s).multiplier_cons
        (List.replicate s.nVar 0)).length := by
      rw [SpTripletMat.multiply_transpose_length, List.length_replicate]; exact hi1
    have hH : i < (s.hessian.multiply s.p_k s.multiplier_vars).length := by
      rw [hHlen]; exact hi1
    rw [Vector.add_vector_getD _ _ _ _ (by rw [Vector.add_vector_length]; exact hJ),
      Vector.add_vector_getD _ _ _ _ hJ,
      Vector.add_vector_getD _ _ _ _ (by rw [Vector.add_vector_length]; exact hH),
      Vector.add_vector_getD _ _ _ _ hH]
    congr 1
    ring
  refine ⟨hval, ?_, ?_⟩
  · rw [hval, Vector.calc_one_norm_eq, hHlen, hbuf]
    rfl
  · rw [← hval]
    unfold check_optimality
    simp only [multiplier_vars_is_nullptr, Bool.false_eq_true, if_false]
    split_ifs <;> simp

/-- Instance of C30 at the second concrete problem with GUROBI as the engine. -/
theorem check_optimality_stationarity_rebuilt_witness :
    (exOptionsGurobi.qp_solver_choice = Solver.GUROBI ∨
      exOptionsGurobi.qp_solver_choice = Solver.CPLEX) ∧
    exState2.multiplier_vars.length = exState2.nVar ∧
    (check_optimality exOptionsGurobi exHandler2 exState2).opt_status.stationarity_violation =
      Vector.calc_one_norm (exState2.hessian.multiply exState2.p_k exState2.multiplier_vars) :=
  ⟨Or.inl rfl, rfl,
    (check_optimality_stationarity_rebuilt exOptionsGurobi exHandler2 exState2 (Or.inl rfl)
      rfl).1⟩

/-! ### The second-order correction -/

/-- Evaluating the trial point leaves `grad_f` unchanged. -/
@[simp]
theorem get_trial_point_info_grad_f {σ : Type} (o : SqpOptions) (nlp : SqpNlp)
    (s : SqpAlgorithm σ) : (get_trial_point_info o nlp s).grad_f = s.grad_f := by
  unfold get_trial_point_info
  split_ifs <;> rfl

/-- Evaluating the trial point leaves the step norm unchanged. -/
@[simp]
theorem get_trial_point_info_norm_p_k {σ : Type} (o : SqpOptions) (nlp : SqpNlp)
    (s : SqpAlgorithm σ) : (get_trial_point_info o nlp s).norm_p_k = s.norm_p_k := by
  unfold get_trial_point_info
  split_ifs <;> rfl

/-- Evaluating the trial point leaves the four bound vectors unchanged. -/
@[simp]
theorem get_trial_point_info_bounds {σ : Type} (o : SqpOptions) (nlp : SqpNlp)
    (s : SqpAlgorithm σ) :
    (get_trial_point_info o nlp s).x_l = s.x_l ∧ (get_trial_point_info o nlp s).x_u = s.x_u ∧
    (get_trial_point_info o nlp s).c_l = s.c_l ∧ (get_trial_point_info o nlp s).c_u = s.c_u := by
  unfold get_trial_point_info
  split_ifs <;> exact ⟨rfl, rfl, rfl, rfl⟩

/-- A ratio test that rejects the trial point only records the two reductions and the
decision. -/
theorem ratio_test_rejected {σ : Type} (o : SqpOptions) (nlp : SqpNlp) (h : QPhandler σ)
    (s : SqpAlgorithm σ) (hrej : (ratio_test o nlp h s).isaccept = false) :
    ratio_test o nlp h s =
      { s with
        actual_reduction :=
          s.obj_value + s.rho * s.infea_measure - (s.obj_value_trial + s.rho * s.infea_measure_trial)
        pred_reduction := s.rho * s.infea_measure - get_obj_QP h s
        isaccept := false } := by
  simp only [ratio_test] at hrej ⊢
  split_ifs at hrej ⊢ with hacc
  rfl

/-- Copying a vector of dimension `n` into a zeroed buffer of dimension `n` and back
gives the vector. -/
theorem Vector.copy_back (p q : Vector) (hq : q.length = p.length) :
    Vector.copy_vector q (Vector.copy_vector (List.replicate p.length 0) p) = p := by
  apply list_ext_getD 0
  · simp [Vector.copy_vector, Vector.copy_values, hq]
  · intro j hj
    have hj2 : j < p.length := by
      simpa [Vector.copy_vector, Vector.copy_values, hq] using hj
    simp [Vector.copy_vector, Vector.copy_values, List.getD_eq_getElem?_getD, hq, hj2]

/-- Reverting a correction leaves the decision of the ratio test as it is. -/
theorem second_order_correction_revert_isaccept {σ : Type} (h : QPhandler σ) (p_k_tmp : Vector)
    (qp_obj_tmp norm_p_k_tmp : ℚ) (s : SqpAlgorithm σ) :
    (second_order_correction_revert h p_k_tmp qp_obj_tmp norm_p_k_tmp s).isaccept =
      s.isaccept := by
  simp only [second_order_correction_revert]
  split_ifs <;> rfl

/-- C22: for a step buffer `p_k` of dimension `nVar`: when the previous step was
accepted or the correction is switched off, `second_order_correction` returns the state
unchanged; when it runs and its QP is solved, it returns, and if the corrected step is
rejected as well, `p_k`, `qp_obj` and `norm_p_k` have their values from before the
correction, the handler has last been given `grad_f` and the bounds centred on
`x_k` / `c_k`, and `x_k`, `c_k`, `rho` and `delta` are unchanged. -/
theorem second_order_correction_restores {σ : Type} (o : SqpOptions) (nlp : SqpNlp)
    (h : QPhandler σ) (s : SqpAlgorithm σ) (hdim : s.p_k.length = s.nVar) :
    ((s.isaccept = true ∨ o.perform_second_order_correction_step = false) →
      second_order_correction o nlp h s = Result.ok s) ∧
    (s.isaccept = false → o.perform_second_order_correction_step = true →
      (h.solveQP (soc_handler h s)).solved = true →
      ∃ s2, second_order_correction o nlp h s = Result.ok s2 ∧
        (s2.isaccept = false →
          s2.p_k = s.p_k ∧ s2.qp_obj = s.qp_obj ∧ s2.norm_p_k = s.norm_p_k ∧
          s2.myQP = h.update_bounds s.delta s.x_l s.x_u s.x_k s.c_l s.c_u s.c_k
            (h.update_grad s.grad_f (h.solveQP (soc_handler h s)).handler) ∧
          s2.x_k = s.x_k ∧ s2.c_k = s.c_k ∧ s2.rho = s.rho ∧ s2.delta = s.delta)) := by
  constructor
  · intro hskip
    simp only [second_order_correction]
    rw [if_neg]
    rcases hskip with h1 | h1 <;> simp [h1]
  · intro hrejected hsoc hsolved
    have hsolved2 : (solveQP h
        { s with isaccept := false,
                 myQP := soc_handler h s,
                 norm_p_k := Vector.calc_inf_norm s.p_k }).1 = true := hsolved
    simp only [second_order_correction]
    rw [if_pos (by simp [hrejected, hsoc])]
    simp only [soc_handler] at hsolved hsolved2
    rw [if_pos hsolved2]
    refine ⟨_, rfl, ?_⟩
    intro hrej
    rw [second_order_correction_revert_isaccept] at hrej
    simp only [second_order_correction_trial] at hrej ⊢
    rw [ratio_test_rejected _ _ _ _ hrej]
    simp only [second_order_correction_revert, Bool.not_false, if_true]
    simp only [get_trial_point_info_p_k, get_trial_point_info_grad_f,
      get_trial_point_info_x_k, get_trial_point_info_c_k, get_trial_point_info_rho,
      get_trial_point_info_delta, get_trial_point_info_myQP,
      (get_trial_point_info_bounds _ _ _).1, (get_trial_point_info_bounds _ _ _).2.1,
      (get_trial_point_info_bounds _ _ _).2.2.1, (get_trial_point_info_bounds _ _ _).2.2.2,
      solveQP]
    refine ⟨?_, ?_, ?_, ?_, ?_, ?_, ?_, ?_⟩ <;> try first | trivial | rfl
    rw [← hdim]
    apply Vector.copy_back
    simp [Vector.add_vector]

/-- Instance of C22: in the first concrete problem at `x = 2` the correction of the
rejected step `p_k = 1` is rejected as well, and the step, its norm and the QP
objective are put back. -/
theorem second_order_correction_restores_witness :
    exStateRejected.p_k.length = exStateRejected.nVar ∧
    (second_order_correction exOptionsSOC exNlp (exHandler true 0)
      exStateRejected).state.isaccept = false ∧
    ∃ s2, second_order_correction exOptionsSOC exNlp (exHandler true 0) exStateRejected =
        Result.ok s2 ∧
      (s2.isaccept = false →
        s2.p_k = exStateRejected.p_k ∧ s2.qp_obj = exStateRejected.qp_obj ∧
        s2.norm_p_k = exStateRejected.norm_p_k ∧
        s2.myQP = (exHandler true 0).update_bounds exStateRejected.delta exStateRejected.x_l
          exStateRejected.x_u exStateRejected.x_k exStateRejected.c_l exStateRejected.c_u
          exStateRejected.c_k
          ((exHandler true 0).update_grad exStateRejected.grad_f
            ((exHandler true 0).solveQP (soc_handler (exHandler true 0) exStateRejected)).handler) ∧
        s2.x_k = exStateRejected.x_k ∧ s2.c_k = exStateRejected.c_k ∧
        s2.rho = exStateRejected.rho ∧ s2.delta = exStateRejected.delta) :=
  ⟨rfl, by decide!,
    (second_order_correction_restores exOptionsSOC exNlp (exHandler true 0) exStateRejected
      rfl).2 rfl rfl rfl⟩

/-! ### The predicted reduction of the ratio test -/

/-- Fetching the multipliers leaves the predicted reduction unchanged. -/
@[simp]
theorem get_multipliers_pred_reduction {σ : Type} (o : SqpOptions) (h : QPhandler σ)
    (s : SqpAlgorithm σ) : (get_multipliers o h s).pred_reduction = s.pred_reduction := by
  unfold get_multipliers
  split_ifs <;> rfl

/-- The predicted reduction that the ratio test records. -/
theorem ratio_test_pred_reduction {σ : Type} (o : SqpOptions) (nlp : SqpNlp)
    (h : QPhandler σ) (s : SqpAlgorithm σ) :
    (ratio_test o nlp h s).pred_reduction =
      s.rho * s.infea_measure - h.get_objective s.myQP := by
  simp only [ratio_test]
  split_ifs <;> simp [get_obj_QP]

/-- C21: the ratio test computes its predicted reduction from the objective that the
handler reports at that moment, not from the field `qp_obj`.  Inside the second-order
correction the two differ by `qp_obj_tmp - rho * infea_measure_model`; and in the
iteration of the second concrete problem with `eps2 = 9/10`, where the penalty increase
to 10 is rejected, `rho * infea_measure - qp_obj` is `1/4` at entry to the ratio test
while the ratio test records the predicted reduction `-11`. -/
theorem ratio_test_ignores_qp_obj :
    (∀ (σ : Type) (o : SqpOptions) (nlp : SqpNlp) (h : QPhandler σ) (s : SqpAlgorithm σ),
      (ratio_test o nlp h s).pred_reduction =
        s.rho * s.infea_measure - h.get_objective s.myQP) ∧
    (∀ (σ : Type) (o : SqpOptions) (nlp : SqpNlp) (h : QPhandler σ) (qp_obj_tmp : ℚ)
        (s : SqpAlgorithm σ),
      second_order_correction_trial o nlp h qp_obj_tmp s =
        ratio_test o nlp h (soc_ratio_test_entry o nlp h qp_obj_tmp s) ∧
      (ratio_test o nlp h (soc_ratio_test_entry o nlp h qp_obj_tmp s)).pred_reduction =
        (soc_ratio_test_entry o nlp h qp_obj_tmp s).rho *
            (soc_ratio_test_entry o nlp h qp_obj_tmp s).infea_measure -
          (soc_ratio_test_entry o nlp h qp_obj_tmp s).qp_obj +
          (qp_obj_tmp - s.rho * s.infea_measure_model)) ∧
    ∃ s6, update_penalty_parameter exOptionsEps2 exNlp2 exHandler2 5
        (Optimize_solve exHandler2 (setupQP exHandler2 exState2).state) =
        some (Result.ok s6) ∧
      s6.rho = 1 ∧ s6.stats.penalty_change_Fail = 1 ∧
      (ratio_test_entry exOptionsEps2 exNlp2 s6).rho *
          (ratio_test_entry exOptionsEps2 exNlp2 s6).infea_measure -
        (ratio_test_entry exOptionsEps2 exNlp2 s6).qp_obj = 1 / 4 ∧
      (ratio_test exOptionsEps2 exNlp2 exHandler2
        (ratio_test_entry exOptionsEps2 exNlp2 s6)).pred_reduction = -11 := by
  refine ⟨?_, ?_, ?_⟩
  · intro σ o nlp h s
    exact ratio_test_pred_reduction o nlp h s
  · intro σ o nlp h t s
    refine ⟨rfl, ?_⟩
    rw [ratio_test_pred_reduction]
    simp only [soc_ratio_test_entry, get_obj_QP, get_trial_point_info_rho,
      get_trial_point_info_infea_measure, get_trial_point_info_qp_obj,
      get_trial_point_info_myQP]
    ring
  · obtain ⟨s6, hs6, hobs⟩ := Result.of_map_eq
      (update_penalty_parameter exOptionsEps2 exNlp2 exHandler2 5
        (Optimize_solve exHandler2 (setupQP exHandler2 exState2).state))
      (fun t => (t.rho, t.stats.penalty_change_Fail,
        (ratio_test_entry exOptionsEps2 exNlp2 t).rho *
            (ratio_test_entry exOptionsEps2 exNlp2 t).infea_measure -
          (ratio_test_entry exOptionsEps2 exNlp2 t).qp_obj,
        (ratio_test exOptionsEps2 exNlp2 exHandler2
          (ratio_test_entry exOptionsEps2 exNlp2 t)).pred_reduction))
      (1, 1, 1 / 4, -11) (by decide!)
    have h1 := (Prod.mk.inj hobs).1
    have h2 := (Prod.mk.inj (Prod.mk.inj hobs).2).1
    have h3 := (Prod.mk.inj (Prod.mk.inj (Prod.mk.inj hobs).2).2).1
    have h4 := (Prod.mk.inj (Prod.mk.inj (Prod.mk.inj hobs).2).2).2
    exact ⟨s6, hs6, h1, h2, h3, h4⟩

/-! ### The cap on the penalty increases -/

/-- When the counter of trial increases has reached `penalty_iter_max`, the second
penalty loop is left at once, whatever the other conditions are. -/
theorem penalty_loop_infeasible_capped {σ : Type} (o : SqpOptions) (h : QPhandler σ)
    (infty : ℚ) (fuel : Nat) (rho_trial : ℚ) (s : SqpAlgorithm σ)
    (hcap : o.penalty_iter_max ≤ (s.stats.penalty_change_trial : Int)) :
    penalty_loop_infeasible o h infty fuel rho_trial s = some (rho_trial, s) := by
  cases fuel with
  | zero =>
    simp only [penalty_loop_infeasible]
    rw [if_neg (fun hc => absurd hc.2 (not_lt.mpr hcap))]
  | succ n =>
    simp only [penalty_loop_infeasible]
    rw [if_neg (fun hc => absurd hc.2 (not_lt.mpr hcap))]

/-- C25: `penalty_iter_max` is compared with the number of trial increases counted
since the start of the run.  In the second concrete problem the penalty update is in
Case B, the reduction test of the loop holds and the penalty 1 is below its maximum;
from a state without earlier trials the loop increases the penalty to 10, but from the
state in which 200 trials were counted in earlier iterations it makes no increase,
although none has been tried in the current call. -/
theorem penalty_iter_max_counts_all_iterations :
    exOptions.penalty_iter_max = 200 ∧
    exHandler2.get_infea_measure_model
      (solveLP exHandler2 (setupLP exHandler2 exState2Tried)).2.myLP > exOptions.penalty_update_tol ∧
    exState2Tried.infea_measure - exHandler2.get_infea_measure_model exState2Tried.myQP <
      exState2Tried.eps1 * (exState2Tried.infea_measure - exHandler2.get_infea_measure_model
        (solveLP exHandler2 (setupLP exHandler2 exState2Tried)).2.myLP) ∧
    exState2Tried.rho < exOptions.penalty_parameter_max_value ∧
    (penalty_trial exOptions exHandler2 5 exState2).map
      (fun x => (x.1, x.2.stats.penalty_change_trial)) = some (10, 1) ∧
    (penalty_trial exOptions exHandler2 5 exState2Tried).map
      (fun x => (x.1, x.2.stats.penalty_change_trial)) = some (1, 200) := by
  refine ⟨rfl, ?_, ?_, ?_, ?_, ?_⟩ <;> decide!

/-! ### Termination of the penalty loops -/

/-- The clamped product is larger than a positive trial value below the maximum. -/
theorem rho_trial_increases (o : SqpOptions) (rho_trial : ℚ) (hpos : 0 < rho_trial)
    (hf : 1 < o.penalty_parameter_increase_factor)
    (hlt : rho_trial < o.penalty_parameter_max_value) :
    rho_trial <
      min o.penalty_parameter_max_value (rho_trial * o.penalty_parameter_increase_factor) := by
  apply lt_min hlt
  nlinarith

/-- The clamped product needs one increase less to reach the maximum. -/
theorem rho_trial_next_bound (o : SqpOptions) (rho_trial : ℚ) (j : Nat) (hpos : 0 < rho_trial)
    (hf : 1 < o.penalty_parameter_increase_factor)
    (hlt : rho_trial < o.penalty_parameter_max_value)
    (hpow : o.penalty_parameter_max_value ≤
      rho_trial * o.penalty_parameter_increase_factor ^ (j + 1)) :
    o.penalty_parameter_max_value ≤
      min o.penalty_parameter_max_value (rho_trial * o.penalty_parameter_increase_factor) *
        o.penalty_parameter_increase_factor ^ j := by
  rcases le_total o.penalty_parameter_max_value
      (rho_trial * o.penalty_parameter_increase_factor) with hc | hc
  · rw [min_eq_left hc]
    exact le_mul_of_one_le_right (le_of_lt (lt_trans hpos hlt)) (one_le_pow₀ (le_of_lt hf))
  · rw [min_eq_right hc]
    calc o.penalty_parameter_max_value
        ≤ rho_trial * o.penalty_parameter_increase_factor ^ (j + 1) := hpow
      _ = rho_trial * o.penalty_parameter_increase_factor *
            o.penalty_parameter_increase_factor ^ j := by ring

/-- The first penalty loop solves the QP at most `j` times when `j` increases take the
trial value to the maximum. -/
theorem penalty_loop_feasible_solves {σ : Type} (o : SqpOptions) (h : QPhandler σ)
    (hf : 1 < o.penalty_parameter_increase_factor) :
    ∀ (fuel j : Nat) (rho_trial : ℚ) (s : SqpAlgorithm (σ × Nat)) (r : ℚ)
      (sL : SqpAlgorithm (σ × Nat)), 0 < rho_trial →
      o.penalty_parameter_max_value ≤ rho_trial * o.penalty_parameter_increase_factor ^ j →
      penalty_loop_feasible o h.counting fuel rho_trial s = some (r, sL) →
      sL.myQP.2 ≤ s.myQP.2 + j := by
  intro fuel
  induction fuel with
  | zero =>
    intro j rho_trial s r sL _ _ hres
    simp only [penalty_loop_feasible] at hres
    split_ifs at hres <;> simp only [Option.some.injEq, Prod.mk.injEq] at hres <;>
      (obtain ⟨-, rfl⟩ := hres; exact Nat.le_add_right _ _)
  | succ n ih =>
    intro j rho_trial s r sL hpos hpow hres
    simp only [penalty_loop_feasible] at hres
    split_ifs at hres with h1 h2 h3
    · simp only [Option.some.injEq, Prod.mk.injEq] at hres
      obtain ⟨-, rfl⟩ := hres
      exact Nat.le_add_right _ _
    · push_neg at h2
      cases j with
      | zero =>
        rw [pow_zero, mul_one] at hpow
        exact absurd hpow (not_le.mpr h2)
      | succ j =>
        have := ih j _ _ _ _ (lt_trans hpos (rho_trial_increases o rho_trial hpos hf h2))
          (rho_trial_next_bound o rho_trial j hpos hf h2 hpow) hres
        simp only [solveQP, QPhandler.counting] at this
        omega
    · push_neg at h2
      simp only [Option.some.injEq, Prod.mk.injEq] at hres
      obtain ⟨-, rfl⟩ := hres
      cases j with
      | zero =>
        rw [pow_zero, mul_one] at hpow
        exact absurd hpow (not_le.mpr h2)
      | succ j =>
        simp only [solveQP, QPhandler.counting]
        omega
    · simp only [Option.some.injEq, Prod.mk.injEq] at hres
      obtain ⟨-, rfl⟩ := hres
      exact Nat.le_add_right _ _

/-- The second penalty loop solves the QP at most `j` times when `j` increases take
the trial value to the maximum. -/
theorem penalty_loop_infeasible_solves {σ : Type} (o : SqpOptions) (h : QPhandler σ)
    (infty : ℚ) (hf : 1 < o.penalty_parameter_increase_factor) :
    ∀ (fuel j : Nat) (rho_trial : ℚ) (s : SqpAlgorithm (σ × Nat)) (r : ℚ)
      (sL : SqpAlgorithm (σ × Nat)), 0 < rho_trial →
      o.penalty_parameter_max_value ≤ rho_trial * o.penalty_parameter_increase_factor ^ j →
      penalty_loop_infeasible o h.counting infty fuel rho_trial s = some (r, sL) →
      sL.myQP.2 ≤ s.myQP.2 + j := by
  intro fuel
  induction fuel with
  | zero =>
    intro j rho_trial s r sL _ _ hres
    simp only [penalty_loop_infeasible] at hres
    split_ifs at hres <;> simp only [Option.some.injEq, Prod.mk.injEq] at hres <;>
      (obtain ⟨-, rfl⟩ := hres; exact Nat.le_add_right _ _)
  | succ n ih =>
    intro j rho_trial s r sL hpos hpow hres
    simp only [penalty_loop_infeasible] at hres
    split_ifs at hres with h1 h2 h3
    · simp only [Option.some.injEq, Prod.mk.injEq] at hres
      obtain ⟨-, rfl⟩ := hres
      exact Nat.le_add_right _ _
    · push_neg at h2
      cases j with
      | zero =>
        rw [pow_zero, mul_one] at hpow
        exact absurd hpow (not_le.mpr h2)
      | succ j =>
        have := ih j _ _ _ _ (lt_trans hpos (rho_trial_increases o rho_trial hpos hf h2))
          (rho_trial_next_bound o rho_trial j hpos hf h2 hpow) hres
        simp only [solveQP, QPhandler.counting] at this
        omega
    · push_neg at h2
      simp only [Option.some.injEq, Prod.mk.injEq] at hres
      obtain ⟨-, rfl⟩ := hres
      cases j with
      | zero =>
        rw [pow_zero, mul_one] at hpow
        exact absurd hpow (not_le.mpr h2)
      | succ j =>
        simp only [solveQP, QPhandler.counting]
        omega
    · simp only [Option.some.injEq, Prod.mk.injEq] at hres
      obtain ⟨-, rfl⟩ := hres
      exact Nat.le_add_right _ _

/-- With as many passes allowed as increases take `rho` to the maximum, the penalty
update returns. -/
theorem update_penalty_parameter_returns_within {σ : Type} (o : SqpOptions) (nlp : SqpNlp)
    (h : QPhandler σ) (s : SqpAlgorithm σ) (k : Nat) (hpos : 0 < s.rho)
    (hf : 1 < o.penalty_parameter_increase_factor)
    (hk : o.penalty_parameter_max_value ≤ s.rho * o.penalty_parameter_increase_factor ^ k) :
    ∃ r, update_penalty_parameter o nlp h k s = some r := by
  simp only [update_penalty_parameter]
  split_ifs with h1 h2
  · have hloops : ∃ r, penalty_loops o h
        (h.get_infea_measure_model (solveLP h (setupLP h
          { s with infea_measure_model := h.get_infea_measure_model s.myQP })).2.myLP) k s.rho
        (solveLP h (setupLP h
          { s with infea_measure_model := h.get_infea_measure_model s.myQP })).2 = some r := by
      unfold penalty_loops
      split_ifs
      · exact penalty_loop_feasible_returns o h hf k s.rho _ hpos hk
      · exact penalty_loop_infeasible_returns o h _ hf k s.rho _ hpos hk
    obtain ⟨r, hr⟩ := hloops
    rw [hr]
    exact ⟨_, rfl⟩
  · exact ⟨_, rfl⟩
  · exact ⟨_, rfl⟩

/-- C28: with `rho > 0` and `penalty_parameter_increase_factor > 1`, for every handler
and every `k` with `rho * factor^k ≥ penalty_parameter_max_value` (in particular the
least one): `update_penalty_parameter` returns when its loops are allowed `k` passes,
whatever number of passes is allowed it calls `solveQP` at most `k` times, and a pass
that does not leave the loop strictly increases the trial value. -/
theorem update_penalty_parameter_terminates {σ : Type} (o : SqpOptions) (nlp : SqpNlp)
    (h : QPhandler σ) (s : SqpAlgorithm (σ × Nat)) (k : Nat) (hpos : 0 < s.rho)
    (hf : 1 < o.penalty_parameter_increase_factor)
    (hk : o.penalty_parameter_max_value ≤ s.rho * o.penalty_parameter_increase_factor ^ k) :
    (∃ r, update_penalty_parameter o nlp h.counting k s = some r) ∧
    (∀ fuel r, update_penalty_parameter o nlp h.counting fuel s = some r →
      r.state.myQP.2 ≤ s.myQP.2 + k) ∧
    (∀ rho_trial : ℚ, 0 < rho_trial → rho_trial < o.penalty_parameter_max_value →
      rho_trial <
        min o.penalty_parameter_max_value (rho_trial * o.penalty_parameter_increase_factor)) := by
  refine ⟨update_penalty_parameter_returns_within o nlp h.counting s k hpos hf hk, ?_,
    fun rho_trial h1 h2 => rho_trial_increases o rho_trial h1 hf h2⟩
  intro fuel r hres
  simp only [update_penalty_parameter] at hres
  split_ifs at hres with h1 h2
  · cases hl : penalty_loops o h.counting
        (h.counting.get_infea_measure_model (solveLP h.counting (setupLP h.counting
          { s with infea_measure_model := h.counting.get_infea_measure_model s.myQP })).2.myLP)
        fuel s.rho
        (solveLP h.counting (setupLP h.counting
          { s with infea_measure_model := h.counting.get_infea_measure_model s.myQP })).2 with
    | none =>
      rw [hl] at hres
      simp at hres
    | some p =>
      obtain ⟨r1, sL⟩ := p
      rw [hl] at hres
      simp only [Option.some.injEq] at hres
      subst hres
      simp only [Result.state_ok]
      rw [(penalty_decision_log o nlp h.counting _ r1 sL).1]
      unfold penalty_loops at hl
      split_ifs at hl
      · have := penalty_loop_feasible_solves o h hf fuel k s.rho _ r1 sL hpos hk hl
        exact this
      · have := penalty_loop_infeasible_solves o h _ hf fuel k s.rho _ r1 sL hpos hk hl
        exact this
  · simp only [Option.some.injEq] at hres
    subst hres
    exact Nat.le_add_right _ _
  · simp only [Option.some.injEq] at hres
    subst hres
    exact Nat.le_add_right _ _

/-- Instance of C28 at the second concrete problem: eight increases by the factor 10
take the penalty 1 to its maximum `10^8`. -/
theorem update_penalty_parameter_terminates_witness :
    0 < exState2Counting.rho ∧ 1 < exOptions.penalty_parameter_increase_factor ∧
    exOptions.penalty_parameter_max_value ≤
      exState2Counting.rho * exOptions.penalty_parameter_increase_factor ^ 8 ∧
    (∃ r, update_penalty_parameter exOptions exNlp2 exHandler2.counting 8 exState2Counting =
      some r) ∧
    (∀ fuel r, update_penalty_parameter exOptions exNlp2 exHandler2.counting fuel
        exState2Counting = some r →
      r.state.myQP.2 ≤ exState2Counting.myQP.2 + 8) :=
  have h1 : 0 < exState2Counting.rho := by decide!
  have h2 : 1 < exOptions.penalty_parameter_increase_factor := by decide!
  have h3 : exOptions.penalty_parameter_max_value ≤
      exState2Counting.rho * exOptions.penalty_parameter_increase_factor ^ 8 := by
    norm_num [exOptions, exState2Counting, SqpAlgorithm.with_handlers, exState2]
  ⟨h1, h2, h3,
    (update_penalty_parameter_terminates exOptions exNlp2 exHandler2 exState2Counting 8 h1 h2
      h3).1,
    (update_penalty_parameter_terminates exOptions exNlp2 exHandler2 exState2Counting 8 h1 h2
      h3).2.1⟩

/-! ### The final KKT probe -/

/-- Fetching the multipliers commutes with assignments to the active set of the bounds,
the KKT record, the exit flag, the radius and the dirty flags. -/
theorem get_multipliers_update {σ : Type} (o : SqpOptions) (h : QPhandler σ)
    (s : SqpAlgorithm σ) (B : List ActiveType) (st : OptimalityStatus) (e : Exitflag) (d : ℚ)
    (f : UpdateFlags) :
    get_multipliers o h
        { s with Active_Set_bounds := B, opt_status := st, exit_flag := e, delta := d,
                 QPinfoFlag := f } =
      { get_multipliers o h s with Active_Set_bounds := B, opt_status := st, exit_flag := e,
                                   delta := d, QPinfoFlag := f } := by
  unfold get_multipliers
  split_ifs <;> rfl

/-- The product with a triplet matrix only uses the length of its result buffer. -/
theorem SpTripletMat.multiply_congr (A : SpTripletMat) (p r1 r2 : Vector)
    (hlen : r1.length = r2.length) : A.multiply p r1 = A.multiply p r2 := by
  unfold SpTripletMat.multiply
  rw [hlen]

/-- Copying twice from the same source is copying once. -/
theorem Vector.copy_vector_idem (d src : Vector) :
    Vector.copy_vector (Vector.copy_vector d src) src = Vector.copy_vector d src := by
  simp [Vector.copy_vector, Vector.copy_values]

/-- Copying twice from the same source is copying once (`copy_values`). -/
theorem Vector.copy_values_idem (d src : Vector) :
    Vector.copy_values (Vector.copy_values d src) src = Vector.copy_values d src := by
  simp [Vector.copy_values]

/-- Fetching the multipliers a second time changes nothing. -/
theorem get_multipliers_idem {σ : Type} (o : SqpOptions) (h : QPhandler σ)
    (s : SqpAlgorithm σ) :
    get_multipliers o h (get_multipliers o h s) = get_multipliers o h s := by
  unfold get_multipliers
  split_ifs with h1 h2
  · simp only [Vector.copy_vector_idem, Vector.copy_values_idem]
  · simp only [Vector.copy_vector_idem]
    congr 1
    congr 1
    congr 1
    apply SpTripletMat.multiply_congr
    simp [Vector.add_vector_length, SpTripletMat.multiply_length]
  · rfl

/-- The KKT check, as assignments to the state with the fetched multipliers. -/
theorem check_optimality_eq {σ : Type} (o : SqpOptions) (h : QPhandler σ)
    (s : SqpAlgorithm σ) :
    check_optimality o h s =
      { get_multipliers o h s with
        Active_Set_bounds := identify_active_set o.active_set_tol (get_multipliers o h s).nVar
          (get_multipliers o h s).bound_cons_type (get_multipliers o h s).x_k
          (get_multipliers o h s).x_l (get_multipliers o h s).x_u
          (get_multipliers o h s).Active_Set_bounds
        opt_status :=
          if KKT_satisfied o (kkt_record o (get_multipliers o h s)) then
            { kkt_record o (get_multipliers o h s) with first_order_opt := true }
          else kkt_record o (get_multipliers o h s)
        exit_flag :=
          if KKT_satisfied o (kkt_record o (get_multipliers o h s)) then Exitflag.OPTIMAL
          else (get_multipliers o h s).exit_flag } := by
  unfold check_optimality
  simp only [multiplier_vars_is_nullptr, Bool.false_eq_true, if_false, Bool.and_eq_true,
    decide_eq_true_eq]
  by_cases hk : KKT_satisfied o (kkt_record o (get_multipliers o h s))
  · rw [if_pos hk, if_pos hk]
    have hk2 := hk
    simp only [KKT_satisfied, kkt_record] at hk2
    rw [if_pos (by simpa only [and_assoc] using hk2)]
    rfl
  · rw [if_neg hk, if_neg hk]
    have hk2 := hk
    simp only [KKT_satisfied, kkt_record] at hk2
    rw [if_neg (by simpa only [and_assoc] using hk2)]
    rfl

/-- When the trust-region update throws, it throws SMALL_TRUST_REGION with the exit flag
TRUST_REGION_TOO_SMALL, and has changed nothing else than the radius and the dirty
flags. -/
theorem update_radius_raised {σ : Type} (o : SqpOptions) (s : SqpAlgorithm σ)
    (e : SqpException) (hraise : (update_radius o s).raised = some e) :
    ∃ (d : ℚ) (f : UpdateFlags),
      update_radius o s = Result.raise SqpException.SMALL_TRUST_REGION
        { s with delta := d, QPinfoFlag := f, exit_flag := Exitflag.TRUST_REGION_TOO_SMALL } := by
  simp only [update_radius] at hraise ⊢
  split_ifs at hraise ⊢ <;> first
    | (simp at hraise; done)
    | exact ⟨_, _, rfl⟩

/-- The KKT record computed from a state does not use the active set of the bounds,
the exit flag, the radius or the dirty flags, and of the old record only
`first_order_opt`. -/
theorem kkt_record_update {σ : Type} (o : SqpOptions) (s : SqpAlgorithm σ)
    (B : List ActiveType) (st : OptimalityStatus) (e : Exitflag) (d : ℚ) (f : UpdateFlags) :
    kkt_record o { s with Active_Set_bounds := B, opt_status := st, exit_flag := e, delta := d,
                          QPinfoFlag := f } =
      { kkt_record o s with first_order_opt := st.first_order_opt } := rfl

/-- C26: when the exit flag after the KKT check of an iteration is still UNKNOWN and
`update_radius` throws SMALL_TRUST_REGION, the final KKT check records exactly the
record of the check made just before, does not find the KKT conditions satisfied, and
the loop is left with the exit flag TRUST_REGION_TOO_SMALL. -/
theorem final_KKT_probe_changes_nothing {σ : Type} (o : SqpOptions) (h : QPhandler σ)
    (s : SqpAlgorithm σ)
    (hflag : (check_optimality o h s).exit_flag = Exitflag.UNKNOWN)
    (hsmall : (update_radius o (check_optimality o h s)).raised =
      some SqpException.SMALL_TRUST_REGION) :
    Optimize_check o h s =
      LoopControl.brk (check_optimality o h (update_radius o (check_optimality o h s)).state) ∧
    (check_optimality o h (update_radius o (check_optimality o h s)).state).opt_status =
      (check_optimality o h s).opt_status ∧
    ¬ KKT_satisfied o
      (check_optimality o h (update_radius o (check_optimality o h s)).state).opt_status ∧
    (check_optimality o h (update_radius o (check_optimality o h s)).state).exit_flag =
      Exitflag.TRUST_REGION_TOO_SMALL := by
  obtain ⟨d, f, hrad⟩ := update_radius_raised o (check_optimality o h s) _ hsmall
  have hnot : ¬ KKT_satisfied o (kkt_record o (get_multipliers o h s)) := by
    intro hk
    rw [check_optimality_eq] at hflag
    simp [hk] at hflag
  have hA := check_optimality_eq o h s
  rw [if_neg hnot, if_neg hnot] at hA
  have hstate : (update_radius o (check_optimality o h s)).state =
      { get_multipliers o h s with
        Active_Set_bounds := (check_optimality o h s).Active_Set_bounds
        opt_status := kkt_record o (get_multipliers o h s)
        exit_flag := Exitflag.TRUST_REGION_TOO_SMALL
        delta := d
        QPinfoFlag := f } := by
    rw [hrad, Result.state_raise]
    rw [hA]
  have hfetch : get_multipliers o h (update_radius o (check_optimality o h s)).state =
      (update_radius o (check_optimality o h s)).state := by
    rw [hstate, get_multipliers_update, get_multipliers_idem]
  have hrec : kkt_record o (update_radius o (check_optimality o h s)).state =
      kkt_record o (get_multipliers o h s) := by
    rw [hstate, kkt_record_update]
  have hC := check_optimality_eq o h (update_radius o (check_optimality o h s)).state
  rw [hfetch, hrec, if_neg hnot, if_neg hnot] at hC
  have hopt : (check_optimality o h (update_radius o (check_optimality o h s)).state).opt_status =
      (check_optimality o h s).opt_status := by
    rw [hC]
    conv_rhs => rw [hA]
  refine ⟨?_, hopt, ?_, ?_⟩
  · simp only [Optimize_check]
    rw [if_neg (by simp [hflag]), hrad]
    rfl
  · rw [hopt, hA]
    exact hnot
  · rw [hC, hstate]

/-- Instance of C26 at the second concrete problem with a radius below the minimum. -/
theorem final_KKT_probe_changes_nothing_witness :
    (check_optimality exOptions exHandler2 exStateTiny).exit_flag = Exitflag.UNKNOWN ∧
    (update_radius exOptions (check_optimality exOptions exHandler2 exStateTiny)).raised =
      some SqpException.SMALL_TRUST_REGION ∧
    Optimize_check exOptions exHandler2 exStateTiny =
      LoopControl.brk (check_optimality exOptions exHandler2
        (update_radius exOptions (check_optimality exOptions exHandler2 exStateTiny)).state) ∧
    (check_optimality exOptions exHandler2
        (update_radius exOptions (check_optimality exOptions exHandler2 exStateTiny)).state).opt_status =
      (check_optimality exOptions exHandler2 exStateTiny).opt_status ∧
    ¬ KKT_satisfied exOptions
      (check_optimality exOptions exHandler2
        (update_radius exOptions
          (check_optimality exOptions exHandler2 exStateTiny)).state).opt_status ∧
    (check_optimality exOptions exHandler2
        (update_radius exOptions (check_optimality exOptions exHandler2 exStateTiny)).state).exit_flag =
      Exitflag.TRUST_REGION_TOO_SMALL :=
  have h1 : (check_optimality exOptions exHandler2 exStateTiny).exit_flag = Exitflag.UNKNOWN := by
    decide!
  have h2 : (update_radius exOptions
      (check_optimality exOptions exHandler2 exStateTiny)).raised =
      some SqpException.SMALL_TRUST_REGION := by
    decide!
  ⟨h1, h2, final_KKT_probe_changes_nothing exOptions exHandler2 exStateTiny h1 h2⟩

/-! ### The legacy driver -/

/-- C24: `SQPTNLP::Eval_f` returns `true` and leaves the caller's objective variable as
it was, whatever the oracle computes: the trial-point evaluation of the legacy driver
does not change `obj_value_trial_`, and for the second concrete problem at the trial
point `x = 5/2`, where the oracle gives `f(x) = 1/4`, `obj_value_trial_` is 0 after the
call as before it. -/
theorem Eval_f_loses_objective :
    (∀ (nlp_ : SqpNlp) (x : Vector) (obj_value : ℚ),
      SQPTNLP.Eval_f nlp_ x obj_value = (true, obj_value)) ∧
    (∀ (σ : Type) (nlp_ : SqpNlp) (s : Algorithm σ),
      (Algorithm.get_trial_point_info nlp_ s).obj_value_trial = s.obj_value_trial) ∧
    (Algorithm.get_trial_point_info exNlp2 exAlgorithm).x_trial = [5 / 2] ∧
    exNlp2.eval_f (Algorithm.get_trial_point_info exNlp2 exAlgorithm).x_trial = 1 / 4 ∧
    (Algorithm.get_trial_point_info exNlp2 exAlgorithm).obj_value_trial = 0 ∧
    (Algorithm.get_trial_point_info exNlp2 exAlgorithm).c_trial = [5 / 2] := by
  refine ⟨fun _ _ _ => rfl, ?_, ?_, ?_, ?_, ?_⟩
  · intro σ nlp_ s
    simp only [Algorithm.get_trial_point_info, Algorithm.cal_infea_trial]
    have h := foldl_invariant
      (fun t : Algorithm σ => t.obj_value_trial = s.obj_value_trial)
      (fun (s : Algorithm σ) i =>
        if s.c_trial.getD i 0 < s.c_l.getD i 0 then
          { s with infea_measure_trial :=
              s.infea_measure_trial + (s.c_l.getD i 0 - s.c_trial.getD i 0) }
        else if s.c_trial.getD i 0 > s.c_u.getD i 0 then
          { s with infea_measure_trial :=
              s.infea_measure_trial + (s.c_trial.getD i 0 - s.c_u.getD i 0) }
        else s)
      (by
        intro t i ht
        simp only
        split_ifs <;> exact ht)
    exact h _ _ rfl
  · decide!
  · decide!
  · decide!
  · decide!

/-- C23: the legacy penalty update multiplies the trial penalty by
`min(rho_max, increase_parm)` without clamping the product.  With `rho_max = 20`,
`increase_parm = 10` and `rho_ = 11/5` (so `0 < rho_ ≤ rho_max`), for the exact solver
of the second concrete problem the call returns after one pass of the second loop and
accepts the trial value: `rho_` is 22 afterwards, above `rho_max = 20`. -/
theorem legacy_penalty_exceeds_rho_max :
    0 < exAlgorithm.rho ∧ exAlgorithm.rho ≤ exAlgorithm.options.rho_max ∧
    (Algorithm.update_penalty_parameter exHandler2 1 exAlgorithm).map
      (fun t => (t.rho, t.options.rho_max)) = some (22, 20) ∧
    (Algorithm.update_penalty_parameter exHandler2 1 exAlgorithm).map
      (fun t => (t.stats.penalty_change_trial, t.stats.penalty_change_Succ)) = some (1, 1) ∧
    (Algorithm.update_penalty_parameter exHandler2 1 exAlgorithm).map
      (fun t => (t.infea_measure_model, t.p_k)) = some (1, [1]) ∧
    (Algorithm.update_penalty_parameter exHandler2 1 exAlgorithm).map
      (fun t => decide (t.rho ≤ t.options.rho_max)) = some false := by
  refine ⟨?_, ?_, ?_, ?_, ?_, ?_⟩ <;> decide!

/-! ### Monotonicity of the model infeasibility in the penalty -/

/-- Minimisers for a larger penalty have at most the slack total of minimisers for a
smaller one. -/
theorem SL1QP.slack_total_antitone {π : Type} (P : SL1QP π) (rho1 rho2 : ℚ) (x1 x2 : π)
    (h1 : P.minimises rho1 x1) (h2 : P.minimises rho2 x2) (hlt : rho1 < rho2) :
    P.slack_total x2 ≤ P.slack_total x1 := by
  have a := h1.2 x2 h2.1
  have b := h2.2 x1 h1.1
  simp only [SL1QP.objective] at a b
  by_contra hc
  push_neg at hc
  nlinarith [mul_pos (sub_pos.2 hlt) (sub_pos.2 hc)]

/-- One pass of a penalty loop with an exact tracing handler: when the QP is solved,
the loop invariant holds again for the raised trial penalty; when it is not, the trace
is as before. -/
theorem penalty_pass_trace {σ π : Type} (h : QPhandler σ) (P : SL1QP π)
    (valid : σ → Prop) (penalty : σ → ℚ) (point : σ → π)
    (hex : h.Exact P valid penalty point) (m0 rho_trial rho_trial1 : ℚ)
    (s : SqpAlgorithm (σ × List ℚ)) (hlt : rho_trial < rho_trial1)
    (hs : TraceInv P valid penalty point m0 rho_trial s) (e : Exitflag) :
    ((solveQP h.tracing { s with stats := s.stats.penalty_change_trial_addone,
                                 myQP := h.tracing.update_penalty rho_trial1 s.myQP }).1 = true →
      TraceInv P valid penalty point m0 rho_trial1
        { (solveQP h.tracing { s with stats := s.stats.penalty_change_trial_addone,
                                      myQP := h.tracing.update_penalty rho_trial1 s.myQP }).2 with
          infea_measure_model := h.tracing.get_infea_measure_model
            (solveQP h.tracing { s with stats := s.stats.penalty_change_trial_addone,
                                        myQP := h.tracing.update_penalty rho_trial1 s.myQP }).2.myQP }) ∧
    ((solveQP h.tracing { s with stats := s.stats.penalty_change_trial_addone,
                                 myQP := h.tracing.update_penalty rho_trial1 s.myQP }).1 = false →
      TraceOk m0
        { (solveQP h.tracing { s with stats := s.stats.penalty_change_trial_addone,
                                      myQP := h.tracing.update_penalty rho_trial1 s.myQP }).2 with
          exit_flag := e }) := by
  obtain ⟨hv, hp, hm, hi, hc, hh⟩ := hs
  have hv1 := hex.update_valid rho_trial1 _ hv
  have hp1 := hex.update_stores rho_trial1 _ hv
  have hv2 := hex.solve_valid _ hv1
  have hp2 := hex.solve_keeps _ hv1
  constructor
  · intro hsolved
    have hsolved1 : (h.solveQP (h.update_penalty rho_trial1 s.myQP.1)).solved = true := hsolved
    have hm2 := hex.solve_minimises _ hv1 hsolved1
    rw [hp1] at hm2
    have hle := SL1QP.slack_total_antitone P rho_trial rho_trial1 _ _ hm hm2 hlt
    have hi2 := hex.infea_slack _ hv2
    refine ⟨hv2, hp2.trans hp1, hm2, hi2, ?_, ?_⟩
    · show List.Chain' _ ((if (h.solveQP (h.update_penalty rho_trial1 s.myQP.1)).solved = true
        then h.get_infea_measure_model (h.solveQP (h.update_penalty rho_trial1 s.myQP.1)).handler
          :: s.myQP.2 else s.myQP.2) ++ [m0])
      rw [if_pos hsolved1, List.cons_append]
      refine List.Chain'.cons' hc ?_
      intro y hy
      rw [hh] at hy
      simp only [Option.mem_def, Option.some.injEq] at hy
      rw [← hy, hi, hi2]
      exact hle
    · show ((if (h.solveQP (h.update_penalty rho_trial1 s.myQP.1)).solved = true
        then h.get_infea_measure_model (h.solveQP (h.update_penalty rho_trial1 s.myQP.1)).handler
          :: s.myQP.2 else s.myQP.2) ++ [m0]).head? = _
      rw [if_pos hsolved1]
      rfl
  · intro hfailed
    have hfailed1 : (h.solveQP (h.update_penalty rho_trial1 s.myQP.1)).solved = false := hfailed
    constructor
    · show List.Chain' _ ((if (h.solveQP (h.update_penalty rho_trial1 s.myQP.1)).solved = true
        then h.get_infea_measure_model (h.solveQP (h.update_penalty rho_trial1 s.myQP.1)).handler
          :: s.myQP.2 else s.myQP.2) ++ [m0])
      rw [if_neg (by simp [hfailed1])]
      exact hc
    · show ((if (h.solveQP (h.update_penalty rho_trial1 s.myQP.1)).solved = true
        then h.get_infea_measure_model (h.solveQP (h.update_penalty rho_trial1 s.myQP.1)).handler
          :: s.myQP.2 else s.myQP.2) ++ [m0]).head? = _
      rw [if_neg (by simp [hfailed1])]
      exact hh

/-- The first penalty loop with an exact tracing handler ends with a trace in order. -/
theorem penalty_loop_feasible_trace {σ π : Type} (o : SqpOptions) (h : QPhandler σ)
    (P : SL1QP π) (valid : σ → Prop) (penalty : σ → ℚ) (point : σ → π)
    (hex : h.Exact P valid penalty point) (hf : 1 < o.penalty_parameter_increase_factor)
    (m0 : ℚ) :
    ∀ (fuel : Nat) (rho_trial : ℚ) (s : SqpAlgorithm (σ × List ℚ)) (r : ℚ)
      (sL : SqpAlgorithm (σ × List ℚ)),
      0 < rho_trial → TraceInv P valid penalty point m0 rho_trial s →
      penalty_loop_feasible o h.tracing fuel rho_trial s = some (r, sL) → TraceOk m0 sL := by
  intro fuel
  induction fuel with
  | zero =>
    intro rho_trial s r sL _ hs hres
    simp only [penalty_loop_feasible] at hres
    split_ifs at hres <;> simp only [Option.some.injEq, Prod.mk.injEq] at hres <;>
      (obtain ⟨rfl, rfl⟩ := hres; exact hs.2.2.2.2)
  | succ n ih =>
    intro rho_trial s r sL hpos hs hres
    simp only [penalty_loop_feasible] at hres
    split_ifs at hres with hc hge hsolved
    · simp only [Option.some.injEq, Prod.mk.injEq] at hres
      obtain ⟨rfl, rfl⟩ := hres
      exact hs.2.2.2.2
    · have hlt := rho_trial_increases o rho_trial hpos hf (not_le.mp hge)
      exact ih _ _ _ _ (lt_trans hpos hlt)
        ((penalty_pass_trace h P valid penalty point hex m0 rho_trial _ s hlt hs
          Exitflag.UNKNOWN).1 hsolved) hres
    · have hlt := rho_trial_increases o rho_trial hpos hf (not_le.mp hge)
      simp only [Option.some.injEq, Prod.mk.injEq] at hres
      obtain ⟨rfl, rfl⟩ := hres
      exact (penalty_pass_trace h P valid penalty point hex m0 rho_trial _ s hlt hs _).2
        (by simpa using hsolved)
    · simp only [Option.some.injEq, Prod.mk.injEq] at hres
      obtain ⟨rfl, rfl⟩ := hres
      exact hs.2.2.2.2

/-- The second penalty loop with an exact tracing handler ends with a trace in order. -/
theorem penalty_loop_infeasible_trace {σ π : Type} (o : SqpOptions) (h : QPhandler σ)
    (P : SL1QP π) (valid : σ → Prop) (penalty : σ → ℚ) (point : σ → π)
    (hex : h.Exact P valid penalty point) (hf : 1 < o.penalty_parameter_increase_factor)
    (infty m0 : ℚ) :
    ∀ (fuel : Nat) (rho_trial : ℚ) (s : SqpAlgorithm (σ × List ℚ)) (r : ℚ)
      (sL : SqpAlgorithm (σ × List ℚ)),
      0 < rho_trial → TraceInv P valid penalty point m0 rho_trial s →
      penalty_loop_infeasible o h.tracing infty fuel rho_trial s = some (r, sL) →
      TraceOk m0 sL := by
  intro fuel
  induction fuel with
  | zero =>
    intro rho_trial s r sL _ hs hres
    simp only [penalty_loop_infeasible] at hres
    split_ifs at hres <;> simp only [Option.some.injEq, Prod.mk.injEq] at hres <;>
      (obtain ⟨rfl, rfl⟩ := hres; exact hs.2.2.2.2)
  | succ n ih =>
    intro rho_trial s r sL hpos hs hres
    simp only [penalty_loop_infeasible] at hres
    split_ifs at hres with hc hge hsolved
    · simp only [Option.some.injEq, Prod.mk.injEq] at hres
      obtain ⟨rfl, rfl⟩ := hres
      exact hs.2.2.2.2
    · have hlt := rho_trial_increases o rho_trial hpos hf (not_le.mp hge)
      exact ih _ _ _ _ (lt_trans hpos hlt)
        ((penalty_pass_trace h P valid penalty point hex m0 rho_trial _ s hlt hs
          Exitflag.UNKNOWN).1 hsolved) hres
    · have hlt := rho_trial_increases o rho_trial hpos hf (not_le.mp hge)
      simp only [Option.some.injEq, Prod.mk.injEq] at hres
      obtain ⟨rfl, rfl⟩ := hres
      exact (penalty_pass_trace h P valid penalty point hex m0 rho_trial _ s hlt hs _).2
        (by simpa using hsolved)
    · simp only [Option.some.injEq, Prod.mk.injEq] at hres
      obtain ⟨rfl, rfl⟩ := hres
      exact hs.2.2.2.2

/-- The step `exStep rho` minimises the subproblem of the second concrete problem with
penalty `rho`. -/
theorem exStep_minimises (rho : ℚ) : exSL1QP.minimises rho (exStep rho) := by
  simp only [SL1QP.minimises, SL1QP.objective, exSL1QP, exStep]
  split_ifs with h1 h2
  · refine ⟨⟨by norm_num, le_refl _⟩, ?_⟩
    intro y hy
    nlinarith [hy.1, hy.2, mul_nonneg (sub_nonneg.2 hy.2) (sub_nonneg.2 hy.2)]
  · refine ⟨⟨le_refl _, by norm_num⟩, ?_⟩
    intro y hy
    nlinarith [hy.1, hy.2, mul_nonneg (sub_nonneg.2 hy.1) (sub_nonneg.2 hy.1)]
  · refine ⟨⟨by linarith, by linarith⟩, ?_⟩
    intro y hy
    nlinarith [sq_nonneg (y - (rho - 2) / 2)]

/-- The handler of the second concrete problem returns exact minimisers of its
subproblem on the states of the QP. -/
theorem exHandler2_exact :
    exHandler2.Exact exSL1QP (fun q => q.isLP = false) (fun q => q.rho)
      (fun q => exStep q.rho) :=
  { update_valid := fun _ _ hq => hq
    update_stores := fun _ _ _ => rfl
    solve_valid := fun _ hq => hq
    solve_keeps := fun _ _ => rfl
    solve_minimises := fun q _ _ => exStep_minimises q.rho
    infea_slack := fun q hq => by
      show (if q.isLP = true then (1 : ℚ) else 2 - exStep q.rho) = 2 - exStep q.rho
      rw [if_neg (by simp [hq])] }

/-- In a trace in order the latest value is at most the value the trace starts from. -/
theorem trace_latest_le (L : List ℚ) (m0 v : ℚ)
    (hc : List.Chain' (fun later earlier => later ≤ earlier) (L ++ [m0]))
    (hh : (L ++ [m0]).head? = some v) : v ≤ m0 := by
  cases L with
  | nil =>
    simp only [List.nil_append, List.head?_cons, Option.some.injEq] at hh
    exact le_of_eq hh.symm
  | cons a L1 =>
    simp only [List.cons_append, List.head?_cons, Option.some.injEq] at hh
    subst hh
    have hpw := List.chain'_iff_pairwise.mp hc
    rw [List.cons_append, List.pairwise_cons] at hpw
    exact hpw.1 m0 (by simp)

/-- C27: when `(p1, u1)` minimises the SL1QP subproblem with penalty `rho1` and
`(p2, u2)` minimises it with a penalty `rho2 > rho1`, the slack total of the second is
at most that of the first.  Consequently, for a handler that returns exact minimisers
of the subproblem and holds one for the penalty `rho` at entry, with `rho > 0` and an
increase factor above 1, the values of `infea_measure_model` in the penalty loops of
`update_penalty_parameter`, as traced from the value `m0` read at entry, are
non-increasing: in the trace (latest first) every value is at most the one before it,
and the latest is the value the loops end with. -/
theorem infea_measure_model_monotone {σ π : Type} (P : SL1QP π) (o : SqpOptions)
    (h : QPhandler σ) (valid : σ → Prop) (penalty : σ → ℚ) (point : σ → π)
    (s : SqpAlgorithm (σ × List ℚ)) (hex : h.Exact P valid penalty point)
    (hv : valid s.myQP.1) (hp : penalty s.myQP.1 = s.rho)
    (hm : P.minimises s.rho (point s.myQP.1)) (hlog : s.myQP.2 = [])
    (hpos : 0 < s.rho) (hf : 1 < o.penalty_parameter_increase_factor) :
    (∀ (rho1 rho2 : ℚ) (x1 x2 : π), P.minimises rho1 x1 → P.minimises rho2 x2 →
      rho1 < rho2 → P.slack_total x2 ≤ P.slack_total x1) ∧
    ∀ (fuel : Nat) (r : ℚ) (sL : SqpAlgorithm (σ × List ℚ)),
      penalty_trial o h.tracing fuel s = some (r, sL) →
      List.Chain' (fun later earlier => later ≤ earlier)
        (sL.myQP.2 ++ [h.get_infea_measure_model s.myQP.1]) ∧
      (sL.myQP.2 ++ [h.get_infea_measure_model s.myQP.1]).head? =
        some sL.infea_measure_model ∧
      sL.infea_measure_model ≤ h.get_infea_measure_model s.myQP.1 := by
  refine ⟨fun rho1 rho2 x1 x2 h1 h2 hlt => SL1QP.slack_total_antitone P rho1 rho2 x1 x2 h1 h2 hlt,
    ?_⟩
  intro fuel r sL hres
  have hstart : TraceInv P valid penalty point (h.get_infea_measure_model s.myQP.1) s.rho
      (solveLP h.tracing (setupLP h.tracing
        { s with infea_measure_model := h.tracing.get_infea_measure_model s.myQP })).2 := by
    refine ⟨hv, hp, hm, hex.infea_slack _ hv, ?_, ?_⟩
    · show List.Chain' _ (s.myQP.2 ++ [h.get_infea_measure_model s.myQP.1])
      rw [hlog]
      exact List.chain'_singleton _
    · show (s.myQP.2 ++ [h.get_infea_measure_model s.myQP.1]).head? = _
      rw [hlog]
      rfl
  have hok : TraceOk (h.get_infea_measure_model s.myQP.1) sL := by
    simp only [penalty_trial] at hres
    split_ifs at hres
    unfold penalty_loops at hres
    split_ifs at hres
    · exact penalty_loop_feasible_trace o h P valid penalty point hex hf _ fuel s.rho _ r sL
        hpos hstart hres
    · exact penalty_loop_infeasible_trace o h P valid penalty point hex hf _ _ fuel s.rho _ r sL
        hpos hstart hres
  exact ⟨hok.1, hok.2, trace_latest_le _ _ _ hok.1 hok.2⟩

/-- Instance of C27 at the second concrete problem with the default options: its
handler returns the exact minimisers `exStep rho`; the penalty loops raise the penalty
from 1 to 10 and the model infeasibility goes from 5/2 to 1. -/
theorem infea_measure_model_monotone_witness :
    exHandler2.Exact exSL1QP (fun q => q.isLP = false) (fun q => q.rho)
      (fun q => exStep q.rho) ∧
    exSL1QP.minimises exState2Recording.rho (exStep exState2Recording.myQP.1.rho) ∧
    0 < exState2Recording.rho ∧ 1 < exOptions.penalty_parameter_increase_factor ∧
    (penalty_trial exOptions exHandler2.tracing 5 exState2Recording).map
      (fun x => (x.1, x.2.myQP.2, x.2.infea_measure_model)) = some (10, [1], 1) ∧
    exHandler2.get_infea_measure_model exState2Recording.myQP.1 = 5 / 2 ∧
    ((∀ (rho1 rho2 : ℚ) (x1 x2 : ℚ), exSL1QP.minimises rho1 x1 → exSL1QP.minimises rho2 x2 →
      rho1 < rho2 → exSL1QP.slack_total x2 ≤ exSL1QP.slack_total x1) ∧
    ∀ (fuel : Nat) (r : ℚ) (sL : SqpAlgorithm (ExQP × List ℚ)),
      penalty_trial exOptions exHandler2.tracing fuel exState2Recording = some (r, sL) →
      List.Chain' (fun later earlier => later ≤ earlier)
        (sL.myQP.2 ++ [exHandler2.get_infea_measure_model exState2Recording.myQP.1]) ∧
      (sL.myQP.2 ++ [exHandler2.get_infea_measure_model exState2Recording.myQP.1]).head? =
        some sL.infea_measure_model ∧
      sL.infea_measure_model ≤ exHandler2.get_infea_measure_model exState2Recording.myQP.1) :=
  have h1 : exSL1QP.minimises exState2Recording.rho (exStep exState2Recording.myQP.1.rho) :=
    exStep_minimises 1
  have h2 : 0 < exState2Recording.rho := by decide!
  have h3 : 1 < exOptions.penalty_parameter_increase_factor := by decide!
  ⟨exHandler2_exact, h1, h2, h3, by decide!, by decide!,
    infea_measure_model_monotone exSL1QP exOptions exHandler2 (fun q => q.isLP = false)
      (fun q => q.rho) (fun q => exStep q.rho) exState2Recording exHandler2_exact rfl rfl h1 rfl
      h2 h3⟩
end SQPhotstart
